import Mathlib

/-!
# qoinlyid/cache: a typed caching facade over a key-value store

A shallow embedding of the Go package `cache` (`helper.go`, `get.go`, `set.go`,
`del.go`, `misc.go`, `const.go`, `errors.go`) together with theorems about it.

Conventions of the embedding.

* A Go `string` is a sequence of bytes and so is a `[]byte`.  The model writes a
  string as a Lean `String` and a byte slice as a `List Char`, one character per
  byte (the byte `b` is the character of code `b`); `[]byte(s)` is `s.data` and
  `string(b)` is `String.mk b`.  Every operation of the package that looks inside a
  string (the separator, decimal digits, signs, boolean literals) only inspects
  ASCII characters.
* A value of interface type `any` is a `Value`: a dynamic type together with its
  payload.  A pointer carries the content of the variable it points to, and a
  function that writes through `out` returns the updated `out`.
* The key-value store, the msgpack codec, `reflect`, float formatting and
  `qore.ValidationIsEmpty` are external to the package.  The store is a state
  (`World`) with a small command semantics; the others are the fields of `Libs`.
* A function that may panic returns a `Res`.
-/

namespace Cache

/-! ## Values of type `any` -/

/-- Content of a Go `[]byte`. -/
abbrev Bytes := List Char

/-- Go `time.Duration`: a number of nanoseconds. -/
abbrev Duration := Int

/-- Go `time.Second`. -/
def Second : Duration := 1000000000

/-- Go `time.Minute`. -/
def Minute : Duration := 60 * Second

/-- Dynamic types that the package distinguishes.  `other` is any further
non-pointer type (struct, map, slice, named type, ...), known by its name. -/
inductive GoType
  | string | bytes | bool
  | int | int8 | int16 | int32 | int64
  | uint | uint8 | uint16 | uint32 | uint64
  | float32 | float64
  | other (tname : String)
  | ptr (elem : GoType)
  deriving DecidableEq, Repr

/-- A value held in an `any`.  Integers carry their mathematical value, floats
their IEEE bit pattern, a value of any other type an identifier.  `nil` is the nil
interface; `ptr t x` is a non-nil `*t` whose target currently holds `x`;
`nilptr t` is the nil pointer of type `*t`. -/
inductive Value
  | nil
  | string (s : String)
  | bytes (b : Bytes)
  | bool (b : Bool)
  | int (n : Int) | int8 (n : Int) | int16 (n : Int) | int32 (n : Int) | int64 (n : Int)
  | uint (n : Nat) | uint8 (n : Nat) | uint16 (n : Nat) | uint32 (n : Nat) | uint64 (n : Nat)
  | float32 (bits : Nat) | float64 (bits : Nat)
  | other (tname : String) (id : Nat)
  | ptr (elem : GoType) (target : Value)
  | nilptr (elem : GoType)
  deriving DecidableEq, Repr

/-- Result of `reflect.ValueOf(v).Type()`; `none` for the nil interface, on which
`Type` panics. -/
def Value.typeOf : Value → Option GoType
  | .nil => none
  | .string _ => some .string
  | .bytes _ => some .bytes
  | .bool _ => some .bool
  | .int _ => some .int | .int8 _ => some .int8 | .int16 _ => some .int16
  | .int32 _ => some .int32 | .int64 _ => some .int64
  | .uint _ => some .uint | .uint8 _ => some .uint8 | .uint16 _ => some .uint16
  | .uint32 _ => some .uint32 | .uint64 _ => some .uint64
  | .float32 _ => some .float32 | .float64 _ => some .float64
  | .other t _ => some (.other t)
  | .ptr t _ => some (.ptr t)
  | .nilptr t => some (.ptr t)

/-- Element type `t` when the dynamic type of the value is `*t`. -/
def Value.elemType? : Value → Option GoType
  | .ptr t _ => some t
  | .nilptr t => some t
  | _ => none

/-- Size in bits of Go `int` and `uint` (`strconv.IntSize`) on a 64-bit platform. -/
def IntSize : Nat := 64

/-- The value lies in the range of its integer type (always true for a value that
is not an integer). -/
def Value.inRange : Value → Bool
  | .int n => decide (-(2 : Int) ^ (IntSize - 1) ≤ n ∧ n < 2 ^ (IntSize - 1))
  | .int8 n => decide (-(2 : Int) ^ 7 ≤ n ∧ n < 2 ^ 7)
  | .int16 n => decide (-(2 : Int) ^ 15 ≤ n ∧ n < 2 ^ 15)
  | .int32 n => decide (-(2 : Int) ^ 31 ≤ n ∧ n < 2 ^ 31)
  | .int64 n => decide (-(2 : Int) ^ 63 ≤ n ∧ n < 2 ^ 63)
  | .uint n => decide (n < 2 ^ IntSize)
  | .uint8 n => decide (n < 2 ^ 8)
  | .uint16 n => decide (n < 2 ^ 16)
  | .uint32 n => decide (n < 2 ^ 32)
  | .uint64 n => decide (n < 2 ^ 64)
  | _ => true

/-- The types that `encoder` writes as text without msgpack, floats apart:
`string`, `[]byte`, `bool` and the ten integer types. -/
def Value.isNative : Value → Bool
  | .string _ | .bytes _ | .bool _ => true
  | .int _ | .int8 _ | .int16 _ | .int32 _ | .int64 _ => true
  | .uint _ | .uint8 _ | .uint16 _ | .uint32 _ | .uint64 _ => true
  | _ => false

/-! ## Errors -/

/-- The two failure kinds of `strconv`: `strconv.ErrSyntax` and `strconv.ErrRange`. -/
inductive NumErr
  | Syntax | Range
  deriving DecidableEq, Repr

/-- Go `error` values met by the package. -/
inductive Error
  | ErrClientNil
  | ErrClientNotCluster
  | ErrEmptyKey
  | ErrEmptyPrefix
  | ErrOutNonPointer
  | New (msg : String)
  | Wrap (msg : String) (err : Error)
  | NumError (fn : String) (num : String) (kind : NumErr)
  | RedisNil
  | External (msg : String)
  deriving DecidableEq, Repr

/-- Go `errors.Is(err, target)` for the errors above: `fmt.Errorf` with `%w` wraps. -/
def Error.Is : Error → Error → Bool
  | .Wrap m e, target => decide (Error.Wrap m e = target) || Error.Is e target
  | e, target => decide (e = target)

/-- Outcome of a call that may panic. -/
inductive Res (α : Type)
  | ret (a : α)
  | panic (msg : String)
  deriving DecidableEq, Repr

/-! ## strconv and fmt -/

/-- Decimal digit `d` as a character. -/
def digitChar (d : Nat) : Char := Char.ofNat (48 + d)

/-- Base-10 digits of `n`, most significant first; `fuel` bounds the number of
divisions by ten. -/
def natDigitsFuel : Nat → Nat → List Char
  | 0, n => [digitChar (n % 10)]
  | fuel + 1, n =>
    if n < 10 then [digitChar n] else natDigitsFuel fuel (n / 10) ++ [digitChar (n % 10)]

/-- Go `strconv.FormatUint(n, 10)`, which is what `%v` prints for an unsigned
integer. -/
def FormatUint (n : Nat) : String := String.mk (natDigitsFuel n n)

/-- Go `strconv.FormatInt(n, 10)`, which is what `%v` prints for a signed integer. -/
def FormatInt (n : Int) : String :=
  if n < 0 then String.mk ('-' :: natDigitsFuel n.natAbs n.natAbs) else FormatUint n.toNat

/-- Go `strconv.FormatBool`, which is what `%v` prints for a `bool`. -/
def FormatBool (b : Bool) : String := if b then "true" else "false"

/-- The digit loop of `strconv.ParseUint` in base 10: `n` is the value read so
far, `maxVal` the largest value of the target width.  `none` is a syntax error,
`some none` a range error. -/
def parseUintLoop (maxVal : Nat) : List Char → Nat → Option (Option Nat)
  | [], n => some (some n)
  | c :: cs, n =>
    if '0' ≤ c ∧ c ≤ '9' then
      if n ≥ (2 ^ 64 - 1) / 10 + 1 then some none
      else
        let n1 := n * 10 + (c.toNat - 48)
        if n1 > maxVal then some none else parseUintLoop maxVal cs n1
    else none

/-- Go `strconv.ParseUint(s, 10, bitSize)`: on a range error the value returned
with the error is the largest value of the width. -/
def ParseUint (s : String) (bitSize : Nat) : Except (Error × Nat) Nat :=
  if s = "" then .error (.NumError "ParseUint" s .Syntax, 0)
  else
    let bits := if bitSize = 0 then IntSize else bitSize
    let maxVal := 2 ^ bits - 1
    match parseUintLoop maxVal s.data 0 with
    | none => .error (.NumError "ParseUint" s .Syntax, 0)
    | some none => .error (.NumError "ParseUint" s .Range, maxVal)
    | some (some n) => .ok n

/-- Go `strconv.ParseInt(s, 10, bitSize)`. -/
def ParseInt (s : String) (bitSize : Nat) : Except Error Int :=
  if s = "" then .error (.NumError "ParseInt" s .Syntax)
  else
    let neg := s.data.head? = some '-'
    let rest := if s.data.head? = some '+' ∨ s.data.head? = some '-' then s.data.tail else s.data
    let un : Except Error Nat :=
      match ParseUint (String.mk rest) bitSize with
      | .ok n => .ok n
      | .error (.NumError _ _ .Range, m) => .ok m
      | .error _ => .error (.NumError "ParseInt" s .Syntax)
    match un with
    | .error e => .error e
    | .ok un =>
      let bits := if bitSize = 0 then IntSize else bitSize
      let cutoff := 2 ^ (bits - 1)
      if !neg && un ≥ cutoff then .error (.NumError "ParseInt" s .Range)
      else if neg && un > cutoff then .error (.NumError "ParseInt" s .Range)
      else .ok (if neg then -(un : Int) else (un : Int))

/-- Go `strconv.Atoi(s)`: `ParseInt(s, 10, 0)` with the function name of the error
replaced. -/
def Atoi (s : String) : Except Error Int :=
  match ParseInt s 0 with
  | .ok n => .ok n
  | .error (.NumError _ num kind) => .error (.NumError "Atoi" num kind)
  | .error e => .error e

/-- Go `strconv.ParseBool`. -/
def ParseBool (s : String) : Except Error Bool :=
  if s = "1" ∨ s = "t" ∨ s = "T" ∨ s = "TRUE" ∨ s = "true" ∨ s = "True" then .ok true
  else if s = "0" ∨ s = "f" ∨ s = "F" ∨ s = "FALSE" ∨ s = "false" ∨ s = "False" then .ok false
  else .error (.NumError "ParseBool" s .Syntax)

/-! ## External libraries -/

/-- Functions of other libraries that the package calls and whose code is not part
of it. -/
structure Libs where
  /-- Library function `qore.ValidationIsEmpty` on a string. -/
  ValidationIsEmpty : String → Bool
  /-- Library function `msgpack.Marshal`. -/
  Marshal : Value → Except Error Bytes
  /-- Library function `msgpack.Unmarshal(data, out)` for an `out` of pointer kind:
  the error and the updated `out`. -/
  Unmarshal : Bytes → Value → Option Error × Value
  /-- Method `Type.AssignableTo` of `reflect`: a value of the first type may be
  assigned to a variable of the second. -/
  AssignableTo : GoType → GoType → Bool
  /-- What `%v` prints for a float of the given bit pattern and width. -/
  FormatFloat : Nat → Nat → String
  /-- Go `strconv.ParseFloat(s, bitSize)`, as a bit pattern of that width. -/
  ParseFloat : String → Nat → Except Error Nat

/-! ## Codec (`helper.go`) -/

/-- `encoder` of `helper.go`: the encoded bytes of `val`, chosen by its type. -/
def encoder (L : Libs) (val : Value) : Except Error Bytes :=
  match val with
  | .string v => .ok v.data
  | .bytes v => .ok v
  | .int8 v | .int16 v | .int32 v | .int64 v | .int v => .ok (FormatInt v).data
  | .uint v | .uint8 v | .uint16 v | .uint32 v | .uint64 v => .ok (FormatUint v).data
  | .float32 v => .ok (L.FormatFloat v 32).data
  | .float64 v => .ok (L.FormatFloat v 64).data
  | .bool v => .ok (FormatBool v).data
  | v =>
    match L.Marshal v with
    | .error err => .error err
    | .ok data => .ok data

/-- The statement `*v = x; return nil` of `decoder` for the pointer `out`: a nil
pointer panics. -/
def storeThrough (out : Value) (x : Value) : Res (Option Error) × Value :=
  match out with
  | .ptr t _ => (.ret none, .ptr t x)
  | _ => (.panic "invalid memory address or nil pointer dereference", out)

/-- One numeric case of `decoder`: return the parse error, or store the parsed
value through `out`. -/
def storeParsed {α : Type} (out : Value) (parsed : Except Error α) (mk : α → Value) :
    Res (Option Error) × Value :=
  match parsed with
  | .error err => (.ret (some err), out)
  | .ok x => storeThrough out (mk x)

/-- `ParseUint` without the value that accompanies an error. -/
def parseUint (s : String) (bitSize : Nat) : Except Error Nat :=
  match ParseUint s bitSize with
  | .ok n => .ok n
  | .error (e, _) => .error e

/-- `decoder` of `helper.go`: parses `data` into the variable `out` points to.
Returns the error (or panic) and `out` after the call. -/
def decoder (L : Libs) (data : Bytes) (out : Value) : Res (Option Error) × Value :=
  if out = .nil then (.ret (some (.New "output parameter is nil")), out)
  else
    match out.elemType? with
    | some .string => storeThrough out (.string (String.mk data))
    | some .bytes => storeThrough out (.bytes data)
    | some .int => storeParsed out (Atoi (String.mk data)) .int
    | some .int8 => storeParsed out (ParseInt (String.mk data) 8) .int8
    | some .int16 => storeParsed out (ParseInt (String.mk data) 16) .int16
    | some .int32 => storeParsed out (ParseInt (String.mk data) 32) .int32
    | some .int64 => storeParsed out (ParseInt (String.mk data) 64) .int64
    | some .uint => storeParsed out (parseUint (String.mk data) 0) .uint
    | some .uint8 => storeParsed out (parseUint (String.mk data) 8) .uint8
    | some .uint16 => storeParsed out (parseUint (String.mk data) 16) .uint16
    | some .uint32 => storeParsed out (parseUint (String.mk data) 32) .uint32
    | some .uint64 => storeParsed out (parseUint (String.mk data) 64) .uint64
    | some .float32 => storeParsed out (L.ParseFloat (String.mk data) 32) .float32
    | some .float64 => storeParsed out (L.ParseFloat (String.mk data) 64) .float64
    | some .bool => storeParsed out (ParseBool (String.mk data)) .bool
    | some _ =>
      match L.Unmarshal data out with
      | (err, out1) => (.ret err, out1)
    | none => (.ret (some (.Wrap "out type non-pointer %T" .ErrOutNonPointer)), out)

/-! ## Constants (`const.go`) -/

/-- Constant `DefaultNameSpace` of `const.go`. -/
def DefaultNameSpace : String := "cache-app"

/-- Constant `DefaultKeySeparator` of `const.go`. -/
def DefaultKeySeparator : String := ":"

/-- Constant `DefaultTTL` of `const.go`. -/
def DefaultTTL : Duration := Minute

/-- Constant `KeyRateLimit` of `const.go`. -/
def KeyRateLimit : String := "rate-limit"

/-! ## The key-value store -/

/-- A Go `context.Context` as far as the package can tell contexts apart: the
background context, a context with a timeout derived from a parent, or a context
made by the caller. -/
inductive Context
  | Background
  | WithTimeout (parent : Context) (timeout : Duration)
  | caller (id : Nat)
  deriving DecidableEq, Repr

/-- A Go `context.CancelFunc` returned by `context.WithTimeout`. -/
abbrev CancelFunc := Unit

/-- A command sent to the store through the client, with the context it was
given (`none` is a nil context).  A scan also names the master it was sent to;
`none` is the client handle of the instance. -/
inductive Call
  | Get (ctx : Option Context) (key : String)
  | Set (ctx : Option Context) (key : String) (value : Bytes) (expiration : Duration)
  | SetNX (ctx : Option Context) (key : String) (value : Int) (expiration : Duration)
  | Del (ctx : Option Context) (key : String)
  | Exists (ctx : Option Context) (key : String)
  | Scan (node : Option Nat) (ctx : Option Context) (cursor : Nat) (pattern : String) (count : Int)
  deriving DecidableEq, Repr

/-- An entry of the store: the bytes and the expiration it was written with
(zero: no expiration). -/
structure Entry where
  val : Bytes
  ttl : Duration
  deriving DecidableEq, Repr

/-- Everything outside the package that a call can change or depend on: the
content of the store, the commands that fail in transit, the commands issued so
far (oldest first), the number of cancel functions invoked and the number of
compute functions invoked. -/
structure World where
  data : List (String × Entry)
  fault : Call → Option Error
  log : List Call
  cancels : Nat
  remCalls : Nat

/-- The world after command `c` was sent. -/
def World.issue (w : World) (c : Call) : World := { w with log := w.log ++ [c] }

/-- The world after a cancel function ran. -/
def World.cancel (w : World) : World := { w with cancels := w.cancels + 1 }

/-- The world after the deferred `if cancel != nil { cancel() }`. -/
def World.cancelIf (w : World) (cancel : Option CancelFunc) : World :=
  if cancel.isSome then w.cancel else w

/-- The entry stored under `key`, if any. -/
def World.find (w : World) (key : String) : Option Entry := w.data.lookup key

/-- The store content without `key`. -/
def World.erase (w : World) (key : String) : List (String × Entry) :=
  w.data.filter (fun kv => kv.1 != key)

/-- Modelled from the spec: the external key-value store client of section 6,
whose code is not part of the package.  `Get(deadline, key) -> (bytes, error)`
fails with a distinguishable not-found condition when the key is absent. -/
def redis.Get (ctx : Option Context) (key : String) (w : World) : Except Error Bytes × World :=
  match w.fault (.Get ctx key) with
  | some e => (.error e, w.issue (.Get ctx key))
  | none =>
    match w.find key with
    | none => (.error .RedisNil, w.issue (.Get ctx key))
    | some e => (.ok e.val, w.issue (.Get ctx key))

/-- Modelled from the spec: `Set(deadline, key, bytes, ttl) -> error` of the
external store client, an unconditional write; `ttl = 0` means no expiration. -/
def redis.Set (ctx : Option Context) (key : String) (value : Bytes) (expiration : Duration)
    (w : World) : Option Error × World :=
  match w.fault (.Set ctx key value expiration) with
  | some e => (some e, w.issue (.Set ctx key value expiration))
  | none =>
    (none, { w.issue (.Set ctx key value expiration) with
              data := (key, ⟨value, expiration⟩) :: w.erase key })

/-- Modelled from the spec: `SetIfAbsent(deadline, key, value, ttl) -> (created, error)`
of the external store client, the atomic conditional create.  The client writes the
integer `value` as its decimal text. -/
def redis.SetNX (ctx : Option Context) (key : String) (value : Int) (expiration : Duration)
    (w : World) : Except Error Bool × World :=
  match w.fault (.SetNX ctx key value expiration) with
  | some e => (.error e, w.issue (.SetNX ctx key value expiration))
  | none =>
    match w.find key with
    | some _ => (.ok false, w.issue (.SetNX ctx key value expiration))
    | none =>
      (.ok true, { w.issue (.SetNX ctx key value expiration) with
                    data := (key, ⟨(FormatInt value).data, expiration⟩) :: w.data })

/-- Modelled from the spec: `Delete(deadline, key) -> (count, error)` of the external
store client; the count is the number of entries removed. -/
def redis.Del (ctx : Option Context) (key : String) (w : World) : Except Error Int × World :=
  match w.fault (.Del ctx key) with
  | some e => (.error e, w.issue (.Del ctx key))
  | none =>
    match w.find key with
    | none => (.ok 0, { w.issue (.Del ctx key) with data := w.erase key })
    | some _ => (.ok 1, { w.issue (.Del ctx key) with data := w.erase key })

/-- Modelled from the spec: `Exists(deadline, key) -> (count, error)` of the external
store client. -/
def redis.Exists (ctx : Option Context) (key : String) (w : World) : Except Error Int × World :=
  match w.fault (.Exists ctx key) with
  | some e => (.error e, w.issue (.Exists ctx key))
  | none =>
    match w.find key with
    | none => (.ok 0, w.issue (.Exists ctx key))
    | some _ => (.ok 1, w.issue (.Exists ctx key))

/-! ## Instance and request builders (`cache.go`, `get.go`, `set.go`, `del.go`) -/

/-- The kind of client that `open` binds. -/
inductive Client
  | standalone | cluster | failover | failoverCluster
  deriving DecidableEq, Repr

/-- `Config` of `config.go`. -/
structure Config where
  DependencyPriority : Int
  Namespace : String
  DB : Int
  Username : String
  Password : String
  Addresses : String
  SentinelAddresses : String
  SentinelMaster : String
  SentinelUsername : String
  SentinelPassword : String
  SentinelCluster : Bool
  deriving DecidableEq, Repr

/-- `Instance` of `cache.go`; `client` is `none` while no connection is open. -/
structure Instance where
  client : Option Client
  cfg : Config
  clustering : Bool
  deriving DecidableEq, Repr

/-- `base` of `helper.go`. -/
structure base where
  ctx : Option Context
  cancel : Option CancelFunc
  key : String
  deriving DecidableEq, Repr

/-- `getter` of `get.go`.  `getFn` is the method value `i.get`, known by its
receiver; `none` is the nil function. -/
structure getter extends base where
  getFn : Option Instance
  deriving DecidableEq, Repr

/-- `setter` of `set.go`.  `setFn` is the method value `i.set`. -/
structure setter extends base where
  ttl : Duration
  setFn : Option Instance
  deriving DecidableEq, Repr

/-- `deleter` of `del.go`.  `delFn` is the method value `i.del`. -/
structure deleter extends base where
  delFn : Option Instance
  deriving DecidableEq, Repr

/-- The zero value `getter{}`. -/
def getter.zero : getter := { ctx := none, cancel := none, key := "", getFn := none }

/-- The zero value `setter{}`. -/
def setter.zero : setter := { ctx := none, cancel := none, key := "", ttl := 0, setFn := none }

/-- The zero value `deleter{}`. -/
def deleter.zero : deleter := { ctx := none, cancel := none, key := "", delFn := none }

/-- `RememberFn` of `get.go`: the compute function, known by what it returns,
`(forever, val, err)`. -/
abbrev RememberFn := Bool × Value × Option Error

/-- The context and cancel function after the constructors' `if ctx == nil`. -/
def defaultCtx (ctx : Option Context) : Context × Option CancelFunc :=
  match ctx with
  | none => (.WithTimeout .Background Second, some ())
  | some c => (c, none)

/-- The key after the constructors' `if len(prefix) > 0 { if !empty(prefix[0]) ... }`. -/
def withPrefix (L : Libs) (key : String) (pre : List String) : String :=
  match pre with
  | [] => key
  | p :: _ => if !L.ValidationIsEmpty p then p ++ DefaultKeySeparator ++ key else key

/-- `validateClient` of `helper.go`. -/
def Instance.validateClient (i : Instance) : Option Error :=
  if i.client = none then some .ErrClientNil else none

/-! ## Executors (`helper.go`, `misc.go`) and terminal methods -/

/-- What `Instance.set` returns and leaves behind: the borrowed client, the error,
the setter after the call and the world. -/
structure SetOut where
  client : Option Client
  err : Option Error
  set : setter
  world : World

/-- What `Put`, `PutForever` leave behind: `(ttl, err)` or a panic, the setter after
the call and the world. -/
structure PutOut where
  result : Res (Duration × Option Error)
  set : setter
  world : World

/-- What `RateLimitOnce` leaves behind: `(allowed, err)` or a panic, the setter after
the call and the world. -/
structure LimitOut where
  result : Res (Bool × Option Error)
  set : setter
  world : World

/-- What `Instance.getRemember` leaves behind: `(next, err)` or a panic, `out` after
the call and the world. -/
structure RememberOut where
  result : Res (Bool × Option Error)
  out : Value
  world : World

/-- What `Pull`, `Remember` leave behind: the error or a panic, the getter after the
call, `out` after the call and the world. -/
structure GetOut where
  result : Res (Option Error)
  get : getter
  out : Value
  world : World

/-- What `Perform` leaves behind: `(count, err)` or a panic, the deleter after the
call and the world. -/
structure DelOut where
  result : Res (Int × Option Error)
  del : deleter
  world : World

/-- `Has` of `misc.go`. -/
def Instance.Has (L : Libs) (i : Instance) (ctx : Option Context) (key : String)
    (pre : List String) (w : World) : Bool × World :=
  match i.validateClient with
  | some _ => (false, w)
  | none =>
    let key1 := i.cfg.Namespace ++ DefaultKeySeparator ++ withPrefix L key pre
    match redis.Exists (some (defaultCtx ctx).1) key1 w with
    | (.error _, w1) => (false, w1.cancelIf (defaultCtx ctx).2)
    | (.ok res, w1) => (decide (res > 0), w1.cancelIf (defaultCtx ctx).2)

/-- `cleanup` of `set.go`: the setter and the world after it. -/
def setter.cleanup (s : setter) (w : World) : setter × World :=
  (setter.zero, w.cancelIf s.cancel)

/-- `Set` of `set.go`. -/
def Instance.Set (i : Instance) (ctx : Option Context) (key : String) : setter :=
  { ctx := some (defaultCtx ctx).1, cancel := (defaultCtx ctx).2, key := key, ttl := 0,
    setFn := some i }

/-- `SetPrefix` of `set.go`. -/
def setter.SetPrefix (L : Libs) (s : setter) (pre : String) : setter :=
  if !L.ValidationIsEmpty pre then { s with key := pre ++ DefaultKeySeparator ++ s.key } else s

/-- `SetTTL` of `set.go`. -/
def setter.SetTTL (s : setter) (ttl : Duration) : setter := { s with ttl := ttl }

/-- `set` of `helper.go`; `borrow` is the variadic argument. -/
def Instance.set (L : Libs) (i : Instance) (set : setter) (val : Value) (borrow : List Bool)
    (w : World) : SetOut :=
  match i.validateClient with
  | some err => ⟨none, some err, (set.cleanup w).1, (set.cleanup w).2⟩
  | none =>
    if L.ValidationIsEmpty set.key then ⟨none, some .ErrEmptyKey, (set.cleanup w).1, (set.cleanup w).2⟩
    else
      let set1 : setter := { set with key := i.cfg.Namespace ++ DefaultKeySeparator ++ set.key }
      if borrow.head? = some true then ⟨i.client, none, set1, w⟩
      else
        match encoder L val with
        | .error err =>
          ⟨none, some (.Wrap "failed to encode value %T" err), (set1.cleanup w).1, (set1.cleanup w).2⟩
        | .ok encoded =>
          match redis.Set set1.ctx set1.key encoded set1.ttl w with
          | (err, w1) => ⟨none, err, (set1.cleanup w1).1, (set1.cleanup w1).2⟩

/-- The call `s.setFn(s, val, borrow...)`: a nil `setFn` panics. -/
def setter.callSetFn (L : Libs) (s : setter) (val : Value) (borrow : List Bool) (w : World) :
    Res SetOut :=
  match s.setFn with
  | none => .panic "invalid memory address or nil pointer dereference"
  | some i => .ret (i.set L s val borrow w)

/-- `Put` of `set.go`. -/
def setter.Put (L : Libs) (s : setter) (value : Value) (w : World) : PutOut :=
  let s1 := if s.ttl ≤ 0 then s.SetTTL DefaultTTL else s
  match s1.callSetFn L value [] w with
  | .panic msg => ⟨.panic msg, s1, w⟩
  | .ret r => ⟨.ret (s1.ttl, r.err), r.set, r.world⟩

/-- `PutForever` of `set.go`. -/
def setter.PutForever (L : Libs) (s : setter) (value : Value) (w : World) : PutOut :=
  let s1 : setter := { s with ttl := 0 }
  match s1.callSetFn L value [] w with
  | .panic msg => ⟨.panic msg, s1, w⟩
  | .ret r => ⟨.ret (s1.ttl, r.err), r.set, r.world⟩

/-- `RateLimitOnce` of `set.go`. -/
def setter.RateLimitOnce (L : Libs) (s : setter) (period : Duration) (w : World) : LimitOut :=
  let s1 := if !L.ValidationIsEmpty s.key then s.SetPrefix L KeyRateLimit else s
  let s2 := if period > 0 then s1.SetTTL period else s1
  match s2.callSetFn L .nil [true] w with
  | .panic msg => ⟨.panic msg, s2, w⟩
  | .ret r =>
    match r.err with
    | some e => ⟨.ret (false, some e), (r.set.cleanup r.world).1, (r.set.cleanup r.world).2⟩
    | none =>
      match r.client with
      | none => ⟨.panic "invalid memory address or nil pointer dereference",
                 (r.set.cleanup r.world).1, (r.set.cleanup r.world).2⟩
      | some _ =>
        match redis.SetNX r.set.ctx r.set.key 1 r.set.ttl r.world with
        | (.error e, w1) => ⟨.ret (false, some e), (r.set.cleanup w1).1, (r.set.cleanup w1).2⟩
        | (.ok allowed, w1) => ⟨.ret (allowed, none), (r.set.cleanup w1).1, (r.set.cleanup w1).2⟩

/-- `getRemember` of `helper.go`. -/
def Instance.getRemember (L : Libs) (i : Instance) (get : getter) (out : Value)
    (rem : RememberFn) (w : World) : RememberOut :=
  match i.Has L get.ctx get.key [] w with
  | (true, w1) => ⟨.ret (true, none), out, w1⟩
  | (false, w1) =>
    match out with
    | .ptr elem _ =>
      let w2 : World := { w1 with remCalls := w1.remCalls + 1 }
      match rem with
      | (_, _, some err) => ⟨.ret (false, some err), out, w2⟩
      | (forever, val, none) =>
        match val.typeOf with
        | none => ⟨.panic "reflect: call of reflect.Value.Type on zero Value", out, w2⟩
        | some valType =>
          if !L.AssignableTo valType elem then
            ⟨.ret (false, some (.New "cannot assign value of type %s to out of type %s")), out, w2⟩
          else
            let set := i.Set get.ctx get.key
            let put := if forever then set.PutForever L val w2 else set.Put L val w2
            match put.result with
            | .panic msg => ⟨.panic msg, out, put.world⟩
            | .ret (_, some err) => ⟨.ret (false, some err), out, put.world⟩
            | .ret (_, none) => ⟨.ret (false, none), .ptr elem val, put.world⟩
    | _ => ⟨.ret (false, some (.New "out must be a non-nil pointer")), out, w1⟩

/-- The error `get` returns for the result of `decoder`: a decoding error is wrapped
with `fmt.Errorf("failed to decode value to %T: %w", out, err)`. -/
def wrapDecode : Res (Option Error) → Res (Option Error)
  | .panic msg => .panic msg
  | .ret (some err) => .ret (some (.Wrap "failed to decode value to %T" err))
  | .ret none => .ret none

/-- The statements of `get` below its comment `Exec.`, followed by the deferred
function, which cancels and zeroes the getter. -/
def Instance.getExec (L : Libs) (i : Instance) (get : getter) (out : Value) (w : World) : GetOut :=
  match redis.Get get.ctx (i.cfg.Namespace ++ DefaultKeySeparator ++ get.key) w with
  | (.error err, w1) => ⟨.ret (some err), getter.zero, out, w1.cancelIf get.cancel⟩
  | (.ok b, w1) =>
    ⟨wrapDecode (decoder L b out).1, getter.zero, (decoder L b out).2, w1.cancelIf get.cancel⟩

/-- `get` of `helper.go`; `rem` is the variadic argument, whose elements may be
nil functions.  The deferred function runs on every exit: it cancels and zeroes
the getter. -/
def Instance.get (L : Libs) (i : Instance) (get : getter) (out : Value)
    (rem : List (Option RememberFn)) (w : World) : GetOut :=
  if L.ValidationIsEmpty get.key then ⟨.ret (some .ErrEmptyKey), getter.zero, out, w.cancelIf get.cancel⟩
  else
    match i.validateClient with
    | some err => ⟨.ret (some err), getter.zero, out, w.cancelIf get.cancel⟩
    | none =>
      match rem with
      | some r :: _ =>
        match i.getRemember L get out r w with
        | ⟨.panic msg, out1, w1⟩ => ⟨.panic msg, getter.zero, out1, w1.cancelIf get.cancel⟩
        | ⟨.ret (_, some err), out1, w1⟩ => ⟨.ret (some err), getter.zero, out1, w1.cancelIf get.cancel⟩
        | ⟨.ret (false, none), out1, w1⟩ => ⟨.ret none, getter.zero, out1, w1.cancelIf get.cancel⟩
        | ⟨.ret (true, none), out1, w1⟩ => i.getExec L get out1 w1
      | _ => i.getExec L get out w

/-- `del` of `helper.go`.  The deferred function runs on every exit. -/
def Instance.del (L : Libs) (i : Instance) (del : deleter) (w : World) : DelOut :=
  if L.ValidationIsEmpty del.key then ⟨.ret (0, some .ErrEmptyKey), deleter.zero, w.cancelIf del.cancel⟩
  else
    match i.validateClient with
    | some err => ⟨.ret (0, some err), deleter.zero, w.cancelIf del.cancel⟩
    | none =>
      match redis.Del (some .Background) (i.cfg.Namespace ++ DefaultKeySeparator ++ del.key) w with
      | (.error err, w1) => ⟨.ret (0, some err), deleter.zero, w1.cancelIf del.cancel⟩
      | (.ok n, w1) => ⟨.ret (n, none), deleter.zero, w1.cancelIf del.cancel⟩

/-- `Get` of `get.go`; `pre` is the variadic argument `prefix`. -/
def Instance.Get (L : Libs) (i : Instance) (ctx : Option Context) (key : String)
    (pre : List String) : getter :=
  { ctx := some (defaultCtx ctx).1, cancel := (defaultCtx ctx).2, key := withPrefix L key pre,
    getFn := some i }

/-- `Pull` of `get.go`. -/
def getter.Pull (L : Libs) (g : getter) (out : Value) (w : World) : GetOut :=
  match g.getFn with
  | none => ⟨.panic "invalid memory address or nil pointer dereference", g, out, w⟩
  | some i => i.get L g out [] w

/-- `Remember` of `get.go`; `rem` is `none` for a nil function. -/
def getter.Remember (L : Libs) (g : getter) (out : Value) (rem : Option RememberFn)
    (w : World) : GetOut :=
  match g.getFn with
  | none => ⟨.panic "invalid memory address or nil pointer dereference", g, out, w⟩
  | some i => i.get L g out [rem] w

/-- `Delete` of `del.go`; `pre` is the variadic argument `prefix`. -/
def Instance.Delete (L : Libs) (i : Instance) (ctx : Option Context) (key : String)
    (pre : List String) : deleter :=
  { ctx := some (defaultCtx ctx).1, cancel := (defaultCtx ctx).2, key := withPrefix L key pre,
    delFn := some i }

/-- `Perform` of `del.go`. -/
def deleter.Perform (L : Libs) (del : deleter) (w : World) : DelOut :=
  match del.delFn with
  | none => ⟨.panic "invalid memory address or nil pointer dereference", del, w⟩
  | some i => i.del L del w

/-- `Close` of `cache.go`; `clientClose` is what `i.client.Close()` returns when a
client is bound and the call is made. -/
def Instance.Close (i : Instance) (clientClose : Option Error) : Option Error :=
  match i.client with
  | none => none
  | some _ => clientClose

/-- `Client` of `cache.go`. -/
def Instance.Client (i : Instance) : Option Client × Option Error :=
  match i.validateClient with
  | some err => (none, some err)
  | none => (i.client, none)

/-! ## Key scan (`misc.go`) -/

/-- `Keyer` of `misc.go`. -/
structure Keyer where
  Namespace : String
  Prefix : String
  Key : String
  deriving DecidableEq, Repr

/-- Pieces of a byte sequence between the occurrences of the byte `sep`. -/
def splitChar (sep : Char) : List Char → List (List Char)
  | [] => [[]]
  | c :: cs =>
    if c = sep then [] :: splitChar sep cs
    else
      match splitChar sep cs with
      | [] => [[c]]
      | seg :: rest => (c :: seg) :: rest

/-- Go `strings.Split(s, sep)` for a separator of one byte, as `DefaultKeySeparator`
is; for any other separator the model leaves `s` whole. -/
def stringsSplit (s sep : String) : List String :=
  match sep.data with
  | [c] => (splitChar c s.data).map String.mk
  | _ => [s]

/-- Go `strings.TrimSuffix(s, suffix)`. -/
def TrimSuffix (s suffix : String) : String :=
  if suffix.data.isSuffixOf s.data then String.mk (s.data.take (s.data.length - suffix.data.length))
  else s

/-- The statement `s[i], s[j] = s[j], s[i]` of `reverseStrings`. -/
def swapAt (s : List String) (i j : Nat) : List String :=
  (s.set i (s.getD j "")).set j (s.getD i "")

/-- The loop of `reverseStrings` with its two indices; `fuel` bounds the number of
iterations. -/
def reverseStringsLoop : Nat → List String → Nat → Nat → List String
  | 0, s, _, _ => s
  | fuel + 1, s, i, j =>
    if i < j then reverseStringsLoop fuel (swapAt s i j) (i + 1) (j - 1) else s

/-- `reverseStrings` of `helper.go`: the slice after the call. -/
def reverseStrings (s : List String) : List String :=
  reverseStringsLoop s.length s 0 (s.length - 1)

/-- The loop `for i, v := range vals` of `scan`, from index `i` on. -/
def fillKeyer : Nat → List String → Keyer → Keyer
  | _, [], keyer => keyer
  | i, v :: vals, keyer =>
    fillKeyer (i + 1) vals
      (match i with
      | 0 => { keyer with Key := v }
      | 1 => { keyer with Prefix := v }
      | _ => { keyer with Namespace := v })

/-- The body of the loop of `scan`: the `Keyer` appended for the key `val` that the
iterator yields. -/
def scanKeyer (val : String) : Keyer :=
  fillKeyer 0 (reverseStrings (stringsSplit val DefaultKeySeparator)) ⟨"", "", ""⟩

/-- One of the characters `*`, `?`, `[` and backslash, which a glob pattern does not
take literally. -/
def isGlobMeta (c : Char) : Bool := c = '*' || c = '?' || c = '[' || c = '\\'

/-- The part of a glob pattern after `[`, read against the character `c`: whether a
member of the class matched so far (`hit`), and the pattern after the closing `]`.
An unterminated class ends with the pattern. -/
def globClass (c : Char) : List Char → Bool → Bool × List Char
  | [], hit => (hit, [])
  | ']' :: ps, hit => (hit, ps)
  | '\\' :: q :: ps, hit => globClass c ps (hit || q = c)
  | lo :: '-' :: hi :: ps, hit =>
    globClass c ps (hit || (decide (lo ≤ c ∧ c ≤ hi) || decide (hi ≤ c ∧ c ≤ lo)))
  | q :: ps, hit => globClass c ps (hit || q = c)

/-- Modelled from the spec: the match of a key against the scan pattern, a glob as
the store understands it (`*` any run of bytes, `?` any byte, `[...]` a class, with
`^` for its complement, backslash before a literal byte).  `fuel` bounds the number
of steps. -/
def globMatchFuel : Nat → List Char → List Char → Bool
  | 0, _, _ => false
  | _ + 1, [], s => s.isEmpty
  | fuel + 1, p :: ps, s =>
    if p = '*' then
      globMatchFuel fuel ps s ||
        (match s with
        | [] => false
        | _ :: s1 => globMatchFuel fuel (p :: ps) s1)
    else
      match s with
      | [] => false
      | c :: s1 =>
        if p = '?' then globMatchFuel fuel ps s1
        else if p = '[' then
          (match ps with
          | '^' :: ps1 => !(globClass c ps1 false).1 && globMatchFuel fuel (globClass c ps1 false).2 s1
          | _ => (globClass c ps false).1 && globMatchFuel fuel (globClass c ps false).2 s1)
        else if p = '\\' then
          (match ps with
          | q :: ps1 => decide (q = c) && globMatchFuel fuel ps1 s1
          | [] => decide (p = c) && globMatchFuel fuel ps s1)
        else decide (p = c) && globMatchFuel fuel ps s1

/-- The key matches the glob pattern. -/
def globMatch (pattern key : String) : Bool :=
  globMatchFuel (pattern.data.length + key.data.length + 1) pattern.data key.data

/-- Modelled from the spec: the optional cluster capability
`ForEachPartition(fn(nodeClient) -> error) -> error` of section 6.  A cluster is known
by its masters, each by the keys it owns, and by the master that answers a scan sent
through the cluster handle itself. -/
structure Cluster where
  owns : List (String → Bool)
  route : Nat

/-- The client is a `*redis.ClusterClient`: `NewClusterClient` and
`NewFailoverClusterClient` return one. -/
def Client.isClusterClient : Client → Bool
  | .cluster => true
  | .failoverCluster => true
  | _ => false

/-- The keys of the store that a scan sent to `node` through `client` can see. -/
def visibleKeys (cl : Cluster) (client : Client) (node : Option Nat) (w : World) : List String :=
  match node with
  | some m => (w.data.map (·.1)).filter (cl.owns.getD m (fun _ => false))
  | none =>
    if client.isClusterClient then (w.data.map (·.1)).filter (cl.owns.getD cl.route (fun _ => false))
    else w.data.map (·.1)

/-- Modelled from the spec: `ScanKeys(deadline, cursor, pattern, batchSize)` of the
external store client, iterated to the end of the cursor: the keys seen that match
the pattern, or the error of the iteration. -/
def redis.Scan (cl : Cluster) (client : Client) (node : Option Nat) (ctx : Option Context)
    (cursor : Nat) (pattern : String) (count : Int) (w : World) :
    Except Error (List String) × World :=
  match w.fault (.Scan node ctx cursor pattern count) with
  | some e => (.error e, w.issue (.Scan node ctx cursor pattern count))
  | none =>
    (.ok ((visibleKeys cl client node w).filter (globMatch pattern)),
      w.issue (.Scan node ctx cursor pattern count))

/-- `scan` of `misc.go` on the client `rdb`, which is the master `node` of the cluster
or, for `none`, the client handle of the instance: the error, `*founds` after the call
and the world. -/
def scan (cl : Cluster) (rdb : Client) (node : Option Nat) (ctx : Option Context)
    (pattern : String) (founds : List Keyer) (w : World) : Option Error × List Keyer × World :=
  match redis.Scan cl rdb node ctx 0 pattern 0 w with
  | (.error err, w1) => (some err, founds, w1)
  | (.ok vals, w1) => (none, founds ++ vals.map scanKeyer, w1)

/-- `ForEachMaster` of the cluster client with the closure of `GetAllKeys`: `scan` on
every master in turn, from master `m` on; the error it returns is the first one met. -/
def forEachMasterScan (cl : Cluster) (rdb : Client) (ctx : Option Context) (pattern : String) :
    Nat → Nat → List Keyer → World → Option Error × List Keyer × World
  | 0, _, founds, w => (none, founds, w)
  | n + 1, m, founds, w =>
    match scan cl rdb (some m) ctx pattern founds w with
    | (err, founds1, w1) =>
      match forEachMasterScan cl rdb ctx pattern n (m + 1) founds1 w1 with
      | (err2, founds2, w2) => (if err.isSome then err else err2, founds2, w2)

/-- What `GetAllKeys` leaves behind: `(keys, err)` and the world. -/
structure KeysOut where
  keys : List Keyer
  err : Option Error
  world : World

/-- `GetAllKeys` of `misc.go`; `cl` is the cluster behind a cluster client. -/
def Instance.GetAllKeys (L : Libs) (cl : Cluster) (i : Instance) (ctx : Option Context)
    (pre : String) (w : World) : KeysOut :=
  match i.client with
  | none => ⟨[], some .ErrClientNil, w⟩
  | some client =>
    if L.ValidationIsEmpty pre then ⟨[], some .ErrEmptyPrefix, w⟩
    else
      let pattern := i.cfg.Namespace ++ DefaultKeySeparator ++ TrimSuffix pre "*" ++
        DefaultKeySeparator ++ "*"
      if i.clustering then
        if !client.isClusterClient then
          ⟨[], some .ErrClientNotCluster, w.cancelIf (defaultCtx ctx).2⟩
        else
          match forEachMasterScan cl client (some (defaultCtx ctx).1) pattern cl.owns.length 0 [] w with
          | (_, keys1, w1) =>
            match scan cl client none (some (defaultCtx ctx).1) pattern keys1 w1 with
            | (err, keys2, w2) => ⟨keys2, err, w2.cancelIf (defaultCtx ctx).2⟩
      else
        match scan cl client none (some (defaultCtx ctx).1) pattern [] w with
        | (err, keys2, w2) => ⟨keys2, err, w2.cancelIf (defaultCtx ctx).2⟩

/-! ## Opening the connection (`helper.go`) -/

/-- Go `utf8.RuneError`, the rune that stands for an invalid encoding. -/
def RuneError : Nat := 0xFFFD

/-- Go `utf8.RuneSelf`: bytes below it are runes of one byte. -/
def RuneSelf : Nat := 0x80

/-- Go `utf8.UTFMax`, the greatest number of bytes of an encoded rune. -/
def UTFMax : Nat := 4

/-- The table `first` of package `utf8` at the byte `b`: `0xF0` for an ASCII byte,
`0xF1` for a byte that starts no rune, and otherwise the index of the accept range
(high four bits) with the size of the encoding (low three bits). -/
def first (b : Nat) : Nat :=
  if b < 0x80 then 0xF0
  else if b < 0xC2 then 0xF1
  else if b < 0xE0 then 0x02
  else if b = 0xE0 then 0x13
  else if b < 0xED then 0x03
  else if b = 0xED then 0x23
  else if b < 0xF0 then 0x03
  else if b = 0xF0 then 0x34
  else if b < 0xF4 then 0x04
  else if b = 0xF4 then 0x44
  else 0xF1

/-- The table `acceptRanges` of package `utf8`: the least and greatest second byte. -/
def acceptRanges (idx : Nat) : Nat × Nat :=
  match idx with
  | 0 => (0x80, 0xBF)
  | 1 => (0xA0, 0xBF)
  | 2 => (0x80, 0x9F)
  | 3 => (0x90, 0xBF)
  | 4 => (0x80, 0x8F)
  | _ => (0, 0)

/-- Go `utf8.DecodeRuneInString(s)`: the first rune of the bytes `s` and its width in
bytes; `(RuneError, 0)` for no bytes and `(RuneError, 1)` for an invalid encoding.  A
character of a string stands for one byte. -/
def DecodeRuneInString (s : List Char) : Nat × Nat :=
  match s with
  | [] => (RuneError, 0)
  | c0 :: rest =>
    let s0 := c0.toNat
    let x := first s0
    if x ≥ 0xF0 then (if x = 0xF1 then RuneError else s0, 1)
    else
      let sz := x &&& 7
      let accept := acceptRanges (x >>> 4)
      if s.length < sz then (RuneError, 1)
      else
        let s1 := (rest.getD 0 c0).toNat
        if s1 < accept.1 ∨ accept.2 < s1 then (RuneError, 1)
        else if sz ≤ 2 then (((s0 &&& 0x1F) <<< 6) ||| (s1 &&& 0x3F), 2)
        else
          let s2 := (rest.getD 1 c0).toNat
          if s2 < 0x80 ∨ 0xBF < s2 then (RuneError, 1)
          else if sz ≤ 3 then
            (((s0 &&& 0x0F) <<< 12) ||| ((s1 &&& 0x3F) <<< 6) ||| (s2 &&& 0x3F), 3)
          else
            let s3 := (rest.getD 2 c0).toNat
            if s3 < 0x80 ∨ 0xBF < s3 then (RuneError, 1)
            else
              (((s0 &&& 0x07) <<< 18) ||| ((s1 &&& 0x3F) <<< 12) ||| ((s2 &&& 0x3F) <<< 6) |||
                (s3 &&& 0x3F), 4)

/-- Go `utf8.RuneStart(b)`: the byte is not a continuation byte. -/
def RuneStart (b : Nat) : Bool := (b &&& 0xC0) != 0x80

/-- The loop `for start--; start >= lim; start--` of `utf8.DecodeLastRuneInString`,
entered with `start` already decremented: the index at which it stops. -/
def runeStartLoop (s : List Char) (lim : Int) : Nat → Int → Int
  | 0, start => start
  | fuel + 1, start =>
    if start ≥ lim then
      if RuneStart (s.getD start.toNat ' ').toNat then start
      else runeStartLoop s lim fuel (start - 1)
    else start

/-- Go `utf8.DecodeLastRuneInString(s)`: the last rune of the bytes `s` and its
width. -/
def DecodeLastRuneInString (s : List Char) : Nat × Nat :=
  if s.length = 0 then (RuneError, 0)
  else
    let r := (s.getD (s.length - 1) ' ').toNat
    if r < RuneSelf then (r, 1)
    else
      let lim : Int := if (s.length : Int) - UTFMax < 0 then 0 else (s.length : Int) - UTFMax
      let start := runeStartLoop s lim UTFMax ((s.length : Int) - 1 - 1)
      let start1 := if start < 0 then 0 else start.toNat
      let d := DecodeRuneInString (s.drop start1)
      if start1 + d.2 ≠ s.length then (RuneError, 1) else d

/-- The array `asciiSpace` of package `strings`: tab, line feed, vertical tab, form
feed, carriage return and space. -/
def asciiSpace (c : Char) : Bool :=
  c.toNat = 9 || c.toNat = 10 || c.toNat = 11 || c.toNat = 12 || c.toNat = 13 || c.toNat = 32

/-- Go `unicode.IsSpace(r)` on the rune `r`: in Latin-1 tab, line feed, vertical tab,
form feed, carriage return, space, U+0085 and U+00A0; above Latin-1 the runes with the
property White_Space. -/
def IsSpace (r : Nat) : Bool :=
  if r ≤ 0xFF then
    r = 9 || r = 10 || r = 11 || r = 12 || r = 13 || r = 32 || r = 0x85 || r = 0xA0
  else
    r = 0x1680 || decide (0x2000 ≤ r ∧ r ≤ 0x200A) || r = 0x2028 || r = 0x2029 ||
      r = 0x202F || r = 0x205F || r = 0x3000

/-- `indexFunc` of package `strings`, from byte index `i` on, at which `s` is what is
left of the string: the index of the first rune `r` with `f(r) == truth`; `none` is
-1.  `fuel` bounds the number of runes. -/
def indexFunc (f : Nat → Bool) (truth : Bool) : Nat → List Char → Nat → Option Nat
  | 0, _, _ => none
  | fuel + 1, s, i =>
    match s with
    | [] => none
    | _ :: _ =>
      if f (DecodeRuneInString s).1 = truth then some i
      else indexFunc f truth fuel (s.drop (DecodeRuneInString s).2) (i + (DecodeRuneInString s).2)

/-- `lastIndexFunc` of package `strings`, with its loop variable `i`: the index of the
last rune `r` with `f(r) == truth`; `none` is -1.  `fuel` bounds the number of runes. -/
def lastIndexFunc (f : Nat → Bool) (truth : Bool) (s : List Char) : Nat → Nat → Option Nat
  | 0, _ => none
  | fuel + 1, i =>
    if i > 0 then
      if f (DecodeLastRuneInString (s.take i)).1 = truth then
        some (i - (DecodeLastRuneInString (s.take i)).2)
      else lastIndexFunc f truth s fuel (i - (DecodeLastRuneInString (s.take i)).2)
    else none

/-- Go `strings.TrimLeftFunc(s, f)`. -/
def TrimLeftFunc (s : List Char) (f : Nat → Bool) : List Char :=
  match indexFunc f false s.length s 0 with
  | none => []
  | some i => s.drop i

/-- Go `strings.TrimRightFunc(s, f)`. -/
def TrimRightFunc (s : List Char) (f : Nat → Bool) : List Char :=
  match lastIndexFunc f false s s.length s.length with
  | some i =>
    if (s.getD i ' ').toNat ≥ RuneSelf then s.take (i + (DecodeRuneInString (s.drop i)).2)
    else s.take (i + 1)
  | none => []

/-- Go `strings.TrimFunc(s, f)`. -/
def TrimFunc (s : List Char) (f : Nat → Bool) : List Char :=
  TrimRightFunc (TrimLeftFunc s f) f

/-- The second loop of `strings.TrimSpace` on `s[start:]`, with its index `stop`, and
the return that follows it. -/
def trimSpaceStop (s : List Char) : Nat → List Char
  | 0 => []
  | stop + 1 =>
    if (s.getD stop ' ').toNat ≥ RuneSelf then TrimRightFunc (s.take (stop + 1)) IsSpace
    else if asciiSpace (s.getD stop ' ') then trimSpaceStop s stop
    else s.take (stop + 1)

/-- The first loop of `strings.TrimSpace` on the bytes from `start` on, followed by
the rest of the function. -/
def trimSpaceStart : List Char → List Char
  | [] => []
  | c :: cs =>
    if c.toNat ≥ RuneSelf then TrimFunc (c :: cs) IsSpace
    else if asciiSpace c then trimSpaceStart cs
    else trimSpaceStop (c :: cs) (c :: cs).length

/-- Go `strings.TrimSpace(s)`: ASCII white space is cut at both ends byte by byte, and
from the first byte that is not ASCII on, the runes decoded from the bytes are tested
with `unicode.IsSpace`. -/
def TrimSpace (s : String) : String := String.mk (trimSpaceStart s.data)

/-- Go `strings.Contains(s, substr)`. -/
def stringsContains (s substr : String) : Bool :=
  s.data.tails.any (fun t => substr.data.isPrefixOf t)

/-- The loop of `open` over `strings.SplitSeq(addresses, ",")`: the pieces that
`strings.TrimSpace` does not leave empty, untrimmed, in order. -/
def resolveAddrs (addresses : String) : List String :=
  (stringsSplit addresses ",").filter (fun addr => decide ((TrimSpace addr).length > 0))

/-- `open` of `helper.go`: the error and the instance after the call.  The four
constructors of the redis package return a client without contacting the server. -/
def Instance.open (L : Libs) (i : Instance) : Option Error × Instance :=
  if !L.ValidationIsEmpty i.cfg.Addresses then
    let i1 : Instance := { i with clustering := stringsContains i.cfg.Addresses "," }
    if (resolveAddrs i.cfg.Addresses).length = 0 then
      (some (.New "[cache] failed to open connection: redis.Addresses is empty"), i1)
    else if i1.clustering then (none, { i1 with client := some .cluster })
    else (none, { i1 with client := some .standalone })
  else if !L.ValidationIsEmpty i.cfg.SentinelAddresses then
    if (resolveAddrs i.cfg.SentinelAddresses).length = 0 then
      (some (.New "[cache] failed to open connection: redis.SentinelAddresses is empty"), i)
    else
      let i1 : Instance := { i with clustering := i.cfg.SentinelCluster }
      if i1.clustering then (none, { i1 with client := some .failoverCluster })
      else (none, { i1 with client := some .failover })
  else (some (.New "at least one of redis addresses and sentinel addresses must be defines"), i)

/-! ## Decimal and boolean text, in the words of the specification -/

/-- Value of a run of decimal digits read after the value `acc`; `none` when a
character is not a decimal digit. -/
def digitsValue : List Char → Nat → Option Nat
  | [], acc => some acc
  | c :: cs, acc =>
    if '0' ≤ c ∧ c ≤ '9' then digitsValue cs (acc * 10 + (c.toNat - 48)) else none

/-- The integer that a byte sequence denotes as base-10 text: an optional sign
followed by one or more decimal digits.  `none` for every other byte sequence
(empty input, non-numeric text). -/
def decimalText? (data : Bytes) : Option Int :=
  match data with
  | [] => none
  | c :: ds =>
    if c = '-' then
      if ds = [] then none else (digitsValue ds 0).map (fun n => -(n : Int))
    else if c = '+' then
      if ds = [] then none else (digitsValue ds 0).map (fun n => (n : Int))
    else (digitsValue (c :: ds) 0).map (fun n => (n : Int))

/-- Least and greatest value of an integer type; `none` for a type that is not an
integer type. -/
def GoType.intRange? : GoType → Option (Int × Int)
  | .int => some (-(2 : Int) ^ (IntSize - 1), 2 ^ (IntSize - 1) - 1)
  | .int8 => some (-(2 : Int) ^ 7, 2 ^ 7 - 1)
  | .int16 => some (-(2 : Int) ^ 15, 2 ^ 15 - 1)
  | .int32 => some (-(2 : Int) ^ 31, 2 ^ 31 - 1)
  | .int64 => some (-(2 : Int) ^ 63, 2 ^ 63 - 1)
  | .uint => some (0, 2 ^ IntSize - 1)
  | .uint8 => some (0, 2 ^ 8 - 1)
  | .uint16 => some (0, 2 ^ 16 - 1)
  | .uint32 => some (0, 2 ^ 32 - 1)
  | .uint64 => some (0, 2 ^ 64 - 1)
  | _ => none

/-- The boolean literals: `1, t, T, TRUE, true, True, 0, f, F, FALSE, false, False`. -/
def isBoolLiteral (data : Bytes) : Bool :=
  decide (String.mk data ∈
    ["1", "t", "T", "TRUE", "true", "True", "0", "f", "F", "FALSE", "false", "False"])

/-- The digits `ds` are the base-10 text of the natural number `m` without a leading
zero: one or more decimal digits that denote `m`, the first of which is `0` only when
the text is the single digit `0`. -/
def canonicalDigits (ds : List Char) (m : Nat) : Bool :=
  decide (ds ≠ []) && decide (digitsValue ds 0 = some m) &&
    (decide (ds.head? ≠ some '0') || decide (ds = ['0']))

/-- The bytes `data` are the canonical base-10 text of the integer `n`: a leading `-`
exactly when `n` is negative, no sign otherwise, then the digits of the absolute value
without leading zeros. -/
def isCanonicalDecimal (data : Bytes) (n : Int) : Bool :=
  match data with
  | '-' :: ds => decide (n < 0) && canonicalDigits ds n.natAbs
  | ds => decide (0 ≤ n) && canonicalDigits ds n.toNat

/-- The mathematical value of a value of one of the ten integer types; `none` for a
value of another type. -/
def Value.intValue? : Value → Option Int
  | .int n | .int8 n | .int16 n | .int32 n | .int64 n => some n
  | .uint n | .uint8 n | .uint16 n | .uint32 n | .uint64 n => some (n : Int)
  | _ => none

/-! ## Sample inputs -/

/-- A sample of the external libraries, for evaluating the package on concrete
inputs: a string is empty when it has no bytes, msgpack and float conversion
always fail, and a value is assignable to a variable of its own type only. -/
def sampleLibs : Libs where
  ValidationIsEmpty := fun s => decide (s = "")
  Marshal := fun _ => .error (.External "msgpack: unsupported")
  Unmarshal := fun _ out => (some (.External "msgpack: unsupported"), out)
  AssignableTo := fun a b => decide (a = b)
  FormatFloat := fun _ _ => ""
  ParseFloat := fun s _ => .error (.NumError "ParseFloat" s .Syntax)

/-- A sample configuration: the default namespace and one address. -/
def sampleConfig : Config :=
  { DependencyPriority := 10, Namespace := DefaultNameSpace, DB := 0, Username := "",
    Password := "", Addresses := "localhost:6379", SentinelAddresses := "", SentinelMaster := "",
    SentinelUsername := "", SentinelPassword := "", SentinelCluster := false }

/-- A sample open instance: a standalone client is bound. -/
def sampleInstance : Instance :=
  { client := some .standalone, cfg := sampleConfig, clustering := false }

/-- A sample world: an empty store on which no command fails. -/
def emptyWorld : World :=
  { data := [], fault := fun _ => none, log := [], cancels := 0, remCalls := 0 }

/-- A sample world: the store holds the text `test_value` under
`cache-app:test:TestSet`, without expiration, and no command fails. -/
def storedWorld : World :=
  { data := [("cache-app:test:TestSet", ⟨"test_value".data, 0⟩)], fault := fun _ => none,
    log := [], cancels := 0, remCalls := 0 }

/-- A sample open instance whose namespace `a[b]` holds glob metacharacters. -/
def bracketInstance : Instance :=
  { client := some .standalone, cfg := { sampleConfig with Namespace := "a[b]" },
    clustering := false }

/-- A sample world: the store holds the text `test_value` under `a[b]:test:TestSet`,
where `bracketInstance` puts the key `TestSet` with prefix `test`, and no command
fails. -/
def bracketWorld : World :=
  { data := [("a[b]:test:TestSet", ⟨"test_value".data, 0⟩)], fault := fun _ => none,
    log := [], cancels := 0, remCalls := 0 }

/-- A sample instance fresh from `New`: no client is bound. -/
def closedInstance : Instance :=
  { client := none, cfg := sampleConfig, clustering := false }

/-- A sample world: the store holds the text `test_value` under
`cache-app:test:TestSet`, and every existence probe fails in transit with a timeout;
every other command goes through. -/
def probeFaultWorld : World :=
  { data := [("cache-app:test:TestSet", ⟨"test_value".data, 0⟩)],
    fault := fun c =>
      match c with
      | .Exists _ _ => some (.External "i/o timeout")
      | _ => none,
    log := [], cancels := 0, remCalls := 0 }

/-- A sample clustered instance: a cluster client is bound. -/
def clusterInstance : Instance :=
  { client := some .cluster, cfg := { sampleConfig with Addresses := "node-a:6379,node-b:6379" },
    clustering := true }

/-- A sample cluster of two masters: master 0 owns every key, master 1 owns none, and
a scan through the cluster handle is answered by master 0. -/
def twoMasters : Cluster := { owns := [fun _ => true, fun _ => false], route := 0 }

/-- A sample world: the store holds the text `test_value` under
`cache-app:test:TestSet`, and every scan sent to master 1 fails in transit with a
timeout; every other command goes through. -/
def masterFaultWorld : World :=
  { data := [("cache-app:test:TestSet", ⟨"test_value".data, 0⟩)],
    fault := fun c =>
      match c with
      | .Scan (some 1) _ _ _ _ => some (.External "i/o timeout")
      | _ => none,
    log := [], cancels := 0, remCalls := 0 }

/-- A sample instance fresh from `New` with both address sources configured. -/
def bothSourcesInstance : Instance :=
  { client := none, cfg := { sampleConfig with SentinelAddresses := "sentinel-a:26379" },
    clustering := false }

/-- A sample instance fresh from `New` whose `Addresses` holds blank entries only,
while `SentinelAddresses` names one sentinel. -/
def blankAddressesInstance : Instance :=
  { client := none,
    cfg := { sampleConfig with Addresses := " , ", SentinelAddresses := "sentinel-a:26379" },
    clustering := false }

/-- A sample world: an empty store on which every unconditional write fails in
transit with a timeout; every other command goes through. -/
def writeFaultWorld : World :=
  { data := [],
    fault := fun c =>
      match c with
      | .Set _ _ _ _ => some (.External "i/o timeout")
      | _ => none,
    log := [], cancels := 0, remCalls := 0 }

/-- A sample cluster without masters, for an instance that is not clustered. -/
def noCluster : Cluster := { owns := [], route := 0 }

/-! ## Lemmas on decimal text -/

theorem digitChar_isDigit : ∀ d, d < 10 → ('0' ≤ digitChar d ∧ digitChar d ≤ '9') := by decide

theorem digitChar_toNat : ∀ d, d < 10 → (digitChar d).toNat - 48 = d := by decide

theorem digitChar_ne_sign : ∀ d, d < 10 → digitChar d ≠ '+' ∧ digitChar d ≠ '-' := by decide

theorem parseUintLoop_digit (maxVal n d : Nat) (cs : List Char) (hd : d < 10)
    (hn : n * 10 + d ≤ maxVal) (hm : maxVal < 2 ^ 64) :
    parseUintLoop maxVal (digitChar d :: cs) n = parseUintLoop maxVal cs (n * 10 + d) := by
  have h1 := digitChar_isDigit d hd
  have h2 := digitChar_toNat d hd
  have h3 : ¬ (n ≥ (2 ^ 64 - 1) / 10 + 1) := by
    norm_num at hm ⊢
    omega
  have h4 : ¬ (n * 10 + d > maxVal) := by omega
  simp only [parseUintLoop, h1, h2, h3, h4, and_self, if_true, if_false]

theorem parseUintLoop_natDigits (maxVal : Nat) (hm : maxVal < 2 ^ 64) :
    ∀ (fuel m : Nat) (rest : List Char), m ≤ fuel → m ≤ maxVal →
      parseUintLoop maxVal (natDigitsFuel fuel m ++ rest) 0 = parseUintLoop maxVal rest m := by
  intro fuel
  induction fuel with
  | zero =>
    intro m rest hf hmax
    have hm0 : m = 0 := by omega
    subst hm0
    have := parseUintLoop_digit maxVal 0 0 rest (by decide) (by omega) hm
    simpa [natDigitsFuel] using this
  | succ f ih =>
    intro m rest hf hmax
    by_cases h10 : m < 10
    · have := parseUintLoop_digit maxVal 0 m rest h10 (by omega) hm
      simpa [natDigitsFuel, h10] using this
    · have hdiv : m / 10 ≤ f := by omega
      have hdm : m / 10 ≤ maxVal := by omega
      have hmod : m % 10 < 10 := Nat.mod_lt _ (by decide)
      have hsum : m / 10 * 10 + m % 10 = m := by omega
      have step := parseUintLoop_digit maxVal (m / 10) (m % 10) rest hmod (by omega) hm
      simp only [natDigitsFuel, h10, if_false, List.append_assoc, List.singleton_append]
      rw [ih (m / 10) _ hdiv hdm, step, hsum]

theorem natDigitsFuel_head : ∀ (fuel m : Nat), ∃ d tl, d < 10 ∧ natDigitsFuel fuel m = digitChar d :: tl := by
  intro fuel
  induction fuel with
  | zero =>
    intro m
    exact ⟨m % 10, [], Nat.mod_lt _ (by decide), rfl⟩
  | succ f ih =>
    intro m
    by_cases h10 : m < 10
    · exact ⟨m, [], h10, by simp [natDigitsFuel, h10]⟩
    · obtain ⟨d, tl, hd, he⟩ := ih (m / 10)
      exact ⟨d, tl ++ [digitChar (m % 10)], hd, by simp [natDigitsFuel, h10, he]⟩

theorem mk_ne_empty (c : Char) (cs : List Char) : String.mk (c :: cs) ≠ "" := by
  intro h
  have := congrArg String.data h
  simp at this

theorem parseUintLoop_format (maxVal n : Nat) (hm : maxVal < 2 ^ 64) (hn : n ≤ maxVal) :
    parseUintLoop maxVal (natDigitsFuel n n) 0 = some (some n) := by
  have := parseUintLoop_natDigits maxVal hm n n [] (le_refl _) hn
  simpa [parseUintLoop] using this

/-- `ParseUint` reads back what `FormatUint` wrote, for every width up to 64 bits. -/
theorem ParseUint_FormatUint (n bitSize : Nat) (hb : bitSize ≤ 64)
    (hn : n < 2 ^ (if bitSize = 0 then IntSize else bitSize)) :
    ParseUint (FormatUint n) bitSize = .ok n := by
  obtain ⟨d, tl, _, he⟩ := natDigitsFuel_head n n
  have hne : FormatUint n ≠ "" := by
    unfold FormatUint
    rw [he]
    exact mk_ne_empty _ _
  have hpow : 2 ^ (if bitSize = 0 then IntSize else bitSize) ≤ 2 ^ 64 := by
    apply Nat.pow_le_pow_right (by decide)
    split
    · exact le_refl _
    · exact hb
  have hpos : 0 < 2 ^ (if bitSize = 0 then IntSize else bitSize) := by positivity
  have hloop := parseUintLoop_format (2 ^ (if bitSize = 0 then IntSize else bitSize) - 1) n
    (by omega) (by omega)
  unfold ParseUint
  rw [if_neg hne]
  simp only [FormatUint] at hloop ⊢
  rw [hloop]

/-- `ParseInt` reads back what `FormatInt` wrote, for every width from 1 to 64 bits. -/
theorem ParseInt_FormatInt (n : Int) (bitSize : Nat) (hb : bitSize ≤ 64)
    (hlo : -(2 : Int) ^ ((if bitSize = 0 then IntSize else bitSize) - 1) ≤ n)
    (hhi : n < (2 : Int) ^ ((if bitSize = 0 then IntSize else bitSize) - 1)) :
    ParseInt (FormatInt n) bitSize = .ok n := by
  have hB1 : 1 ≤ (if bitSize = 0 then IntSize else bitSize) := by
    split
    · decide
    · omega
  generalize hBdef : (if bitSize = 0 then IntSize else bitSize) = B at hlo hhi hB1
  have hcast : ((2 : Int) ^ (B - 1)) = ((2 ^ (B - 1) : Nat) : Int) := by push_cast; rfl
  have hdouble : 2 ^ B = 2 * 2 ^ (B - 1) := by
    obtain ⟨k, rfl⟩ : ∃ k, B = k + 1 := ⟨B - 1, by omega⟩
    simp [pow_succ, Nat.mul_comm]
  rw [hcast] at hlo hhi
  generalize hP : 2 ^ (B - 1) = P at hlo hhi hdouble
  by_cases hneg : n < 0
  · have hu : ParseUint (FormatUint n.natAbs) bitSize = .ok n.natAbs :=
      ParseUint_FormatUint n.natAbs bitSize hb (by rw [hBdef, hdouble]; omega)
    have hs : FormatInt n = String.mk ('-' :: natDigitsFuel n.natAbs n.natAbs) := by
      simp [FormatInt, hneg]
    unfold ParseInt
    rw [if_neg (by rw [hs]; exact mk_ne_empty _ _)]
    simp only [hs, List.head?_cons, List.tail_cons]
    simp only [FormatUint] at hu
    have h1 : ¬ (P < n.natAbs) := by omega
    simp [hu, hBdef, hP, h1]
    rw [abs_of_neg hneg, neg_neg]
  · obtain ⟨d, tl, hd, he⟩ := natDigitsFuel_head n.toNat n.toNat
    have hsign := digitChar_ne_sign d hd
    have hu : ParseUint (FormatUint n.toNat) bitSize = .ok n.toNat :=
      ParseUint_FormatUint n.toNat bitSize hb (by rw [hBdef, hdouble]; omega)
    have hs : FormatInt n = String.mk (natDigitsFuel n.toNat n.toNat) := by
      simp [FormatInt, hneg, FormatUint]
    unfold ParseInt
    rw [if_neg (by rw [hs, he]; exact mk_ne_empty _ _)]
    simp only [FormatUint] at hu
    simp only [hs]
    simp [he, hsign]
    rw [← he]
    have h1 : ¬ (P ≤ n.toNat) := by omega
    have h2 : ((n.toNat : Nat) : Int) = n := by omega
    simp [hu, hBdef, hP, h1]
    omega

theorem ParseInt_FormatInt_bits (n : Int) (bits : Nat) (hb : 1 ≤ bits ∧ bits ≤ 64)
    (hn : -(2 : Int) ^ (bits - 1) ≤ n ∧ n < (2 : Int) ^ (bits - 1)) :
    ParseInt (FormatInt n) bits = .ok n := by
  have h0 : bits ≠ 0 := by omega
  apply ParseInt_FormatInt n bits hb.2
  · simpa [h0] using hn.1
  · simpa [h0] using hn.2

theorem Atoi_FormatInt (n : Int)
    (hn : -(2 : Int) ^ (IntSize - 1) ≤ n ∧ n < (2 : Int) ^ (IntSize - 1)) :
    Atoi (FormatInt n) = .ok n := by
  have h := ParseInt_FormatInt n 0 (by decide) (by simpa using hn.1) (by simpa using hn.2)
  simp [Atoi, h]

theorem parseUint_FormatUint (n bits : Nat) (hb : 1 ≤ bits ∧ bits ≤ 64) (hn : n < 2 ^ bits) :
    parseUint (FormatUint n) bits = .ok n := by
  have h0 : bits ≠ 0 := by omega
  have h := ParseUint_FormatUint n bits hb.2 (by simpa [h0] using hn)
  simp [parseUint, h]

theorem parseUint_FormatUint_zero (n : Nat) (hn : n < 2 ^ IntSize) :
    parseUint (FormatUint n) 0 = .ok n := by
  have h := ParseUint_FormatUint n 0 (by decide) (by simpa using hn)
  simp [parseUint, h]

theorem ParseBool_FormatBool (b : Bool) : ParseBool (FormatBool b) = .ok b := by
  cases b <;> rfl

/-! ## Codec round trip -/

/-- What `decoder` makes of the bytes of `encoder`, for a value of a type written as
text and a destination of the same type. -/
theorem decoder_encoder_native (L : Libs) (v old : Value) (t : GoType)
    (hnative : v.isNative = true) (hrange : v.inRange = true) (htype : v.typeOf = some t) :
    ∃ b, encoder L v = .ok b ∧ decoder L b (.ptr t old) = (.ret none, .ptr t v) := by
  cases v <;> simp [Value.isNative] at hnative <;> simp [Value.typeOf] at htype <;> subst htype
  case string s =>
    exact ⟨s.data, rfl, by simp [decoder, Value.elemType?, storeThrough]⟩
  case bytes b =>
    exact ⟨b, rfl, by simp [decoder, Value.elemType?, storeThrough]⟩
  case bool b =>
    have h := ParseBool_FormatBool b
    exact ⟨(FormatBool b).data, rfl, by simp [decoder, Value.elemType?, storeThrough, storeParsed, h]⟩
  case int n =>
    have h := Atoi_FormatInt n (by simpa [Value.inRange] using hrange)
    exact ⟨(FormatInt n).data, rfl, by simp [decoder, Value.elemType?, storeThrough, storeParsed, h]⟩
  case int8 n =>
    have h := ParseInt_FormatInt_bits n 8 (by decide) (by simpa [Value.inRange] using hrange)
    exact ⟨(FormatInt n).data, rfl, by simp [decoder, Value.elemType?, storeThrough, storeParsed, h]⟩
  case int16 n =>
    have h := ParseInt_FormatInt_bits n 16 (by decide) (by simpa [Value.inRange] using hrange)
    exact ⟨(FormatInt n).data, rfl, by simp [decoder, Value.elemType?, storeThrough, storeParsed, h]⟩
  case int32 n =>
    have h := ParseInt_FormatInt_bits n 32 (by decide) (by simpa [Value.inRange] using hrange)
    exact ⟨(FormatInt n).data, rfl, by simp [decoder, Value.elemType?, storeThrough, storeParsed, h]⟩
  case int64 n =>
    have h := ParseInt_FormatInt_bits n 64 (by decide) (by simpa [Value.inRange] using hrange)
    exact ⟨(FormatInt n).data, rfl, by simp [decoder, Value.elemType?, storeThrough, storeParsed, h]⟩
  case uint n =>
    have h := parseUint_FormatUint_zero n (by simpa [Value.inRange] using hrange)
    exact ⟨(FormatUint n).data, rfl, by simp [decoder, Value.elemType?, storeThrough, storeParsed, h]⟩
  case uint8 n =>
    have h := parseUint_FormatUint n 8 (by decide) (by simpa [Value.inRange] using hrange)
    exact ⟨(FormatUint n).data, rfl, by simp [decoder, Value.elemType?, storeThrough, storeParsed, h]⟩
  case uint16 n =>
    have h := parseUint_FormatUint n 16 (by decide) (by simpa [Value.inRange] using hrange)
    exact ⟨(FormatUint n).data, rfl, by simp [decoder, Value.elemType?, storeThrough, storeParsed, h]⟩
  case uint32 n =>
    have h := parseUint_FormatUint n 32 (by decide) (by simpa [Value.inRange] using hrange)
    exact ⟨(FormatUint n).data, rfl, by simp [decoder, Value.elemType?, storeThrough, storeParsed, h]⟩
  case uint64 n =>
    have h := parseUint_FormatUint n 64 (by decide) (by simpa [Value.inRange] using hrange)
    exact ⟨(FormatUint n).data, rfl, by simp [decoder, Value.elemType?, storeThrough, storeParsed, h]⟩

/-- C2: for every value `v` of type string, `[]byte`, bool or one of the ten integer
types (in the range of its type), `encoder` returns bytes without error, and
`decoder` of these bytes into a variable of the same type returns no error and
leaves the variable equal to `v`, whatever it held before. -/
theorem codec_roundtrip_native (L : Libs) (v old : Value) (t : GoType)
    (hnative : v.isNative = true) (hrange : v.inRange = true) (htype : v.typeOf = some t) :
    ∃ b, encoder L v = .ok b ∧ decoder L b (.ptr t old) = (.ret none, .ptr t v) :=
  decoder_encoder_native L v old t hnative hrange htype

theorem codec_roundtrip_native_witness :
    (Value.int8 (-128)).isNative = true ∧ (Value.int8 (-128)).inRange = true ∧
    (Value.int8 (-128)).typeOf = some .int8 ∧
    ∃ b, encoder sampleLibs (.int8 (-128)) = .ok b ∧
      decoder sampleLibs b (.ptr .int8 (.int8 5)) = (.ret none, .ptr .int8 (.int8 (-128))) :=
  ⟨rfl, by decide, rfl,
    codec_roundtrip_native sampleLibs (.int8 (-128)) (.int8 5) .int8 rfl (by decide) rfl⟩

/-! ## The store commands on a world without faults -/

theorem redis_Get_found (ctx : Option Context) (key : String) (w : World) (e : Entry)
    (hf : w.fault (.Get ctx key) = none) (hd : w.find key = some e) :
    redis.Get ctx key w = (.ok e.val, w.issue (.Get ctx key)) := by
  simp [redis.Get, hf, hd]

theorem redis_Get_missing (ctx : Option Context) (key : String) (w : World)
    (hf : w.fault (.Get ctx key) = none) (hd : w.find key = none) :
    redis.Get ctx key w = (.error .RedisNil, w.issue (.Get ctx key)) := by
  simp [redis.Get, hf, hd]

theorem redis_Set_ok (ctx : Option Context) (key : String) (val : Bytes) (ttl : Duration)
    (w : World) (hf : w.fault (.Set ctx key val ttl) = none) :
    redis.Set ctx key val ttl w =
      (none, { w.issue (.Set ctx key val ttl) with data := (key, ⟨val, ttl⟩) :: w.erase key }) := by
  simp [redis.Set, hf]

theorem redis_Exists_found (ctx : Option Context) (key : String) (w : World) (e : Entry)
    (hf : w.fault (.Exists ctx key) = none) (hd : w.find key = some e) :
    redis.Exists ctx key w = (.ok 1, w.issue (.Exists ctx key)) := by
  simp [redis.Exists, hf, hd]

theorem redis_Exists_missing (ctx : Option Context) (key : String) (w : World)
    (hd : w.find key = none) :
    (redis.Exists ctx key w).2 = w.issue (.Exists ctx key) ∧
    ((redis.Exists ctx key w).1 = .ok 0 ∨ ∃ e, (redis.Exists ctx key w).1 = .error e) := by
  unfold redis.Exists
  cases hf : w.fault (.Exists ctx key) with
  | none => simp [hd]
  | some e => simp

theorem find_erase_self (w : World) (key : String) :
    List.lookup key (w.erase key) = none := by
  simp only [World.erase, List.lookup_eq_none_iff, List.mem_filter]
  intro kv hmem
  have h := hmem.2
  simp only [bne_iff_ne, ne_eq] at h ⊢
  exact fun h1 => h h1.symm

theorem erase_of_find_none (w : World) (key : String) (hd : w.find key = none) :
    w.erase key = w.data := by
  simp only [World.find, List.lookup_eq_none_iff] at hd
  simp only [World.erase, List.filter_eq_self]
  intro kv hmem
  have h := hd kv hmem
  simp only [bne_iff_ne, ne_eq] at h ⊢
  exact fun h1 => h h1.symm

/-! ## The executors, case by case -/

theorem SetPrefix_eq (L : Libs) (s : setter) (p : String) :
    s.SetPrefix L p = { s with key := withPrefix L s.key [p] } := by
  unfold setter.SetPrefix withPrefix
  by_cases h : L.ValidationIsEmpty p = true <;> simp [h]

theorem set_client_nil (L : Libs) (i : Instance) (s : setter) (val : Value) (borrow : List Bool)
    (w : World) (hc : i.client = none) :
    i.set L s val borrow w = ⟨none, some .ErrClientNil, setter.zero, w.cancelIf s.cancel⟩ := by
  simp [Instance.set, Instance.validateClient, hc, setter.cleanup]

theorem set_empty_key (L : Libs) (i : Instance) (s : setter) (val : Value) (borrow : List Bool)
    (w : World) (c : Client) (hc : i.client = some c) (hk : L.ValidationIsEmpty s.key = true) :
    i.set L s val borrow w = ⟨none, some .ErrEmptyKey, setter.zero, w.cancelIf s.cancel⟩ := by
  simp [Instance.set, Instance.validateClient, hc, hk, setter.cleanup]

theorem set_borrow (L : Libs) (i : Instance) (s : setter) (val : Value) (w : World)
    (c : Client) (hc : i.client = some c) (hk : L.ValidationIsEmpty s.key = false) :
    i.set L s val [true] w =
      ⟨some c, none, { s with key := i.cfg.Namespace ++ DefaultKeySeparator ++ s.key }, w⟩ := by
  simp [Instance.set, Instance.validateClient, hc, hk]

theorem set_encode_error (L : Libs) (i : Instance) (s : setter) (val : Value) (w : World)
    (c : Client) (err : Error) (hc : i.client = some c) (hk : L.ValidationIsEmpty s.key = false)
    (he : encoder L val = .error err) :
    i.set L s val [] w =
      ⟨none, some (.Wrap "failed to encode value %T" err), setter.zero, w.cancelIf s.cancel⟩ := by
  simp [Instance.set, Instance.validateClient, hc, hk, he, setter.cleanup]

theorem set_exec (L : Libs) (i : Instance) (s : setter) (val : Value) (w : World)
    (c : Client) (b : Bytes) (hc : i.client = some c) (hk : L.ValidationIsEmpty s.key = false)
    (he : encoder L val = .ok b) :
    i.set L s val [] w =
      ⟨none, (redis.Set s.ctx (i.cfg.Namespace ++ DefaultKeySeparator ++ s.key) b s.ttl w).1,
        setter.zero,
        (redis.Set s.ctx (i.cfg.Namespace ++ DefaultKeySeparator ++ s.key) b s.ttl w).2.cancelIf
          s.cancel⟩ := by
  simp [Instance.set, Instance.validateClient, hc, hk, he, setter.cleanup]

theorem Put_eq (L : Libs) (i : Instance) (s : setter) (val : Value) (w : World)
    (hfn : s.setFn = some i) :
    s.Put L val w =
      ⟨.ret (if s.ttl ≤ 0 then DefaultTTL else s.ttl,
          (i.set L { s with ttl := if s.ttl ≤ 0 then DefaultTTL else s.ttl } val [] w).err),
        (i.set L { s with ttl := if s.ttl ≤ 0 then DefaultTTL else s.ttl } val [] w).set,
        (i.set L { s with ttl := if s.ttl ≤ 0 then DefaultTTL else s.ttl } val [] w).world⟩ := by
  obtain ⟨b, ttl, fn⟩ := s
  simp only at hfn
  subst hfn
  unfold setter.Put setter.callSetFn setter.SetTTL
  by_cases h : ttl ≤ 0 <;> simp [h]

theorem PutForever_eq (L : Libs) (i : Instance) (s : setter) (val : Value) (w : World)
    (hfn : s.setFn = some i) :
    s.PutForever L val w =
      ⟨.ret (0, (i.set L { s with ttl := 0 } val [] w).err),
        (i.set L { s with ttl := 0 } val [] w).set,
        (i.set L { s with ttl := 0 } val [] w).world⟩ := by
  unfold setter.PutForever setter.callSetFn
  simp [hfn]

theorem get_empty_key (L : Libs) (i : Instance) (g : getter) (out : Value)
    (rem : List (Option RememberFn)) (w : World) (hk : L.ValidationIsEmpty g.key = true) :
    i.get L g out rem w = ⟨.ret (some .ErrEmptyKey), getter.zero, out, w.cancelIf g.cancel⟩ := by
  simp [Instance.get, hk]

theorem get_client_nil (L : Libs) (i : Instance) (g : getter) (out : Value)
    (rem : List (Option RememberFn)) (w : World) (hk : L.ValidationIsEmpty g.key = false)
    (hc : i.client = none) :
    i.get L g out rem w = ⟨.ret (some .ErrClientNil), getter.zero, out, w.cancelIf g.cancel⟩ := by
  simp [Instance.get, hk, Instance.validateClient, hc]

theorem get_pull (L : Libs) (i : Instance) (g : getter) (out : Value) (w : World) (c : Client)
    (hk : L.ValidationIsEmpty g.key = false) (hc : i.client = some c) :
    i.get L g out [] w = i.getExec L g out w := by
  simp [Instance.get, hk, Instance.validateClient, hc]

theorem getExec_found (L : Libs) (i : Instance) (g : getter) (out : Value) (w : World) (e : Entry)
    (hf : w.fault (.Get g.ctx (i.cfg.Namespace ++ DefaultKeySeparator ++ g.key)) = none)
    (hd : w.find (i.cfg.Namespace ++ DefaultKeySeparator ++ g.key) = some e) :
    i.getExec L g out w =
      ⟨wrapDecode (decoder L e.val out).1, getter.zero, (decoder L e.val out).2,
        (w.issue (.Get g.ctx (i.cfg.Namespace ++ DefaultKeySeparator ++ g.key))).cancelIf
          g.cancel⟩ := by
  simp [Instance.getExec, redis_Get_found _ _ _ e hf hd]

theorem Has_client_nil (L : Libs) (i : Instance) (ctx : Option Context) (key : String)
    (pre : List String) (w : World) (hc : i.client = none) :
    i.Has L ctx key pre w = (false, w) := by
  simp [Instance.Has, Instance.validateClient, hc]

theorem Has_found (L : Libs) (i : Instance) (ctx : Option Context) (key : String)
    (pre : List String) (w : World) (c : Client) (e : Entry) (hc : i.client = some c)
    (hf : w.fault (.Exists (some (defaultCtx ctx).1)
      (i.cfg.Namespace ++ DefaultKeySeparator ++ withPrefix L key pre)) = none)
    (hd : w.find (i.cfg.Namespace ++ DefaultKeySeparator ++ withPrefix L key pre) = some e) :
    i.Has L ctx key pre w =
      (true, (w.issue (.Exists (some (defaultCtx ctx).1)
        (i.cfg.Namespace ++ DefaultKeySeparator ++ withPrefix L key pre))).cancelIf
          (defaultCtx ctx).2) := by
  simp [Instance.Has, Instance.validateClient, hc, redis_Exists_found _ _ _ e hf hd]

theorem Has_missing (L : Libs) (i : Instance) (ctx : Option Context) (key : String)
    (pre : List String) (w : World) (c : Client) (hc : i.client = some c)
    (hd : w.find (i.cfg.Namespace ++ DefaultKeySeparator ++ withPrefix L key pre) = none) :
    i.Has L ctx key pre w =
      (false, (w.issue (.Exists (some (defaultCtx ctx).1)
        (i.cfg.Namespace ++ DefaultKeySeparator ++ withPrefix L key pre))).cancelIf
          (defaultCtx ctx).2) := by
  obtain ⟨hw, hr⟩ := redis_Exists_missing (some (defaultCtx ctx).1)
    (i.cfg.Namespace ++ DefaultKeySeparator ++ withPrefix L key pre) w hd
  unfold Instance.Has
  simp only [Instance.validateClient, hc]
  rcases hr with h0 | ⟨e, he⟩
  · rw [show redis.Exists (some (defaultCtx ctx).1)
        (i.cfg.Namespace ++ DefaultKeySeparator ++ withPrefix L key pre) w
        = (.ok 0, w.issue (.Exists (some (defaultCtx ctx).1)
        (i.cfg.Namespace ++ DefaultKeySeparator ++ withPrefix L key pre))) from Prod.ext h0 hw]
    simp
  · rw [show redis.Exists (some (defaultCtx ctx).1)
        (i.cfg.Namespace ++ DefaultKeySeparator ++ withPrefix L key pre) w
        = (.error e, w.issue (.Exists (some (defaultCtx ctx).1)
        (i.cfg.Namespace ++ DefaultKeySeparator ++ withPrefix L key pre))) from Prod.ext he hw]
    simp

theorem del_empty_key (L : Libs) (i : Instance) (d : deleter) (w : World)
    (hk : L.ValidationIsEmpty d.key = true) :
    i.del L d w = ⟨.ret (0, some .ErrEmptyKey), deleter.zero, w.cancelIf d.cancel⟩ := by
  simp [Instance.del, hk]

theorem del_exec (L : Libs) (i : Instance) (d : deleter) (w : World) (c : Client)
    (hk : L.ValidationIsEmpty d.key = false) (hc : i.client = some c)
    (hf : w.fault (.Del (some .Background) (i.cfg.Namespace ++ DefaultKeySeparator ++ d.key)) = none) :
    i.del L d w =
      ⟨.ret (if (w.find (i.cfg.Namespace ++ DefaultKeySeparator ++ d.key)).isSome then 1 else 0, none),
        deleter.zero,
        ({ w.issue (.Del (some .Background) (i.cfg.Namespace ++ DefaultKeySeparator ++ d.key)) with
            data := w.erase (i.cfg.Namespace ++ DefaultKeySeparator ++ d.key) }).cancelIf
          d.cancel⟩ := by
  unfold Instance.del redis.Del
  cases hfind : w.find (i.cfg.Namespace ++ DefaultKeySeparator ++ d.key) <;>
    simp [hk, Instance.validateClient, hc, hf, hfind]

/-- The expiration that `Put` (`forever = false`) or `PutForever` (`forever = true`)
writes with. -/
theorem store_exec (L : Libs) (i : Instance) (s : setter) (val : Value) (w : World)
    (forever : Bool) (c : Client) (b : Bytes) (hfn : s.setFn = some i) (hc : i.client = some c)
    (hk : L.ValidationIsEmpty s.key = false) (he : encoder L val = .ok b) :
    (if forever then s.PutForever L val w else s.Put L val w) =
      ⟨.ret (if forever then 0 else if s.ttl ≤ 0 then DefaultTTL else s.ttl,
          (redis.Set s.ctx (i.cfg.Namespace ++ DefaultKeySeparator ++ s.key) b
            (if forever then 0 else if s.ttl ≤ 0 then DefaultTTL else s.ttl) w).1),
        setter.zero,
        (redis.Set s.ctx (i.cfg.Namespace ++ DefaultKeySeparator ++ s.key) b
            (if forever then 0 else if s.ttl ≤ 0 then DefaultTTL else s.ttl) w).2.cancelIf
          s.cancel⟩ := by
  cases forever
  · rw [if_neg (by simp), Put_eq L i s val w hfn,
      set_exec L i _ val w c b hc (by simpa using hk) he]
    simp
  · rw [if_pos rfl, PutForever_eq L i s val w hfn,
      set_exec L i _ val w c b hc (by simpa using hk) he]
    simp

theorem store_success (L : Libs) (i : Instance) (s : setter) (val : Value) (w : World)
    (forever : Bool) (ttl : Duration) (hfn : s.setFn = some i)
    (hput : (if forever then s.PutForever L val w else s.Put L val w).result = .ret (ttl, none)) :
    ∃ c b, i.client = some c ∧ L.ValidationIsEmpty s.key = false ∧ encoder L val = .ok b ∧
      ttl = (if forever then 0 else if s.ttl ≤ 0 then DefaultTTL else s.ttl) ∧
      w.fault (.Set s.ctx (i.cfg.Namespace ++ DefaultKeySeparator ++ s.key) b ttl) = none ∧
      (if forever then s.PutForever L val w else s.Put L val w).world =
        ({ w.issue (.Set s.ctx (i.cfg.Namespace ++ DefaultKeySeparator ++ s.key) b ttl) with
            data := (i.cfg.Namespace ++ DefaultKeySeparator ++ s.key, ⟨b, ttl⟩) ::
              w.erase (i.cfg.Namespace ++ DefaultKeySeparator ++ s.key) }).cancelIf s.cancel := by
  cases hc : i.client with
  | none =>
    cases forever
    · rw [if_neg (by simp), Put_eq L i s val w hfn, set_client_nil L i _ val [] w hc] at hput
      simp at hput
    · rw [if_pos rfl, PutForever_eq L i s val w hfn, set_client_nil L i _ val [] w hc] at hput
      simp at hput
  | some c =>
    cases hk : L.ValidationIsEmpty s.key with
    | true =>
      cases forever
      · rw [if_neg (by simp), Put_eq L i s val w hfn,
          set_empty_key L i _ val [] w c hc (by simpa using hk)] at hput
        simp at hput
      · rw [if_pos rfl, PutForever_eq L i s val w hfn,
          set_empty_key L i _ val [] w c hc (by simpa using hk)] at hput
        simp at hput
    | false =>
      cases he : encoder L val with
      | error err =>
        cases forever
        · rw [if_neg (by simp), Put_eq L i s val w hfn,
            set_encode_error L i _ val w c err hc (by simpa using hk) he] at hput
          simp at hput
        · rw [if_pos rfl, PutForever_eq L i s val w hfn,
            set_encode_error L i _ val w c err hc (by simpa using hk) he] at hput
          simp at hput
      | ok b =>
        have hex := store_exec L i s val w forever c b hfn hc hk he
        rw [hex] at hput ⊢
        simp only [Res.ret.injEq, Prod.mk.injEq] at hput
        obtain ⟨httl, herr⟩ := hput
        refine ⟨c, b, rfl, rfl, rfl, httl.symm, ?_, ?_⟩
        · rw [httl] at herr
          cases hf : w.fault (.Set s.ctx (i.cfg.Namespace ++ DefaultKeySeparator ++ s.key) b ttl) with
          | none => rfl
          | some e => simp [redis.Set, hf] at herr
        · rw [httl] at herr ⊢
          cases hf : w.fault (.Set s.ctx (i.cfg.Namespace ++ DefaultKeySeparator ++ s.key) b ttl) with
          | none => simp [redis.Set, hf]
          | some e => simp [redis.Set, hf] at herr

/-! ## Cancelling touches nothing but the cancel counter -/

theorem cancelIf_data (w : World) (c : Option CancelFunc) : (w.cancelIf c).data = w.data := by
  unfold World.cancelIf World.cancel
  split <;> rfl

theorem cancelIf_fault (w : World) (c : Option CancelFunc) : (w.cancelIf c).fault = w.fault := by
  unfold World.cancelIf World.cancel
  split <;> rfl

theorem cancelIf_log (w : World) (c : Option CancelFunc) : (w.cancelIf c).log = w.log := by
  unfold World.cancelIf World.cancel
  split <;> rfl

theorem cancelIf_remCalls (w : World) (c : Option CancelFunc) :
    (w.cancelIf c).remCalls = w.remCalls := by
  unfold World.cancelIf World.cancel
  split <;> rfl

theorem cancelIf_find (w : World) (c : Option CancelFunc) (key : String) :
    (w.cancelIf c).find key = w.find key := by
  simp [World.find, cancelIf_data]

/-! ## Put and Pull -/

/-- C1: when `Set(ctx,k).SetPrefix(p).Put(v)` (`forever = false`) or `.PutForever(v)`
(`forever = true`) with a string `v` returned no error, on a store that behaves as a
map, `Get(ctx,k,p).Pull(&s)` with `s` a string returns no error and leaves `s == v`. -/
theorem put_pull_roundtrip (L : Libs) (i : Instance) (w : World) (ctx ctx' : Option Context)
    (k p v : String) (old : Value) (forever : Bool) (ttl : Duration)
    (hmap : ∀ c, w.fault c = none)
    (hput : (if forever then ((i.Set ctx k).SetPrefix L p).PutForever L (.string v) w
      else ((i.Set ctx k).SetPrefix L p).Put L (.string v) w).result = .ret (ttl, none)) :
    ((i.Get L ctx' k [p]).Pull L (.ptr .string old)
      (if forever then ((i.Set ctx k).SetPrefix L p).PutForever L (.string v) w
        else ((i.Set ctx k).SetPrefix L p).Put L (.string v) w).world).result = .ret none ∧
    ((i.Get L ctx' k [p]).Pull L (.ptr .string old)
      (if forever then ((i.Set ctx k).SetPrefix L p).PutForever L (.string v) w
        else ((i.Set ctx k).SetPrefix L p).Put L (.string v) w).world).out
      = .ptr .string (.string v) := by
  have hfn : ((i.Set ctx k).SetPrefix L p).setFn = some i := by
    rw [SetPrefix_eq]; rfl
  have hkey : ((i.Set ctx k).SetPrefix L p).key = (i.Get L ctx' k [p]).key := by
    rw [SetPrefix_eq]; rfl
  obtain ⟨c, b, hc, hk, he, _, _, hw⟩ := store_success L i _ (.string v) w forever ttl hfn hput
  have hb : b = v.data := by
    simp [encoder] at he
    exact he.symm
  subst hb
  rw [hw, hkey]
  rw [hkey] at hk
  have hpull : ∀ out w1, (i.Get L ctx' k [p]).Pull L out w1
      = i.get L (i.Get L ctx' k [p]) out [] w1 := fun _ _ => rfl
  rw [hpull, get_pull L i _ _ _ c hk hc,
    getExec_found L i _ _ _ ⟨v.data, ttl⟩ (by rw [cancelIf_fault]; exact hmap _)
      (by rw [cancelIf_find]; simp [World.find, World.issue, List.lookup])]
  simp [decoder, Value.elemType?, storeThrough, wrapDecode]

theorem put_pull_roundtrip_witness :
    (∀ c, emptyWorld.fault c = none) ∧
    (if false then ((sampleInstance.Set none "TestSet").SetPrefix sampleLibs "test").PutForever
        sampleLibs (.string "test_value") emptyWorld
      else ((sampleInstance.Set none "TestSet").SetPrefix sampleLibs "test").Put
        sampleLibs (.string "test_value") emptyWorld).result = .ret (DefaultTTL, none) ∧
    ((sampleInstance.Get sampleLibs none "TestSet" ["test"]).Pull sampleLibs
      (.ptr .string (.string ""))
      (if false then ((sampleInstance.Set none "TestSet").SetPrefix sampleLibs "test").PutForever
          sampleLibs (.string "test_value") emptyWorld
        else ((sampleInstance.Set none "TestSet").SetPrefix sampleLibs "test").Put
          sampleLibs (.string "test_value") emptyWorld).world).result = .ret none ∧
    ((sampleInstance.Get sampleLibs none "TestSet" ["test"]).Pull sampleLibs
      (.ptr .string (.string ""))
      (if false then ((sampleInstance.Set none "TestSet").SetPrefix sampleLibs "test").PutForever
          sampleLibs (.string "test_value") emptyWorld
        else ((sampleInstance.Set none "TestSet").SetPrefix sampleLibs "test").Put
          sampleLibs (.string "test_value") emptyWorld).world).out
      = .ptr .string (.string "test_value") :=
  ⟨fun _ => rfl, rfl,
    put_pull_roundtrip sampleLibs sampleInstance emptyWorld none none "TestSet" "test"
      "test_value" (.string "") false DefaultTTL (fun _ => rfl) rfl⟩

/-! ## The commands each operation issues -/

theorem redis_Get_log (ctx : Option Context) (key : String) (w : World) :
    (redis.Get ctx key w).2.log = w.log ++ [.Get ctx key] := by
  unfold redis.Get
  split
  · rfl
  · split <;> rfl

theorem redis_Set_log (ctx : Option Context) (key : String) (val : Bytes) (ttl : Duration)
    (w : World) : (redis.Set ctx key val ttl w).2.log = w.log ++ [.Set ctx key val ttl] := by
  unfold redis.Set
  split <;> rfl

theorem redis_Del_log (ctx : Option Context) (key : String) (w : World) :
    (redis.Del ctx key w).2.log = w.log ++ [.Del ctx key] := by
  unfold redis.Del
  split
  · rfl
  · split <;> rfl

theorem redis_Exists_log (ctx : Option Context) (key : String) (w : World) :
    (redis.Exists ctx key w).2.log = w.log ++ [.Exists ctx key] := by
  unfold redis.Exists
  split
  · rfl
  · split <;> rfl

theorem getExec_log (L : Libs) (i : Instance) (g : getter) (out : Value) (w : World) :
    (i.getExec L g out w).world.log =
      w.log ++ [.Get g.ctx (i.cfg.Namespace ++ DefaultKeySeparator ++ g.key)] := by
  have h := redis_Get_log g.ctx (i.cfg.Namespace ++ DefaultKeySeparator ++ g.key) w
  unfold Instance.getExec
  split <;> rename_i heq <;> rw [heq] at h <;> simpa [cancelIf_log] using h

theorem Has_log (L : Libs) (i : Instance) (ctx : Option Context) (key : String)
    (pre : List String) (w : World) (c : Client) (hc : i.client = some c) :
    (i.Has L ctx key pre w).2.log =
      w.log ++ [.Exists (some (defaultCtx ctx).1)
        (i.cfg.Namespace ++ DefaultKeySeparator ++ withPrefix L key pre)] := by
  have h := redis_Exists_log (some (defaultCtx ctx).1)
    (i.cfg.Namespace ++ DefaultKeySeparator ++ withPrefix L key pre) w
  rcases hr : redis.Exists (some (defaultCtx ctx).1)
    (i.cfg.Namespace ++ DefaultKeySeparator ++ withPrefix L key pre) w with ⟨r, w1⟩
  rw [hr] at h
  cases r <;> simpa [Instance.Has, Instance.validateClient, hc, hr, cancelIf_log] using h

theorem del_log (L : Libs) (i : Instance) (d : deleter) (w : World) (c : Client)
    (hk : L.ValidationIsEmpty d.key = false) (hc : i.client = some c) :
    (i.del L d w).world.log =
      w.log ++ [.Del (some .Background) (i.cfg.Namespace ++ DefaultKeySeparator ++ d.key)] := by
  have h := redis_Del_log (some .Background) (i.cfg.Namespace ++ DefaultKeySeparator ++ d.key) w
  rcases hr : redis.Del (some .Background) (i.cfg.Namespace ++ DefaultKeySeparator ++ d.key) w
    with ⟨r, w1⟩
  rw [hr] at h
  cases r <;> simpa [Instance.del, hk, Instance.validateClient, hc, hr, cancelIf_log] using h

theorem store_log (L : Libs) (i : Instance) (s : setter) (val : Value) (w : World)
    (forever : Bool) (c : Client) (b : Bytes) (hfn : s.setFn = some i) (hc : i.client = some c)
    (hk : L.ValidationIsEmpty s.key = false) (he : encoder L val = .ok b) :
    (if forever then s.PutForever L val w else s.Put L val w).world.log =
      w.log ++ [.Set s.ctx (i.cfg.Namespace ++ DefaultKeySeparator ++ s.key) b
        (if forever then 0 else if s.ttl ≤ 0 then DefaultTTL else s.ttl)] := by
  rw [store_exec L i s val w forever c b hfn hc hk he]
  simp [cancelIf_log, redis_Set_log]

/-- C3: on an open instance, for a non-empty key `k` and a non-empty prefix `p`
(neither `k` nor `p:k` judged empty by the validator), `Pull`, `Put`/`PutForever`,
`Perform` and `Has` each send exactly one command to the store, and its key is
`namespace + ":" + p + ":" + k`; without a prefix the key is `namespace + ":" + k`. -/
theorem key_qualification (L : Libs) (i : Instance) (c : Client) (w : World)
    (ctx : Option Context) (k p : String) (out v : Value) (b : Bytes) (forever : Bool)
    (hc : i.client = some c)
    (hp : L.ValidationIsEmpty p = false) (hk : L.ValidationIsEmpty k = false)
    (hpk : L.ValidationIsEmpty (p ++ ":" ++ k) = false) (he : encoder L v = .ok b) :
    (((i.Get L ctx k [p]).Pull L out w).world.log =
        w.log ++ [.Get (some (defaultCtx ctx).1) (i.cfg.Namespace ++ ":" ++ p ++ ":" ++ k)] ∧
      (if forever then ((i.Set ctx k).SetPrefix L p).PutForever L v w
          else ((i.Set ctx k).SetPrefix L p).Put L v w).world.log =
        w.log ++ [.Set (some (defaultCtx ctx).1) (i.cfg.Namespace ++ ":" ++ p ++ ":" ++ k) b
          (if forever then 0 else DefaultTTL)] ∧
      ((i.Delete L ctx k [p]).Perform L w).world.log =
        w.log ++ [.Del (some .Background) (i.cfg.Namespace ++ ":" ++ p ++ ":" ++ k)] ∧
      (i.Has L ctx k [p] w).2.log =
        w.log ++ [.Exists (some (defaultCtx ctx).1) (i.cfg.Namespace ++ ":" ++ p ++ ":" ++ k)]) ∧
    (((i.Get L ctx k []).Pull L out w).world.log =
        w.log ++ [.Get (some (defaultCtx ctx).1) (i.cfg.Namespace ++ ":" ++ k)] ∧
      (if forever then (i.Set ctx k).PutForever L v w else (i.Set ctx k).Put L v w).world.log =
        w.log ++ [.Set (some (defaultCtx ctx).1) (i.cfg.Namespace ++ ":" ++ k) b
          (if forever then 0 else DefaultTTL)] ∧
      ((i.Delete L ctx k []).Perform L w).world.log =
        w.log ++ [.Del (some .Background) (i.cfg.Namespace ++ ":" ++ k)] ∧
      (i.Has L ctx k [] w).2.log =
        w.log ++ [.Exists (some (defaultCtx ctx).1) (i.cfg.Namespace ++ ":" ++ k)]) := by
  have hwp : withPrefix L k [p] = p ++ ":" ++ k := by
    simp [withPrefix, hp, DefaultKeySeparator]
  have hassoc : i.cfg.Namespace ++ ":" ++ p ++ ":" ++ k = i.cfg.Namespace ++ ":" ++ (p ++ ":" ++ k) := by
    simp [String.append_assoc]
  have hpull : ∀ g : getter, g.getFn = some i → ∀ out w1, g.Pull L out w1 = i.get L g out [] w1 := by
    intro g hg out w1
    simp [getter.Pull, hg]
  have hperf : ∀ d : deleter, d.delFn = some i → ∀ w1, d.Perform L w1 = i.del L d w1 := by
    intro d hd w1
    simp [deleter.Perform, hd]
  refine ⟨⟨?_, ?_, ?_, ?_⟩, ?_, ?_, ?_, ?_⟩
  · rw [hpull _ rfl, get_pull L i _ _ _ c (by simpa [Instance.Get, hwp] using hpk) hc, getExec_log,
      hassoc]
    simp [Instance.Get, hwp, DefaultKeySeparator]
  · rw [store_log L i _ v w forever c b (by rw [SetPrefix_eq]; rfl) hc
      (by rw [SetPrefix_eq]; simpa [Instance.Set, hwp] using hpk) he, hassoc]
    simp [SetPrefix_eq, Instance.Set, hwp, DefaultKeySeparator]
  · rw [hperf _ rfl, del_log L i _ _ c (by simpa [Instance.Delete, hwp] using hpk) hc, hassoc]
    simp [Instance.Delete, hwp, DefaultKeySeparator]
  · rw [Has_log L i ctx k [p] w c hc, hwp, hassoc]
    simp [DefaultKeySeparator]
  · rw [hpull _ rfl, get_pull L i _ _ _ c (by simpa [Instance.Get, withPrefix] using hk) hc,
      getExec_log]
    simp [Instance.Get, withPrefix, DefaultKeySeparator]
  · rw [store_log L i _ v w forever c b rfl hc (by simpa [Instance.Set] using hk) he]
    simp [Instance.Set, DefaultKeySeparator]
  · rw [hperf _ rfl, del_log L i _ _ c (by simpa [Instance.Delete, withPrefix] using hk) hc]
    simp [Instance.Delete, withPrefix, DefaultKeySeparator]
  · rw [Has_log L i ctx k [] w c hc]
    simp [withPrefix, DefaultKeySeparator]

theorem key_qualification_witness :
    sampleInstance.client = some .standalone ∧
    sampleLibs.ValidationIsEmpty "test" = false ∧ sampleLibs.ValidationIsEmpty "TestSet" = false ∧
    sampleLibs.ValidationIsEmpty ("test" ++ ":" ++ "TestSet") = false ∧
    encoder sampleLibs (.string "test_value") = .ok "test_value".data ∧
    ((sampleInstance.Get sampleLibs none "TestSet" ["test"]).Pull sampleLibs
        (.ptr .string (.string "")) emptyWorld).world.log =
      [.Get (some (.WithTimeout .Background Second)) "cache-app:test:TestSet"] ∧
    ((sampleInstance.Delete sampleLibs none "TestSet" ["test"]).Perform sampleLibs
        emptyWorld).world.log = [.Del (some .Background) "cache-app:test:TestSet"] ∧
    (sampleInstance.Has sampleLibs none "TestSet" [] emptyWorld).2.log =
      [.Exists (some (.WithTimeout .Background Second)) "cache-app:TestSet"] :=
  ⟨rfl, rfl, rfl, rfl, rfl,
    (key_qualification sampleLibs sampleInstance .standalone emptyWorld none "TestSet" "test"
      (.ptr .string (.string "")) (.string "test_value") "test_value".data false
      rfl rfl rfl rfl rfl).1.1,
    (key_qualification sampleLibs sampleInstance .standalone emptyWorld none "TestSet" "test"
      (.ptr .string (.string "")) (.string "test_value") "test_value".data false
      rfl rfl rfl rfl rfl).1.2.2.1,
    (key_qualification sampleLibs sampleInstance .standalone emptyWorld none "TestSet" "test"
      (.ptr .string (.string "")) (.string "test_value") "test_value".data false
      rfl rfl rfl rfl rfl).2.2.2.2⟩

/-! ## Remember -/

theorem issue_fault (w : World) (c : Call) : (w.issue c).fault = w.fault := rfl

theorem issue_find (w : World) (c : Call) (key : String) : (w.issue c).find key = w.find key := rfl

theorem issue_data (w : World) (c : Call) : (w.issue c).data = w.data := rfl

theorem issue_remCalls (w : World) (c : Call) : (w.issue c).remCalls = w.remCalls := rfl

theorem getRemember_found (L : Libs) (i : Instance) (g : getter) (out : Value) (rem : RememberFn)
    (w : World) (c : Client) (ctx : Context) (e : Entry) (hc : i.client = some c)
    (hctx : g.ctx = some ctx)
    (hf : w.fault (.Exists (some ctx) (i.cfg.Namespace ++ DefaultKeySeparator ++ g.key)) = none)
    (hd : w.find (i.cfg.Namespace ++ DefaultKeySeparator ++ g.key) = some e) :
    i.getRemember L g out rem w =
      ⟨.ret (true, none), out,
        w.issue (.Exists (some ctx) (i.cfg.Namespace ++ DefaultKeySeparator ++ g.key))⟩ := by
  have h := Has_found L i (some ctx) g.key [] w c e hc (by simpa [defaultCtx, withPrefix] using hf)
    (by simpa [withPrefix] using hd)
  unfold Instance.getRemember
  rw [hctx, h]
  simp [defaultCtx, withPrefix, World.cancelIf]

/-- `Remember` on a stored key when no command fails: it does not invoke the compute
function, writes nothing (it sends one existence probe and one read, and the store
content is unchanged), and `out` and the result are those of decoding the stored
bytes: no error when they decode, whatever the compute function would have returned. -/
theorem remember_existing (L : Libs) (i : Instance) (c : Client) (w : World)
    (ctx : Option Context) (k : String) (pre : List String) (out : Value) (rem : RememberFn)
    (e : Entry) (hc : i.client = some c) (hmap : ∀ c, w.fault c = none)
    (hk : L.ValidationIsEmpty (withPrefix L k pre) = false)
    (hd : w.find (i.cfg.Namespace ++ ":" ++ withPrefix L k pre) = some e) :
    ((i.Get L ctx k pre).Remember L out (some rem) w).world.remCalls = w.remCalls ∧
    ((i.Get L ctx k pre).Remember L out (some rem) w).world.data = w.data ∧
    ((i.Get L ctx k pre).Remember L out (some rem) w).world.log =
      w.log ++ [.Exists (some (defaultCtx ctx).1) (i.cfg.Namespace ++ ":" ++ withPrefix L k pre),
                .Get (some (defaultCtx ctx).1) (i.cfg.Namespace ++ ":" ++ withPrefix L k pre)] ∧
    ((i.Get L ctx k pre).Remember L out (some rem) w).out = (decoder L e.val out).2 ∧
    ((i.Get L ctx k pre).Remember L out (some rem) w).result = wrapDecode (decoder L e.val out).1 ∧
    ((decoder L e.val out).1 = .ret none →
      ((i.Get L ctx k pre).Remember L out (some rem) w).result = .ret none) := by
  have hrem : (i.Get L ctx k pre).Remember L out (some rem) w
      = i.get L (i.Get L ctx k pre) out [some rem] w := rfl
  have hgr := getRemember_found L i (i.Get L ctx k pre) out rem w c (defaultCtx ctx).1 e hc rfl
    (hmap _) hd
  have hget : i.get L (i.Get L ctx k pre) out [some rem] w
      = i.getExec L (i.Get L ctx k pre) out
          (w.issue (.Exists (some (defaultCtx ctx).1)
            (i.cfg.Namespace ++ DefaultKeySeparator ++ (i.Get L ctx k pre).key))) := by
    have hk1 : L.ValidationIsEmpty (i.Get L ctx k pre).key = false := hk
    simp [Instance.get, hk1, Instance.validateClient, hc, hgr]
  have hfound := getExec_found L i (i.Get L ctx k pre) out
    (w.issue (.Exists (some (defaultCtx ctx).1)
      (i.cfg.Namespace ++ DefaultKeySeparator ++ (i.Get L ctx k pre).key))) e (hmap _) hd
  rw [hrem, hget, hfound]
  refine ⟨?_, ?_, ?_, rfl, rfl, ?_⟩
  · simp [cancelIf_remCalls, issue_remCalls]
  · simp [cancelIf_data, issue_data]
  · simp [cancelIf_log, World.issue, Instance.Get, DefaultKeySeparator]
  · intro h
    simp [h, wrapDecode]

theorem remember_existing_witness :
    sampleInstance.client = some .standalone ∧ (∀ c, storedWorld.fault c = none) ∧
    sampleLibs.ValidationIsEmpty (withPrefix sampleLibs "TestSet" ["test"]) = false ∧
    storedWorld.find (sampleInstance.cfg.Namespace ++ ":" ++ withPrefix sampleLibs "TestSet" ["test"])
      = some ⟨"test_value".data, 0⟩ ∧
    ((sampleInstance.Get sampleLibs none "TestSet" ["test"]).Remember sampleLibs
        (.ptr .string (.string "")) (some (false, .nil, some (.New "closure error")))
        storedWorld).world.remCalls = 0 ∧
    ((sampleInstance.Get sampleLibs none "TestSet" ["test"]).Remember sampleLibs
        (.ptr .string (.string "")) (some (false, .nil, some (.New "closure error")))
        storedWorld).out = .ptr .string (.string "test_value") ∧
    ((sampleInstance.Get sampleLibs none "TestSet" ["test"]).Remember sampleLibs
        (.ptr .string (.string "")) (some (false, .nil, some (.New "closure error")))
        storedWorld).result = .ret none :=
  ⟨rfl, fun _ => rfl, rfl, rfl,
    (remember_existing sampleLibs sampleInstance .standalone storedWorld none "TestSet" ["test"]
      (.ptr .string (.string "")) (false, .nil, some (.New "closure error"))
      ⟨"test_value".data, 0⟩ rfl (fun _ => rfl) rfl rfl).1,
    (remember_existing sampleLibs sampleInstance .standalone storedWorld none "TestSet" ["test"]
      (.ptr .string (.string "")) (false, .nil, some (.New "closure error"))
      ⟨"test_value".data, 0⟩ rfl (fun _ => rfl) rfl rfl).2.2.2.1,
    (remember_existing sampleLibs sampleInstance .standalone storedWorld none "TestSet" ["test"]
      (.ptr .string (.string "")) (false, .nil, some (.New "closure error"))
      ⟨"test_value".data, 0⟩ rfl (fun _ => rfl) rfl rfl).2.2.2.2.2 rfl⟩

theorem getRemember_missing (L : Libs) (i : Instance) (g : getter) (w : World) (c : Client) (ctx : Context) (hc : i.client = some c)
    (hctx : g.ctx = some ctx)
    (hd : w.find (i.cfg.Namespace ++ DefaultKeySeparator ++ g.key) = none) :
    i.Has L g.ctx g.key [] w =
      (false, w.issue (.Exists (some ctx) (i.cfg.Namespace ++ DefaultKeySeparator ++ g.key))) := by
  have h := Has_missing L i (some ctx) g.key [] w c hc (by simpa [withPrefix] using hd)
  rw [hctx, h]
  simp [defaultCtx, withPrefix, World.cancelIf]

/-- What `getRemember` does on a missing key when the compute function returns a
value assignable to the target of `out`: it encodes and writes the value, and stores
it through `out` when the write succeeded. -/
theorem getRemember_compute (L : Libs) (i : Instance) (g : getter) (elem : GoType)
    (old v : Value) (forever : Bool) (vt : GoType) (b : Bytes) (w : World) (c : Client)
    (ctx : Context) (hc : i.client = some c) (hctx : g.ctx = some ctx)
    (hk : L.ValidationIsEmpty g.key = false)
    (hd : w.find (i.cfg.Namespace ++ DefaultKeySeparator ++ g.key) = none)
    (hty : v.typeOf = some vt) (hassign : L.AssignableTo vt elem = true)
    (henc : encoder L v = .ok b) :
    i.getRemember L g (.ptr elem old) (forever, v, none) w =
      ⟨.ret (false, (redis.Set (some ctx) (i.cfg.Namespace ++ DefaultKeySeparator ++ g.key) b
          (if forever then 0 else DefaultTTL)
          { w.issue (.Exists (some ctx) (i.cfg.Namespace ++ DefaultKeySeparator ++ g.key)) with
            remCalls := w.remCalls + 1 }).1),
        if (redis.Set (some ctx) (i.cfg.Namespace ++ DefaultKeySeparator ++ g.key) b
          (if forever then 0 else DefaultTTL)
          { w.issue (.Exists (some ctx) (i.cfg.Namespace ++ DefaultKeySeparator ++ g.key)) with
            remCalls := w.remCalls + 1 }).1 = none then .ptr elem v else .ptr elem old,
        (redis.Set (some ctx) (i.cfg.Namespace ++ DefaultKeySeparator ++ g.key) b
          (if forever then 0 else DefaultTTL)
          { w.issue (.Exists (some ctx) (i.cfg.Namespace ++ DefaultKeySeparator ++ g.key)) with
            remCalls := w.remCalls + 1 }).2⟩ := by
  have hhas := getRemember_missing L i g w c ctx hc hctx hd
  have hex := store_exec L i (i.Set g.ctx g.key) v
    { w.issue (.Exists (some ctx) (i.cfg.Namespace ++ DefaultKeySeparator ++ g.key)) with
      remCalls := w.remCalls + 1 } forever c b rfl hc hk henc
  unfold Instance.getRemember
  rw [hhas]
  simp only [hty, hassign, World.issue] at hex ⊢
  rw [hex]
  have httl : (if forever = true then (0 : Duration) else if (0 : Duration) ≤ 0 then DefaultTTL else 0)
      = if forever = true then 0 else DefaultTTL := by simp
  simp only [Instance.Set, hctx, defaultCtx, World.cancelIf, httl]
  by_cases hr : (redis.Set (some ctx) (i.cfg.Namespace ++ DefaultKeySeparator ++ g.key) b
    (if forever then 0 else DefaultTTL)
    { data := w.data, fault := w.fault,
      log := w.log ++ [Call.Exists (some ctx) (i.cfg.Namespace ++ DefaultKeySeparator ++ g.key)],
      cancels := w.cancels, remCalls := w.remCalls + 1 }).1 = none
  · simp [hr]
  · obtain ⟨err, herr⟩ := Option.ne_none_iff_exists'.mp hr
    simp [herr]

/-- C5 (as amended): on an open instance and a store on which no command fails, for a
key (with its prefix) not judged empty under which no entry exists, when `out` is a
non-nil pointer and the compute function returns `(forever, v, nil)` with `v` not the
nil interface, assignable to the target type of `out` and encodable (`encoder(v)`
succeeds), `Remember` returns nil, invokes the compute function once, sets `*out = v`,
and afterwards the store holds `encoder(v)` under `namespace:[p:]k`, with expiration 0
if `forever` and one minute (`DefaultTTL`) otherwise. -/
theorem remember_missing_stores (L : Libs) (i : Instance) (c : Client) (w : World)
    (ctx : Option Context) (k : String) (pre : List String) (elem : GoType) (old v : Value)
    (forever : Bool) (vt : GoType) (b : Bytes)
    (hc : i.client = some c) (hmap : ∀ c, w.fault c = none)
    (hk : L.ValidationIsEmpty (withPrefix L k pre) = false)
    (hd : w.find (i.cfg.Namespace ++ ":" ++ withPrefix L k pre) = none)
    (hty : v.typeOf = some vt) (hassign : L.AssignableTo vt elem = true)
    (henc : encoder L v = .ok b) :
    ((i.Get L ctx k pre).Remember L (.ptr elem old) (some (forever, v, none)) w).result
      = .ret none ∧
    ((i.Get L ctx k pre).Remember L (.ptr elem old) (some (forever, v, none)) w).out
      = .ptr elem v ∧
    ((i.Get L ctx k pre).Remember L (.ptr elem old) (some (forever, v, none)) w).world.find
        (i.cfg.Namespace ++ ":" ++ withPrefix L k pre)
      = some ⟨b, if forever then 0 else Minute⟩ ∧
    ((i.Get L ctx k pre).Remember L (.ptr elem old) (some (forever, v, none)) w).world.remCalls
      = w.remCalls + 1 := by
  have hrem : (i.Get L ctx k pre).Remember L (.ptr elem old) (some (forever, v, none)) w
      = i.get L (i.Get L ctx k pre) (.ptr elem old) [some (forever, v, none)] w := rfl
  have hk1 : L.ValidationIsEmpty (i.Get L ctx k pre).key = false := hk
  have hgr := getRemember_compute L i (i.Get L ctx k pre) elem old v forever vt b w c
    (defaultCtx ctx).1 hc rfl hk1 hd hty hassign henc
  have hset := redis_Set_ok (some (defaultCtx ctx).1)
    (i.cfg.Namespace ++ DefaultKeySeparator ++ (i.Get L ctx k pre).key) b
    (if forever then 0 else DefaultTTL)
    { w.issue (.Exists (some (defaultCtx ctx).1)
        (i.cfg.Namespace ++ DefaultKeySeparator ++ (i.Get L ctx k pre).key)) with
      remCalls := w.remCalls + 1 } (hmap _)
  rw [hset] at hgr
  rw [hrem]
  simp only [Instance.get, hk1, Instance.validateClient, hc, hgr]
  simp [cancelIf_data, cancelIf_remCalls, World.find, World.issue, List.lookup, Instance.Get,
    DefaultKeySeparator, DefaultTTL]

theorem remember_missing_stores_witness :
    sampleInstance.client = some .standalone ∧ (∀ c, emptyWorld.fault c = none) ∧
    sampleLibs.ValidationIsEmpty (withPrefix sampleLibs "TestRemember" ["test"]) = false ∧
    emptyWorld.find (sampleInstance.cfg.Namespace ++ ":" ++
      withPrefix sampleLibs "TestRemember" ["test"]) = none ∧
    (Value.int 15).typeOf = some .int ∧ sampleLibs.AssignableTo .int .int = true ∧
    encoder sampleLibs (.int 15) = .ok "15".data ∧
    ((sampleInstance.Get sampleLibs none "TestRemember" ["test"]).Remember sampleLibs
        (.ptr .int (.int 0)) (some (false, .int 15, none)) emptyWorld).result = .ret none ∧
    ((sampleInstance.Get sampleLibs none "TestRemember" ["test"]).Remember sampleLibs
        (.ptr .int (.int 0)) (some (false, .int 15, none)) emptyWorld).out
      = .ptr .int (.int 15) ∧
    ((sampleInstance.Get sampleLibs none "TestRemember" ["test"]).Remember sampleLibs
        (.ptr .int (.int 0)) (some (false, .int 15, none)) emptyWorld).world.find
        "cache-app:test:TestRemember" = some ⟨"15".data, 60000000000⟩ :=
  ⟨rfl, fun _ => rfl, rfl, rfl, rfl, rfl, rfl,
    (remember_missing_stores sampleLibs sampleInstance .standalone emptyWorld none "TestRemember"
      ["test"] .int (.int 0) (.int 15) false .int "15".data rfl (fun _ => rfl) rfl rfl rfl rfl
      rfl).1,
    (remember_missing_stores sampleLibs sampleInstance .standalone emptyWorld none "TestRemember"
      ["test"] .int (.int 0) (.int 15) false .int "15".data rfl (fun _ => rfl) rfl rfl rfl rfl
      rfl).2.1,
    (remember_missing_stores sampleLibs sampleInstance .standalone emptyWorld none "TestRemember"
      ["test"] .int (.int 0) (.int 15) false .int "15".data rfl (fun _ => rfl) rfl rfl rfl rfl
      rfl).2.2.1⟩

/-- C6: when no entry exists under the key and the compute function returns a
non-nil error `e`, `Remember` with `out` pointing to a variable returns exactly `e`,
leaves the variable as it was, and writes nothing: the store content is unchanged
and the only command sent is the existence probe. -/
theorem remember_compute_error (L : Libs) (i : Instance) (c : Client) (w : World)
    (ctx : Option Context) (k : String) (pre : List String) (elem : GoType) (old v : Value)
    (forever : Bool) (e : Error)
    (hc : i.client = some c) (hk : L.ValidationIsEmpty (withPrefix L k pre) = false)
    (hd : w.find (i.cfg.Namespace ++ ":" ++ withPrefix L k pre) = none) :
    ((i.Get L ctx k pre).Remember L (.ptr elem old) (some (forever, v, some e)) w).result
      = .ret (some e) ∧
    ((i.Get L ctx k pre).Remember L (.ptr elem old) (some (forever, v, some e)) w).out
      = .ptr elem old ∧
    ((i.Get L ctx k pre).Remember L (.ptr elem old) (some (forever, v, some e)) w).world.data
      = w.data ∧
    ((i.Get L ctx k pre).Remember L (.ptr elem old) (some (forever, v, some e)) w).world.log
      = w.log ++ [.Exists (some (defaultCtx ctx).1)
          (i.cfg.Namespace ++ ":" ++ withPrefix L k pre)] := by
  have hrem : (i.Get L ctx k pre).Remember L (.ptr elem old) (some (forever, v, some e)) w
      = i.get L (i.Get L ctx k pre) (.ptr elem old) [some (forever, v, some e)] w := rfl
  have hk1 : L.ValidationIsEmpty (i.Get L ctx k pre).key = false := hk
  have hhas := getRemember_missing L i (i.Get L ctx k pre) w c (defaultCtx ctx).1 hc rfl hd
  have hgr : i.getRemember L (i.Get L ctx k pre) (.ptr elem old) (forever, v, some e) w =
      ⟨.ret (false, some e), .ptr elem old,
        { w.issue (.Exists (some (defaultCtx ctx).1)
            (i.cfg.Namespace ++ DefaultKeySeparator ++ (i.Get L ctx k pre).key)) with
          remCalls := w.remCalls + 1 }⟩ := by
    unfold Instance.getRemember
    rw [hhas]
    rfl
  rw [hrem]
  simp only [Instance.get, hk1, Instance.validateClient, hc, hgr]
  simp [cancelIf_data, cancelIf_log, World.issue, Instance.Get, DefaultKeySeparator]

theorem remember_compute_error_witness :
    sampleInstance.client = some .standalone ∧
    sampleLibs.ValidationIsEmpty (withPrefix sampleLibs "TestRememberFailed" ["test"]) = false ∧
    emptyWorld.find (sampleInstance.cfg.Namespace ++ ":" ++
      withPrefix sampleLibs "TestRememberFailed" ["test"]) = none ∧
    ((sampleInstance.Get sampleLibs none "TestRememberFailed" ["test"]).Remember sampleLibs
        (.ptr .int (.int 0)) (some (false, .nil, some (.New "closure error"))) emptyWorld).result
      = .ret (some (.New "closure error")) ∧
    ((sampleInstance.Get sampleLibs none "TestRememberFailed" ["test"]).Remember sampleLibs
        (.ptr .int (.int 0)) (some (false, .nil, some (.New "closure error"))) emptyWorld).out
      = .ptr .int (.int 0) ∧
    ((sampleInstance.Get sampleLibs none "TestRememberFailed" ["test"]).Remember sampleLibs
        (.ptr .int (.int 0)) (some (false, .nil, some (.New "closure error")))
        emptyWorld).world.data = [] :=
  ⟨rfl, rfl, rfl,
    (remember_compute_error sampleLibs sampleInstance .standalone emptyWorld none
      "TestRememberFailed" ["test"] .int (.int 0) .nil false (.New "closure error") rfl rfl rfl).1,
    (remember_compute_error sampleLibs sampleInstance .standalone emptyWorld none
      "TestRememberFailed" ["test"] .int (.int 0) .nil false (.New "closure error") rfl rfl rfl).2.1,
    (remember_compute_error sampleLibs sampleInstance .standalone emptyWorld none
      "TestRememberFailed" ["test"] .int (.int 0) .nil false (.New "closure error") rfl rfl
      rfl).2.2.1⟩

/-! ## Empty keys -/

/-- C7: an empty base key with the non-empty prefix `test` is not rejected.  On an
open instance, `Get(nil, "", "test").Pull(&s)` reads the key `cache-app:test:` and
returns the store's not-found error, `Set(nil, "").SetPrefix("test").Put("v")`
writes under `cache-app:test:` and returns nil, `Delete(nil, "", "test").Perform()`
sends a delete, and `Set(nil, "").SetPrefix("test").RateLimitOnce(time.Minute)`
creates `cache-app:rate-limit:test:`; none returns `ErrEmptyKey`.  Without a prefix
`RateLimitOnce` does reject the empty key before any command, as its guard on the
`rate-limit` prefix intends. -/
theorem empty_key_with_prefix_reaches_store :
    (((sampleInstance.Get sampleLibs none "" ["test"]).Pull sampleLibs
        (.ptr .string (.string "")) emptyWorld).result = .ret (some .RedisNil) ∧
      ((sampleInstance.Get sampleLibs none "" ["test"]).Pull sampleLibs
        (.ptr .string (.string "")) emptyWorld).world.log
        = [.Get (some (.WithTimeout .Background Second)) "cache-app:test:"]) ∧
    ((((sampleInstance.Set none "").SetPrefix sampleLibs "test").Put sampleLibs (.string "v")
        emptyWorld).result = .ret (DefaultTTL, none) ∧
      (((sampleInstance.Set none "").SetPrefix sampleLibs "test").Put sampleLibs (.string "v")
        emptyWorld).world.log
        = [.Set (some (.WithTimeout .Background Second)) "cache-app:test:" "v".data DefaultTTL]) ∧
    (((sampleInstance.Delete sampleLibs none "" ["test"]).Perform sampleLibs emptyWorld).result
        = .ret (0, none) ∧
      ((sampleInstance.Delete sampleLibs none "" ["test"]).Perform sampleLibs emptyWorld).world.log
        = [.Del (some .Background) "cache-app:test:"]) ∧
    ((((sampleInstance.Set none "").SetPrefix sampleLibs "test").RateLimitOnce sampleLibs Minute
        emptyWorld).result = .ret (true, none) ∧
      (((sampleInstance.Set none "").SetPrefix sampleLibs "test").RateLimitOnce sampleLibs Minute
        emptyWorld).world.log
        = [.SetNX (some (.WithTimeout .Background Second)) "cache-app:rate-limit:test:" 1 Minute]) ∧
    (((sampleInstance.Set none "").RateLimitOnce sampleLibs Minute emptyWorld).result
        = .ret (false, some .ErrEmptyKey) ∧
      ((sampleInstance.Set none "").RateLimitOnce sampleLibs Minute emptyWorld).world.log = []) :=
  ⟨⟨rfl, rfl⟩, ⟨rfl, rfl⟩, ⟨rfl, rfl⟩, ⟨rfl, rfl⟩, rfl, rfl⟩

/-! ## RateLimitOnce -/

theorem redis_SetNX_fresh (ctx : Option Context) (key : String) (val : Int) (ttl : Duration)
    (w : World) (hf : w.fault (.SetNX ctx key val ttl) = none) (hd : w.find key = none) :
    redis.SetNX ctx key val ttl w =
      (.ok true, { w.issue (.SetNX ctx key val ttl) with
                    data := (key, ⟨(FormatInt val).data, ttl⟩) :: w.data }) := by
  simp [redis.SetNX, hf, hd]

theorem redis_SetNX_taken (ctx : Option Context) (key : String) (val : Int) (ttl : Duration)
    (w : World) (e : Entry) (hf : w.fault (.SetNX ctx key val ttl) = none)
    (hd : w.find key = some e) :
    redis.SetNX ctx key val ttl w = (.ok false, w.issue (.SetNX ctx key val ttl)) := by
  simp [redis.SetNX, hf, hd]

/-- What `RateLimitOnce` returns once the conditional create answered `allowed`. -/
theorem RateLimitOnce_ok (L : Libs) (i : Instance) (s : setter) (d : Duration) (w w1 : World)
    (c : Client) (allowed : Bool) (hfn : s.setFn = some i) (hc : i.client = some c)
    (hk : L.ValidationIsEmpty s.key = false)
    (hq : L.ValidationIsEmpty (withPrefix L s.key [KeyRateLimit]) = false)
    (hr : redis.SetNX s.ctx
      (i.cfg.Namespace ++ DefaultKeySeparator ++ withPrefix L s.key [KeyRateLimit]) 1
      (if d > 0 then d else s.ttl) w = (.ok allowed, w1)) :
    s.RateLimitOnce L d w = ⟨.ret (allowed, none), setter.zero, w1.cancelIf s.cancel⟩ := by
  obtain ⟨⟨sctx, scancel, skey⟩, sttl, sfn⟩ := s
  simp only at hfn hk hq hr
  subst hfn
  unfold setter.RateLimitOnce
  simp only [hk, SetPrefix_eq, setter.SetTTL, setter.callSetFn]
  by_cases hd : d > 0
  · simp only [hd, if_true] at hr ⊢
    have hb := set_borrow L i
      { ctx := sctx, cancel := scancel, key := withPrefix L skey [KeyRateLimit], ttl := d,
        setFn := some i } .nil w c hc hq
    simp [hb, hr, setter.cleanup]
  · simp only [hd, if_false] at hr ⊢
    have hb := set_borrow L i
      { ctx := sctx, cancel := scancel, key := withPrefix L skey [KeyRateLimit], ttl := sttl,
        setFn := some i } .nil w c hc hq
    simp [hb, hr, setter.cleanup]

/-- C8: on a store that behaves as a map, for a non-empty key `k` (neither `k` nor
the key with the `rate-limit` prefix judged empty) without a rate-limit entry and
every period `d`, in particular every `d > 0`, the first `Set(ctx,k).RateLimitOnce(d)`
returns `(true, nil)` and an immediately following `Set(ctx,k).RateLimitOnce(d)`
returns `(false, nil)`. -/
theorem rate_limit_once_admits_first (L : Libs) (i : Instance) (c : Client) (w : World)
    (ctx ctx' : Option Context) (k : String) (d : Duration)
    (hc : i.client = some c) (hmap : ∀ c, w.fault c = none)
    (hk : L.ValidationIsEmpty k = false)
    (hq : L.ValidationIsEmpty (withPrefix L k [KeyRateLimit]) = false)
    (hd : w.find (i.cfg.Namespace ++ ":" ++ withPrefix L k [KeyRateLimit]) = none) :
    ((i.Set ctx k).RateLimitOnce L d w).result = .ret (true, none) ∧
    ((i.Set ctx' k).RateLimitOnce L d ((i.Set ctx k).RateLimitOnce L d w).world).result
      = .ret (false, none) := by
  have h1 := RateLimitOnce_ok L i (i.Set ctx k) d w _ c true rfl hc hk hq
    (redis_SetNX_fresh _ _ 1 _ w (hmap _) hd)
  rw [h1]
  refine ⟨rfl, ?_⟩
  have h2 := RateLimitOnce_ok L i (i.Set ctx' k) d _ _ c false rfl hc hk hq
    (redis_SetNX_taken (i.Set ctx' k).ctx
      (i.cfg.Namespace ++ DefaultKeySeparator ++ withPrefix L (i.Set ctx' k).key [KeyRateLimit]) 1
      (if d > 0 then d else (i.Set ctx' k).ttl)
      (({ w.issue (.SetNX (i.Set ctx k).ctx
            (i.cfg.Namespace ++ DefaultKeySeparator ++ withPrefix L (i.Set ctx k).key [KeyRateLimit])
            1 (if d > 0 then d else (i.Set ctx k).ttl)) with
          data := (i.cfg.Namespace ++ DefaultKeySeparator ++
              withPrefix L (i.Set ctx k).key [KeyRateLimit],
            ⟨(FormatInt 1).data, if d > 0 then d else (i.Set ctx k).ttl⟩) :: w.data } :
        World).cancelIf (i.Set ctx k).cancel)
      ⟨(FormatInt 1).data, if d > 0 then d else (i.Set ctx k).ttl⟩
      (by rw [cancelIf_fault]; exact hmap _)
      (by rw [cancelIf_find]; simp [World.find, World.issue, List.lookup, Instance.Set]))
  rw [h2]

theorem rate_limit_once_admits_first_witness :
    sampleInstance.client = some .standalone ∧ (∀ c, emptyWorld.fault c = none) ∧
    sampleLibs.ValidationIsEmpty "LimitKeyBLocked" = false ∧
    sampleLibs.ValidationIsEmpty (withPrefix sampleLibs "LimitKeyBLocked" [KeyRateLimit]) = false ∧
    emptyWorld.find (sampleInstance.cfg.Namespace ++ ":" ++
      withPrefix sampleLibs "LimitKeyBLocked" [KeyRateLimit]) = none ∧
    ((sampleInstance.Set none "LimitKeyBLocked").RateLimitOnce sampleLibs Minute
      emptyWorld).result = .ret (true, none) ∧
    ((sampleInstance.Set none "LimitKeyBLocked").RateLimitOnce sampleLibs Minute
      ((sampleInstance.Set none "LimitKeyBLocked").RateLimitOnce sampleLibs Minute
        emptyWorld).world).result = .ret (false, none) :=
  ⟨rfl, fun _ => rfl, rfl, rfl, rfl,
    rate_limit_once_admits_first sampleLibs sampleInstance .standalone emptyWorld none none
      "LimitKeyBLocked" Minute rfl (fun _ => rfl) rfl rfl rfl⟩

/-! ## Delete -/

/-- C9: on an open instance and a store that behaves as a map, `Delete(ctx,k,p).Perform()`
returns `(0, nil)` and leaves the store content unchanged when no entry exists under
the key, and returns a count `> 0` with a nil error when an entry exists, after which
`Has(ctx,k,p)` is false. -/
theorem delete_counts (L : Libs) (i : Instance) (c : Client) (w : World)
    (ctx ctx' : Option Context) (k : String) (pre : List String)
    (hc : i.client = some c) (hmap : ∀ c, w.fault c = none)
    (hk : L.ValidationIsEmpty (withPrefix L k pre) = false) :
    (w.find (i.cfg.Namespace ++ ":" ++ withPrefix L k pre) = none →
      ((i.Delete L ctx k pre).Perform L w).result = .ret (0, none) ∧
      ((i.Delete L ctx k pre).Perform L w).world.data = w.data) ∧
    (∀ e, w.find (i.cfg.Namespace ++ ":" ++ withPrefix L k pre) = some e →
      (∃ n : Int, n > 0 ∧ ((i.Delete L ctx k pre).Perform L w).result = .ret (n, none)) ∧
      (i.Has L ctx' k pre ((i.Delete L ctx k pre).Perform L w).world).1 = false) := by
  have hperf : (i.Delete L ctx k pre).Perform L w = i.del L (i.Delete L ctx k pre) w := rfl
  have hk1 : L.ValidationIsEmpty (i.Delete L ctx k pre).key = false := hk
  have hdel := del_exec L i (i.Delete L ctx k pre) w c hk1 hc (hmap _)
  have hkey : i.cfg.Namespace ++ DefaultKeySeparator ++ (i.Delete L ctx k pre).key
      = i.cfg.Namespace ++ ":" ++ withPrefix L k pre := rfl
  rw [hperf, hdel, hkey]
  constructor
  · intro hnone
    refine ⟨by simp [hnone], ?_⟩
    rw [cancelIf_data]
    exact erase_of_find_none w _ hnone
  · intro e hsome
    refine ⟨⟨1, by decide, by simp [hsome]⟩, ?_⟩
    rw [Has_missing L i ctx' k pre _ c hc
      (by
        rw [cancelIf_find]
        exact find_erase_self w _)]

theorem delete_counts_witness :
    sampleInstance.client = some .standalone ∧ (∀ c, storedWorld.fault c = none) ∧
    sampleLibs.ValidationIsEmpty (withPrefix sampleLibs "TestSet" ["test"]) = false ∧
    ((sampleInstance.Delete sampleLibs none "TestSet" ["test"]).Perform sampleLibs
      storedWorld).result = .ret (1, none) ∧
    (sampleInstance.Has sampleLibs none "TestSet" ["test"]
      ((sampleInstance.Delete sampleLibs none "TestSet" ["test"]).Perform sampleLibs
        storedWorld).world).1 = false ∧
    (sampleInstance.Has sampleLibs none "TestSet" ["test"] storedWorld).1 = true :=
  ⟨rfl, fun _ => rfl, rfl, rfl,
    ((delete_counts sampleLibs sampleInstance .standalone storedWorld none none "TestSet" ["test"]
      rfl (fun _ => rfl) rfl).2 ⟨"test_value".data, 0⟩ rfl).2,
    rfl⟩

/-! ## Deadlines -/

/-- C10: `Perform` does not hand the request's context to the store.  With the
caller's context `caller 7`, and with a nil context, `Delete(ctx, "TestSet",
"test").Perform()` sends its delete with `context.Background()`, while `Pull` on the
same arguments sends its read with the caller's context, respectively with the
one-second default context. -/
theorem perform_uses_background_context :
    ((sampleInstance.Delete sampleLibs (some (.caller 7)) "TestSet" ["test"]).Perform sampleLibs
        storedWorld).world.log = [.Del (some .Background) "cache-app:test:TestSet"] ∧
    ((sampleInstance.Delete sampleLibs none "TestSet" ["test"]).Perform sampleLibs
        storedWorld).world.log = [.Del (some .Background) "cache-app:test:TestSet"] ∧
    ((sampleInstance.Get sampleLibs (some (.caller 7)) "TestSet" ["test"]).Pull sampleLibs
        (.ptr .string (.string "")) storedWorld).world.log
      = [.Get (some (.caller 7)) "cache-app:test:TestSet"] ∧
    ((sampleInstance.Get sampleLibs none "TestSet" ["test"]).Pull sampleLibs
        (.ptr .string (.string "")) storedWorld).world.log
      = [.Get (some (.WithTimeout .Background Second)) "cache-app:test:TestSet"] :=
  ⟨rfl, rfl, rfl, rfl⟩

/-! ## Decoding into something that is not a pointer -/

/-- C11 (as amended): for every byte sequence and every destination that is not a
pointer, `decoder` returns an error and never nil, and leaves the destination as it
was; when the destination is not the nil interface, the error satisfies
`errors.Is(err, ErrOutNonPointer)`. -/
theorem decoder_non_pointer (L : Libs) (data : Bytes) (out : Value)
    (hnp : out.elemType? = none) :
    (∃ e, decoder L data out = (.ret (some e), out)) ∧
    (out ≠ .nil →
      ∃ e, decoder L data out = (.ret (some e), out) ∧ e.Is .ErrOutNonPointer = true) := by
  by_cases hnil : out = .nil
  · subst hnil
    exact ⟨⟨_, rfl⟩, fun h => absurd rfl h⟩
  · have h : decoder L data out
        = (.ret (some (.Wrap "out type non-pointer %T" .ErrOutNonPointer)), out) := by
      simp [decoder, hnil, hnp]
    exact ⟨⟨_, h⟩, fun _ => ⟨_, h, rfl⟩⟩

theorem decoder_non_pointer_witness :
    (Value.string "").elemType? = none ∧
    (∃ e, decoder sampleLibs "test_value".data (.string "") = (.ret (some e), .string "")) ∧
    (Value.string "" ≠ .nil →
      ∃ e, decoder sampleLibs "test_value".data (.string "") = (.ret (some e), .string "") ∧
        e.Is .ErrOutNonPointer = true) :=
  ⟨rfl, decoder_non_pointer sampleLibs "test_value".data (.string "") rfl⟩

/-- C11, the claim as stated fails: the nil interface is not a pointer, and `decoder`
answers it with the error `output parameter is nil`, which does not wrap
`ErrOutNonPointer`. -/
theorem decoder_nil_interface_other_error :
    Value.nil.elemType? = none ∧
    (decoder sampleLibs "test_value".data .nil).1 = .ret (some (.New "output parameter is nil")) ∧
    (Error.New "output parameter is nil").Is .ErrOutNonPointer = false :=
  ⟨rfl, rfl, rfl⟩

/-! ## Expiration written by Put and PutForever -/

theorem foldl_SetTTL (ds : List Duration) (s : setter) :
    (ds.foldl setter.SetTTL s).tobase = s.tobase ∧ (ds.foldl setter.SetTTL s).setFn = s.setFn := by
  induction ds generalizing s with
  | nil => exact ⟨rfl, rfl⟩
  | cons d ds ih =>
    have h := ih (s.SetTTL d)
    simpa [List.foldl, setter.SetTTL] using h

/-- C13: for every setter bound to an instance, `Put` returns `DefaultTTL`, one
minute, when the configured TTL is `≤ 0` (as it is when `SetTTL` was never called:
`Set` starts with TTL 0 and `SetPrefix` keeps it), and returns exactly `d` after
`SetTTL(d)` with `d > 0`; whenever `Put` reaches the store (open instance, key not
judged empty, value encodable) the write carries the same expiration. -/
theorem put_ttl_policy (L : Libs) (i : Instance) (s : setter) (v : Value) (w : World)
    (hfn : s.setFn = some i) :
    (s.ttl ≤ 0 →
      (∃ err, (s.Put L v w).result = .ret (DefaultTTL, err)) ∧
      (∀ c b, i.client = some c → L.ValidationIsEmpty s.key = false → encoder L v = .ok b →
        (s.Put L v w).world.log =
          w.log ++ [.Set s.ctx (i.cfg.Namespace ++ ":" ++ s.key) b DefaultTTL])) ∧
    (∀ d : Duration, d > 0 →
      (∃ err, ((s.SetTTL d).Put L v w).result = .ret (d, err)) ∧
      (∀ c b, i.client = some c → L.ValidationIsEmpty s.key = false → encoder L v = .ok b →
        ((s.SetTTL d).Put L v w).world.log =
          w.log ++ [.Set s.ctx (i.cfg.Namespace ++ ":" ++ s.key) b d])) ∧
    DefaultTTL = 60 * 1000000000 ∧
    (∀ ctx k q, (i.Set ctx k).ttl = 0 ∧ ((i.Set ctx k).SetPrefix L q).ttl = 0) := by
  refine ⟨?_, ?_, rfl, ?_⟩
  · intro hle
    constructor
    · rw [Put_eq L i s v w hfn]
      simp [hle]
    · intro c b hc hk he
      have h := store_log L i s v w false c b hfn hc hk he
      simpa [hle, DefaultKeySeparator] using h
  · intro d hd
    have hnle : ¬ (d ≤ 0) := not_le.mpr hd
    constructor
    · rw [Put_eq L i (s.SetTTL d) v w hfn]
      simp [setter.SetTTL, hnle]
    · intro c b hc hk he
      have h := store_log L i (s.SetTTL d) v w false c b hfn hc hk he
      simpa [setter.SetTTL, hnle, DefaultKeySeparator] using h
  · intro ctx k q
    exact ⟨rfl, by rw [SetPrefix_eq]; rfl⟩

theorem put_ttl_policy_witness :
    ((sampleInstance.Set none "TestSet").SetPrefix sampleLibs "test").setFn = some sampleInstance ∧
    (((sampleInstance.Set none "TestSet").SetPrefix sampleLibs "test").Put sampleLibs
      (.string "test_value") emptyWorld).result = .ret (60000000000, none) ∧
    ∃ err, ((((sampleInstance.Set none "TestSet").SetPrefix sampleLibs "test").SetTTL Second).Put
      sampleLibs (.string "test_value") emptyWorld).result = .ret (Second, err) :=
  ⟨rfl, rfl,
    ((put_ttl_policy sampleLibs sampleInstance
      ((sampleInstance.Set none "TestSet").SetPrefix sampleLibs "test") (.string "test_value")
      emptyWorld rfl).2.1 Second (by decide)).1⟩

/-- C14: for every setter bound to an instance and every sequence `ds` of prior
`SetTTL` calls, `PutForever` returns `ttl == 0`, and whenever it reaches the store
the write carries expiration 0. -/
theorem put_forever_ttl_zero (L : Libs) (i : Instance) (s : setter) (ds : List Duration)
    (v : Value) (w : World) (hfn : s.setFn = some i) :
    (∃ err, ((ds.foldl setter.SetTTL s).PutForever L v w).result = .ret (0, err)) ∧
    (∀ c b, i.client = some c → L.ValidationIsEmpty s.key = false → encoder L v = .ok b →
      ((ds.foldl setter.SetTTL s).PutForever L v w).world.log =
        w.log ++ [.Set s.ctx (i.cfg.Namespace ++ ":" ++ s.key) b 0]) := by
  obtain ⟨hbase, hfn'⟩ := foldl_SetTTL ds s
  have hfn2 : (ds.foldl setter.SetTTL s).setFn = some i := by rw [hfn', hfn]
  have hkey : (ds.foldl setter.SetTTL s).key = s.key := congrArg base.key hbase
  have hctx : (ds.foldl setter.SetTTL s).ctx = s.ctx := congrArg base.ctx hbase
  constructor
  · rw [PutForever_eq L i _ v w hfn2]
    exact ⟨_, rfl⟩
  · intro c b hc hk he
    have h := store_log L i (ds.foldl setter.SetTTL s) v w true c b hfn2 hc
      (by rw [hkey]; exact hk) he
    simpa [hkey, hctx, DefaultKeySeparator] using h

theorem put_forever_ttl_zero_witness :
    ((sampleInstance.Set none "TestSet").SetPrefix sampleLibs "test").setFn = some sampleInstance ∧
    ∃ err, (([Minute, -5, Second].foldl setter.SetTTL
        ((sampleInstance.Set none "TestSet").SetPrefix sampleLibs "test")).PutForever sampleLibs
      (.string "test_value") emptyWorld).result = .ret (0, err) :=
  ⟨rfl,
    (put_forever_ttl_zero sampleLibs sampleInstance
      ((sampleInstance.Set none "TestSet").SetPrefix sampleLibs "test") [Minute, -5, Second]
      (.string "test_value") emptyWorld rfl).1⟩

/-! ## Remember: nil value, type mismatch -/

/-- C15: `Remember` panics on an expected failure.  On an open instance with the key
missing, `Get(nil, "TestRemember", "test").Remember(&val, rem)` with `val` an int and
`rem` returning `(false, nil, nil)` does not return an error: `reflect.ValueOf(nil)`
is the zero Value and `valVal.Type()` panics.  Nothing is written (the only command
is the existence probe) and the deferred function has zeroed the getter. -/
theorem remember_nil_value_panics :
    ((sampleInstance.Get sampleLibs none "TestRemember" ["test"]).Remember sampleLibs
        (.ptr .int (.int 0)) (some (false, .nil, none)) emptyWorld).result
      = .panic "reflect: call of reflect.Value.Type on zero Value" ∧
    ((sampleInstance.Get sampleLibs none "TestRemember" ["test"]).Remember sampleLibs
        (.ptr .int (.int 0)) (some (false, .nil, none)) emptyWorld).world.log
      = [.Exists (some (.WithTimeout .Background Second)) "cache-app:test:TestRemember"] ∧
    ((sampleInstance.Get sampleLibs none "TestRemember" ["test"]).Remember sampleLibs
        (.ptr .int (.int 0)) (some (false, .nil, none)) emptyWorld).world.data = [] ∧
    ((sampleInstance.Get sampleLibs none "TestRemember" ["test"]).Remember sampleLibs
        (.ptr .int (.int 0)) (some (false, .nil, none)) emptyWorld).get = getter.zero :=
  ⟨rfl, rfl, rfl, rfl⟩

/-- C16: when no entry exists under the key and the compute function returns
`(_, v, nil)` with the type of `v` not assignable to the target type of `out`,
`Remember` returns the type-mismatch error, leaves the target as it was, and writes
nothing: the store content is unchanged and the only command sent is the existence
probe. -/
theorem remember_type_mismatch (L : Libs) (i : Instance) (c : Client) (w : World)
    (ctx : Option Context) (k : String) (pre : List String) (elem : GoType) (old v : Value)
    (forever : Bool) (vt : GoType)
    (hc : i.client = some c) (hk : L.ValidationIsEmpty (withPrefix L k pre) = false)
    (hd : w.find (i.cfg.Namespace ++ ":" ++ withPrefix L k pre) = none)
    (hty : v.typeOf = some vt) (hassign : L.AssignableTo vt elem = false) :
    ((i.Get L ctx k pre).Remember L (.ptr elem old) (some (forever, v, none)) w).result
      = .ret (some (.New "cannot assign value of type %s to out of type %s")) ∧
    ((i.Get L ctx k pre).Remember L (.ptr elem old) (some (forever, v, none)) w).out
      = .ptr elem old ∧
    ((i.Get L ctx k pre).Remember L (.ptr elem old) (some (forever, v, none)) w).world.data
      = w.data ∧
    ((i.Get L ctx k pre).Remember L (.ptr elem old) (some (forever, v, none)) w).world.log
      = w.log ++ [.Exists (some (defaultCtx ctx).1)
          (i.cfg.Namespace ++ ":" ++ withPrefix L k pre)] := by
  have hrem : (i.Get L ctx k pre).Remember L (.ptr elem old) (some (forever, v, none)) w
      = i.get L (i.Get L ctx k pre) (.ptr elem old) [some (forever, v, none)] w := rfl
  have hk1 : L.ValidationIsEmpty (i.Get L ctx k pre).key = false := hk
  have hhas := getRemember_missing L i (i.Get L ctx k pre) w c (defaultCtx ctx).1 hc rfl hd
  have hgr : i.getRemember L (i.Get L ctx k pre) (.ptr elem old) (forever, v, none) w =
      ⟨.ret (false, some (.New "cannot assign value of type %s to out of type %s")),
        .ptr elem old,
        { w.issue (.Exists (some (defaultCtx ctx).1)
            (i.cfg.Namespace ++ DefaultKeySeparator ++ (i.Get L ctx k pre).key)) with
          remCalls := w.remCalls + 1 }⟩ := by
    unfold Instance.getRemember
    rw [hhas]
    simp [hty, hassign, World.issue]
  rw [hrem]
  simp only [Instance.get, hk1, Instance.validateClient, hc, hgr]
  simp [cancelIf_data, cancelIf_log, World.issue, Instance.Get, DefaultKeySeparator]

theorem remember_type_mismatch_witness :
    sampleInstance.client = some .standalone ∧
    sampleLibs.ValidationIsEmpty (withPrefix sampleLibs "TestRemember" ["test"]) = false ∧
    emptyWorld.find (sampleInstance.cfg.Namespace ++ ":" ++
      withPrefix sampleLibs "TestRemember" ["test"]) = none ∧
    (Value.string "fifteen").typeOf = some .string ∧
    sampleLibs.AssignableTo .string .int = false ∧
    ((sampleInstance.Get sampleLibs none "TestRemember" ["test"]).Remember sampleLibs
        (.ptr .int (.int 0)) (some (false, .string "fifteen", none)) emptyWorld).result
      = .ret (some (.New "cannot assign value of type %s to out of type %s")) ∧
    ((sampleInstance.Get sampleLibs none "TestRemember" ["test"]).Remember sampleLibs
        (.ptr .int (.int 0)) (some (false, .string "fifteen", none)) emptyWorld).out
      = .ptr .int (.int 0) ∧
    ((sampleInstance.Get sampleLibs none "TestRemember" ["test"]).Remember sampleLibs
        (.ptr .int (.int 0)) (some (false, .string "fifteen", none)) emptyWorld).world.data = [] :=
  ⟨rfl, rfl, rfl, rfl, rfl,
    (remember_type_mismatch sampleLibs sampleInstance .standalone emptyWorld none "TestRemember"
      ["test"] .int (.int 0) (.string "fifteen") false .string rfl rfl rfl rfl rfl).1,
    (remember_type_mismatch sampleLibs sampleInstance .standalone emptyWorld none "TestRemember"
      ["test"] .int (.int 0) (.string "fifteen") false .string rfl rfl rfl rfl rfl).2.1,
    (remember_type_mismatch sampleLibs sampleInstance .standalone emptyWorld none "TestRemember"
      ["test"] .int (.int 0) (.string "fifteen") false .string rfl rfl rfl rfl rfl).2.2.1⟩

/-! ## Keys of the builders -/

/-- C20: for every key `k` and every prefix `p` not judged empty, the builders of
`Get(ctx,k,p)`, `Delete(ctx,k,p)` and `Set(ctx,k).SetPrefix(p)` hold the key
`p + ":" + k`; without a prefix argument, or with a prefix judged empty, the key is
`k`; `SetPrefix(a).SetPrefix(b)` yields `b:a:k` and `SetPrefix` keeps the TTL;
`SetTTL` keeps the key. -/
theorem builder_key_composition (L : Libs) (i : Instance) (ctx : Option Context)
    (k p : String) (hp : L.ValidationIsEmpty p = false) :
    ((i.Get L ctx k [p]).key = p ++ ":" ++ k ∧ (i.Delete L ctx k [p]).key = p ++ ":" ++ k ∧
      ((i.Set ctx k).SetPrefix L p).key = p ++ ":" ++ k) ∧
    ((i.Get L ctx k []).key = k ∧ (i.Delete L ctx k []).key = k ∧ (i.Set ctx k).key = k) ∧
    (∀ e, L.ValidationIsEmpty e = true →
      (i.Get L ctx k [e]).key = k ∧ (i.Delete L ctx k [e]).key = k ∧
      ((i.Set ctx k).SetPrefix L e).key = k) ∧
    (∀ (s : setter) (a b : String), L.ValidationIsEmpty a = false →
      L.ValidationIsEmpty b = false →
      ((s.SetPrefix L a).SetPrefix L b).key = b ++ ":" ++ a ++ ":" ++ s.key ∧
      ((s.SetPrefix L a).SetPrefix L b).ttl = s.ttl) ∧
    (∀ (s : setter) (q : String), (s.SetPrefix L q).ttl = s.ttl) ∧
    (∀ (s : setter) (d : Duration), (s.SetTTL d).key = s.key) := by
  refine ⟨⟨?_, ?_, ?_⟩, ⟨rfl, rfl, rfl⟩, ?_, ?_, ?_, ?_⟩
  · simp [Instance.Get, withPrefix, hp, DefaultKeySeparator]
  · simp [Instance.Delete, withPrefix, hp, DefaultKeySeparator]
  · simp [SetPrefix_eq, Instance.Set, withPrefix, hp, DefaultKeySeparator]
  · intro e he
    refine ⟨?_, ?_, ?_⟩
    · simp [Instance.Get, withPrefix, he]
    · simp [Instance.Delete, withPrefix, he]
    · simp [SetPrefix_eq, Instance.Set, withPrefix, he]
  · intro s a b ha hb
    simp [SetPrefix_eq, withPrefix, ha, hb, DefaultKeySeparator, String.append_assoc]
  · intro s q
    rw [SetPrefix_eq]
  · intro s d
    rfl

theorem builder_key_composition_witness :
    sampleLibs.ValidationIsEmpty "test" = false ∧
    (sampleInstance.Get sampleLibs none "TestSet" ["test"]).key = "test:TestSet" ∧
    (sampleInstance.Delete sampleLibs none "TestSet" ["test"]).key = "test:TestSet" ∧
    (((sampleInstance.Set none "TestSet").SetPrefix sampleLibs "test").SetTTL Second).key
      = "test:TestSet" ∧
    (((sampleInstance.Set none "TestSet").SetPrefix sampleLibs "a").SetPrefix sampleLibs "b").key
      = "b:a:TestSet" :=
  ⟨rfl,
    (builder_key_composition sampleLibs sampleInstance none "TestSet" "test" rfl).1.1,
    (builder_key_composition sampleLibs sampleInstance none "TestSet" "test" rfl).1.2.1,
    rfl,
    ((builder_key_composition sampleLibs sampleInstance none "TestSet" "test" rfl).2.2.2.1
      (sampleInstance.Set none "TestSet") "a" "b" rfl rfl).1⟩

/-! ## What the parsers accept -/

theorem parseUintLoop_accepts (maxVal : Nat) :
    ∀ (cs : List Char) (n m : Nat), parseUintLoop maxVal cs n = some (some m) →
      digitsValue cs n = some m ∧ (n ≤ maxVal → m ≤ maxVal) := by
  intro cs
  induction cs with
  | nil =>
    intro n m h
    simp only [parseUintLoop, Option.some.injEq] at h
    subst h
    exact ⟨rfl, id⟩
  | cons c cs ih =>
    intro n m h
    unfold parseUintLoop at h
    by_cases hdig : '0' ≤ c ∧ c ≤ '9'
    · rw [if_pos hdig] at h
      by_cases hcut : n ≥ (2 ^ 64 - 1) / 10 + 1
      · rw [if_pos hcut] at h
        simp at h
      · rw [if_neg hcut] at h
        by_cases hmax : n * 10 + (c.toNat - 48) > maxVal
        · simp only [hmax, if_true] at h
          simp at h
        · simp only [hmax, if_false] at h
          obtain ⟨h1, h2⟩ := ih _ _ h
          refine ⟨?_, fun _ => h2 (by omega)⟩
          simp only [digitsValue, hdig, and_self, if_true]
          exact h1
    · rw [if_neg hdig] at h
      simp at h

theorem mk_eq_empty_iff (cs : List Char) : String.mk cs = "" ↔ cs = [] := by
  constructor
  · intro h
    have := congrArg String.data h
    simpa using this
  · intro h
    subst h
    rfl

theorem ParseUint_accepts (s : String) (bitSize m : Nat) (h : ParseUint s bitSize = .ok m) :
    s.data ≠ [] ∧ digitsValue s.data 0 = some m ∧
      m ≤ 2 ^ (if bitSize = 0 then IntSize else bitSize) - 1 := by
  unfold ParseUint at h
  by_cases hs : s = ""
  · rw [if_pos hs] at h
    simp at h
  · rw [if_neg hs] at h
    have hne : s.data ≠ [] := fun hd => hs ((mk_eq_empty_iff s.data).mpr hd)
    dsimp only at h
    cases hl : parseUintLoop (2 ^ (if bitSize = 0 then IntSize else bitSize) - 1) s.data 0 with
    | none => rw [hl] at h; simp at h
    | some r =>
      cases r with
      | none => rw [hl] at h; simp at h
      | some n =>
        rw [hl] at h
        simp only [Except.ok.injEq] at h
        subst h
        obtain ⟨h1, h2⟩ := parseUintLoop_accepts _ _ _ _ hl
        exact ⟨hne, h1, h2 (Nat.zero_le _)⟩

theorem ParseUint_range_value (s : String) (bitSize : Nat) (fn num : String) (m : Nat)
    (h : ParseUint s bitSize = .error (.NumError fn num .Range, m)) :
    m = 2 ^ (if bitSize = 0 then IntSize else bitSize) - 1 := by
  unfold ParseUint at h
  by_cases hs : s = ""
  · rw [if_pos hs] at h
    simp at h
  · rw [if_neg hs] at h
    dsimp only at h
    cases hl : parseUintLoop (2 ^ (if bitSize = 0 then IntSize else bitSize) - 1) s.data 0 with
    | none => rw [hl] at h; simp at h
    | some r =>
      cases r with
      | none =>
        rw [hl] at h
        simp only [Except.error.injEq, Prod.mk.injEq] at h
        exact h.2.symm
      | some n => rw [hl] at h; simp at h

theorem digitsValue_head_not_sign (c : Char) (cs : List Char) (m : Nat)
    (h : digitsValue (c :: cs) 0 = some m) : c ≠ '-' ∧ c ≠ '+' := by
  unfold digitsValue at h
  by_cases hdig : '0' ≤ c ∧ c ≤ '9'
  · constructor
    · intro hc
      subst hc
      exact absurd hdig (by decide)
    · intro hc
      subst hc
      exact absurd hdig (by decide)
  · rw [if_neg hdig] at h
    simp at h

theorem decimalText_of_digits (data : Bytes) (m : Nat) (hne : data ≠ [])
    (h : digitsValue data 0 = some m) : decimalText? data = some (m : Int) := by
  cases data with
  | nil => exact absurd rfl hne
  | cons c cs =>
    obtain ⟨h1, h2⟩ := digitsValue_head_not_sign c cs m h
    simp [decimalText?, h1, h2, h]

/-- The unsigned value `ParseInt` goes on with after `ParseUint`: the parsed value, or
the largest value of the width after a range error. -/
theorem ParseInt_unsigned (rest : List Char) (bitSize : Nat) (s : String) (un : Nat)
    (h : (match ParseUint (String.mk rest) bitSize with
      | .ok n => (Except.ok n : Except Error Nat)
      | .error (.NumError _ _ .Range, m) => .ok m
      | .error _ => .error (.NumError "ParseInt" s .Syntax)) = .ok un) :
    (rest ≠ [] ∧ digitsValue rest 0 = some un ∧
        un ≤ 2 ^ (if bitSize = 0 then IntSize else bitSize) - 1) ∨
      un = 2 ^ (if bitSize = 0 then IntSize else bitSize) - 1 := by
  cases hpu : ParseUint (String.mk rest) bitSize with
  | ok u =>
    rw [hpu] at h
    simp only [Except.ok.injEq] at h
    subst h
    exact Or.inl (ParseUint_accepts _ _ _ hpu)
  | error em =>
    obtain ⟨e, m⟩ := em
    rw [hpu] at h
    cases e with
    | NumError fn num kind =>
      cases kind with
      | Range =>
        simp only [Except.ok.injEq] at h
        subst h
        exact Or.inr (ParseUint_range_value _ _ _ _ _ hpu)
      | Syntax => simp at h
    | _ => simp at h

theorem ParseInt_accepts (s : String) (bitSize : Nat) (n : Int)
    (hb : 2 ≤ (if bitSize = 0 then IntSize else bitSize))
    (h : ParseInt s bitSize = .ok n) :
    decimalText? s.data = some n ∧
      -(2 : Int) ^ ((if bitSize = 0 then IntSize else bitSize) - 1) ≤ n ∧
      n ≤ (2 : Int) ^ ((if bitSize = 0 then IntSize else bitSize) - 1) - 1 := by
  generalize hBdef : (if bitSize = 0 then IntSize else bitSize) = B at hb
  have hcast : ((2 : Int) ^ (B - 1)) = ((2 ^ (B - 1) : Nat) : Int) := by push_cast; rfl
  have hdouble : 2 ^ B = 2 * 2 ^ (B - 1) := by
    obtain ⟨k, rfl⟩ : ∃ k, B = k + 1 := ⟨B - 1, by omega⟩
    simp [pow_succ, Nat.mul_comm]
  have hge2 : 2 ≤ 2 ^ (B - 1) := by
    obtain ⟨k, rfl⟩ : ∃ k, B = k + 2 := ⟨B - 2, by omega⟩
    have h1 : 1 ≤ 2 ^ k := Nat.one_le_two_pow
    have h2 : k + 2 - 1 = k + 1 := by omega
    rw [h2, pow_succ]
    omega
  rw [hcast]
  generalize hP : 2 ^ (B - 1) = P at hdouble hge2
  unfold ParseInt at h
  by_cases hs : s = ""
  · rw [if_pos hs] at h
    simp at h
  · rw [if_neg hs] at h
    dsimp only at h
    obtain ⟨c, tl, hdata⟩ : ∃ c tl, s.data = c :: tl := by
      cases hd : s.data with
      | nil => exact absurd ((mk_eq_empty_iff s.data).mpr hd) hs
      | cons c tl => exact ⟨c, tl, rfl⟩
    rw [hdata] at h ⊢
    simp only [List.head?_cons, List.tail_cons, Option.some.injEq, hBdef, hP] at h
    by_cases hminus : c = '-'
    · subst hminus
      simp only [or_true, if_true, decide_True, Bool.not_true, Bool.false_and, Bool.true_and] at h
      cases hun : (match ParseUint (String.mk tl) bitSize with
          | .ok n => (Except.ok n : Except Error Nat)
          | .error (.NumError _ _ .Range, m) => .ok m
          | .error _ => .error (.NumError "ParseInt" s .Syntax)) with
      | error e => rw [hun] at h; simp at h
      | ok un =>
        rw [hun] at h
        have hu := ParseInt_unsigned tl bitSize s un hun
        rw [hBdef, hdouble] at hu
        by_cases hgt : un > P
        · simp [hgt] at h
        · simp [hgt] at h
          subst h
          rcases hu with ⟨hne, hdv, _⟩ | hmax
          · refine ⟨?_, by omega, by omega⟩
            simp [decimalText?, hne, hdv]
          · omega
    · by_cases hplus : c = '+'
      · subst hplus
        simp only [true_or, if_true, show ('+' = '-') = False from by decide, decide_False,
          Bool.not_false, Bool.true_and, Bool.false_and] at h
        cases hun : (match ParseUint (String.mk tl) bitSize with
            | .ok n => (Except.ok n : Except Error Nat)
            | .error (.NumError _ _ .Range, m) => .ok m
            | .error _ => .error (.NumError "ParseInt" s .Syntax)) with
        | error e => rw [hun] at h; simp at h
        | ok un =>
          rw [hun] at h
          have hu := ParseInt_unsigned tl bitSize s un hun
          rw [hBdef, hdouble] at hu
          by_cases hge : un ≥ P
          · simp [hge] at h
          · simp [hge] at h
            subst h
            rcases hu with ⟨hne, hdv, _⟩ | hmax
            · refine ⟨?_, by omega, by omega⟩
              simp [decimalText?, hne, hdv]
            · omega
      · simp only [hminus, hplus, or_self, if_false, decide_False, Bool.not_false, Bool.true_and,
          Bool.false_and] at h
        cases hun : (match ParseUint (String.mk (c :: tl)) bitSize with
            | .ok n => (Except.ok n : Except Error Nat)
            | .error (.NumError _ _ .Range, m) => .ok m
            | .error _ => .error (.NumError "ParseInt" s .Syntax)) with
        | error e => rw [hun] at h; simp at h
        | ok un =>
          rw [hun] at h
          have hu := ParseInt_unsigned (c :: tl) bitSize s un hun
          rw [hBdef, hdouble] at hu
          by_cases hge : un ≥ P
          · simp [hge] at h
          · simp [hge] at h
            subst h
            rcases hu with ⟨hne, hdv, _⟩ | hmax
            · refine ⟨?_, by omega, by omega⟩
              simp [decimalText?, hminus, hplus, hdv]
            · omega

theorem ParseBool_accepts (s : String) (b : Bool) (h : ParseBool s = .ok b) :
    isBoolLiteral s.data = true := by
  unfold ParseBool at h
  unfold isBoolLiteral
  by_cases h1 : s = "1" ∨ s = "t" ∨ s = "T" ∨ s = "TRUE" ∨ s = "true" ∨ s = "True"
  · simp only [decide_eq_true_eq, List.mem_cons, List.mem_singleton]
    rcases h1 with h | h | h | h | h | h <;> simp [h]
  · rw [if_neg h1] at h
    by_cases h2 : s = "0" ∨ s = "f" ∨ s = "F" ∨ s = "FALSE" ∨ s = "false" ∨ s = "False"
    · simp only [decide_eq_true_eq, List.mem_cons, List.mem_singleton]
      rcases h2 with h | h | h | h | h | h <;> simp [h]
    · rw [if_neg h2] at h
      simp at h

theorem storeParsed_rejects {α : Type} (out : Value) (parsed : Except Error α) (mk : α → Value)
    (h : ∀ x, parsed ≠ .ok x) : ∃ e, storeParsed out parsed mk = (.ret (some e), out) := by
  cases hp : parsed with
  | error e => exact ⟨e, rfl⟩
  | ok x => exact absurd hp (h x)

theorem reject_signed (data : Bytes) (bitSize : Nat) (lo hi : Int)
    (hb : 2 ≤ (if bitSize = 0 then IntSize else bitSize))
    (hlo : lo = -(2 : Int) ^ ((if bitSize = 0 then IntSize else bitSize) - 1))
    (hhi : hi = (2 : Int) ^ ((if bitSize = 0 then IntSize else bitSize) - 1) - 1)
    (hbad : ∀ n, decimalText? data = some n → n < lo ∨ hi < n) :
    ∀ x, ParseInt (String.mk data) bitSize ≠ .ok x := by
  intro x hx
  obtain ⟨h1, h2, h3⟩ := ParseInt_accepts _ _ _ hb hx
  rcases hbad x h1 with h | h
  · rw [hlo] at h
    exact absurd h2 (not_le.mpr h)
  · rw [hhi] at h
    exact absurd h3 (not_le.mpr h)

theorem reject_atoi (data : Bytes) (lo hi : Int)
    (hlo : lo = -(2 : Int) ^ (IntSize - 1)) (hhi : hi = (2 : Int) ^ (IntSize - 1) - 1)
    (hbad : ∀ n, decimalText? data = some n → n < lo ∨ hi < n) :
    ∀ x, Atoi (String.mk data) ≠ .ok x := by
  intro x hx
  unfold Atoi at hx
  cases hp : ParseInt (String.mk data) 0 with
  | ok n =>
    rw [hp] at hx
    simp only [Except.ok.injEq] at hx
    subst hx
    exact reject_signed data 0 lo hi (by decide) hlo hhi hbad n hp
  | error e =>
    rw [hp] at hx
    cases e <;> simp at hx

theorem reject_unsigned (data : Bytes) (bitSize : Nat) (lo hi : Int) (hlo : lo = 0)
    (hhi : hi = ((2 ^ (if bitSize = 0 then IntSize else bitSize) - 1 : Nat) : Int))
    (hbad : ∀ n, decimalText? data = some n → n < lo ∨ hi < n) :
    ∀ x, parseUint (String.mk data) bitSize ≠ .ok x := by
  intro x hx
  unfold parseUint at hx
  cases hp : ParseUint (String.mk data) bitSize with
  | ok n =>
    rw [hp] at hx
    simp only [Except.ok.injEq] at hx
    subst hx
    obtain ⟨hne, hdv, hle⟩ := ParseUint_accepts _ _ _ hp
    have htext := decimalText_of_digits data n hne hdv
    rcases hbad _ htext with h | h
    · omega
    · rw [hhi] at h
      omega
  | error e =>
    rw [hp] at hx
    simp at hx

/-- C12: for every destination pointing to an integer type and every byte sequence
that is not the base-10 text of a value in the range of that type (not decimal text
at all, or a value out of range), and for every destination pointing to a bool and
every byte sequence that is not a boolean literal, `decoder` returns a non-nil error
and leaves the destination unchanged. -/
theorem decoder_rejects_invalid (L : Libs) (data : Bytes) (out : Value) (t : GoType)
    (helem : out.elemType? = some t) :
    (∀ lo hi, t.intRange? = some (lo, hi) →
      (∀ n, decimalText? data = some n → n < lo ∨ hi < n) →
      ∃ e, decoder L data out = (.ret (some e), out)) ∧
    (t = .bool → isBoolLiteral data = false →
      ∃ e, decoder L data out = (.ret (some e), out)) := by
  have hne : out ≠ .nil := by
    intro h
    subst h
    simp [Value.elemType?] at helem
  constructor
  · intro lo hi hr hbad
    cases t <;> simp only [GoType.intRange?, Option.some.injEq, Prod.mk.injEq, reduceCtorEq] at hr
    case int =>
      have := storeParsed_rejects out _ Value.int (reject_atoi data lo hi hr.1.symm hr.2.symm hbad)
      simpa [decoder, hne, helem] using this
    case int8 =>
      have := storeParsed_rejects out _ Value.int8
        (reject_signed data 8 lo hi (by decide) hr.1.symm hr.2.symm hbad)
      simpa [decoder, hne, helem] using this
    case int16 =>
      have := storeParsed_rejects out _ Value.int16
        (reject_signed data 16 lo hi (by decide) hr.1.symm hr.2.symm hbad)
      simpa [decoder, hne, helem] using this
    case int32 =>
      have := storeParsed_rejects out _ Value.int32
        (reject_signed data 32 lo hi (by decide) hr.1.symm hr.2.symm hbad)
      simpa [decoder, hne, helem] using this
    case int64 =>
      have := storeParsed_rejects out _ Value.int64
        (reject_signed data 64 lo hi (by decide) hr.1.symm hr.2.symm hbad)
      simpa [decoder, hne, helem] using this
    case uint =>
      have := storeParsed_rejects out _ Value.uint
        (reject_unsigned data 0 lo hi hr.1.symm (by rw [← hr.2]; rfl) hbad)
      simpa [decoder, hne, helem] using this
    case uint8 =>
      have := storeParsed_rejects out _ Value.uint8
        (reject_unsigned data 8 lo hi hr.1.symm (by rw [← hr.2]; rfl) hbad)
      simpa [decoder, hne, helem] using this
    case uint16 =>
      have := storeParsed_rejects out _ Value.uint16
        (reject_unsigned data 16 lo hi hr.1.symm (by rw [← hr.2]; rfl) hbad)
      simpa [decoder, hne, helem] using this
    case uint32 =>
      have := storeParsed_rejects out _ Value.uint32
        (reject_unsigned data 32 lo hi hr.1.symm (by rw [← hr.2]; rfl) hbad)
      simpa [decoder, hne, helem] using this
    case uint64 =>
      have := storeParsed_rejects out _ Value.uint64
        (reject_unsigned data 64 lo hi hr.1.symm (by rw [← hr.2]; rfl) hbad)
      simpa [decoder, hne, helem] using this
  · intro ht hlit
    subst ht
    have := storeParsed_rejects out (ParseBool (String.mk data)) Value.bool (by
      intro b hb
      have h := ParseBool_accepts _ _ hb
      rw [hlit] at h
      exact absurd h (by decide))
    simpa [decoder, hne, helem] using this

theorem decoder_rejects_invalid_witness :
    (Value.ptr .int8 (.int8 5)).elemType? = some .int8 ∧
    GoType.int8.intRange? = some (-128, 127) ∧
    decimalText? "128".data = some 128 ∧
    decoder sampleLibs "128".data (.ptr .int8 (.int8 5))
      = (.ret (some (.NumError "ParseInt" "128" .Range)), .ptr .int8 (.int8 5)) ∧
    decoder sampleLibs "+5".data (.ptr .int8 (.int8 0)) = (.ret none, .ptr .int8 (.int8 5)) ∧
    (∃ e, decoder sampleLibs "128".data (.ptr .int8 (.int8 5))
      = (.ret (some e), .ptr .int8 (.int8 5))) ∧
    (∃ e, decoder sampleLibs "yes".data (.ptr .bool (.bool true))
      = (.ret (some e), .ptr .bool (.bool true))) :=
  ⟨rfl, rfl, rfl, rfl, rfl,
    (decoder_rejects_invalid sampleLibs "128".data (.ptr .int8 (.int8 5)) .int8 rfl).1 (-128) 127
      rfl (fun n hn => by
        have h : decimalText? "128".data = some 128 := rfl
        rw [h] at hn
        simp only [Option.some.injEq] at hn
        subst hn
        exact Or.inr (by decide)),
    (decoder_rejects_invalid sampleLibs "yes".data (.ptr .bool (.bool true)) .bool rfl).2 rfl
      rfl⟩

/-! ## Cleanup of the builders -/

theorem cancelIf_cancels (w : World) (c : Option CancelFunc) :
    (w.cancelIf c).cancels = w.cancels + (if c.isSome then 1 else 0) := by
  unfold World.cancelIf World.cancel
  split <;> rfl

theorem redis_Get_cancels (ctx : Option Context) (key : String) (w : World) :
    (redis.Get ctx key w).2.cancels = w.cancels := by
  unfold redis.Get
  split
  · rfl
  · split <;> rfl

theorem redis_Set_cancels (ctx : Option Context) (key : String) (val : Bytes) (ttl : Duration)
    (w : World) : (redis.Set ctx key val ttl w).2.cancels = w.cancels := by
  unfold redis.Set
  split <;> rfl

theorem redis_SetNX_cancels (ctx : Option Context) (key : String) (val : Int) (ttl : Duration)
    (w : World) : (redis.SetNX ctx key val ttl w).2.cancels = w.cancels := by
  unfold redis.SetNX
  split
  · rfl
  · split <;> rfl

theorem redis_Del_cancels (ctx : Option Context) (key : String) (w : World) :
    (redis.Del ctx key w).2.cancels = w.cancels := by
  unfold redis.Del
  split
  · rfl
  · split <;> rfl

theorem redis_Exists_cancels (ctx : Option Context) (key : String) (w : World) :
    (redis.Exists ctx key w).2.cancels = w.cancels := by
  unfold redis.Exists
  split
  · rfl
  · split <;> rfl

theorem Has_cancels (L : Libs) (i : Instance) (ctx : Context) (key : String)
    (pre : List String) (w : World) : (i.Has L (some ctx) key pre w).2.cancels = w.cancels := by
  unfold Instance.Has
  split
  · rfl
  · simp only [defaultCtx]
    have h := redis_Exists_cancels (some ctx)
      (i.cfg.Namespace ++ DefaultKeySeparator ++ withPrefix L key pre) w
    rcases hr : redis.Exists (some ctx)
      (i.cfg.Namespace ++ DefaultKeySeparator ++ withPrefix L key pre) w with ⟨r, w1⟩
    rw [hr] at h
    cases r <;> simpa [cancelIf_cancels] using h

/-- `set` without borrowing always zeroes the setter and cancels once when the setter
holds a cancel function. -/
theorem set_cleanup (L : Libs) (i : Instance) (s : setter) (val : Value) (w : World) :
    (i.set L s val [] w).set = setter.zero ∧
    (i.set L s val [] w).world.cancels = w.cancels + (if s.cancel.isSome then 1 else 0) := by
  cases hc : i.client with
  | none =>
    rw [set_client_nil L i s val [] w hc]
    exact ⟨rfl, cancelIf_cancels _ _⟩
  | some c =>
    cases hk : L.ValidationIsEmpty s.key with
    | true =>
      rw [set_empty_key L i s val [] w c hc hk]
      exact ⟨rfl, cancelIf_cancels _ _⟩
    | false =>
      cases he : encoder L val with
      | error err =>
        rw [set_encode_error L i s val w c err hc hk he]
        exact ⟨rfl, cancelIf_cancels _ _⟩
      | ok b =>
        rw [set_exec L i s val w c b hc hk he]
        refine ⟨rfl, ?_⟩
        simp only
        rw [cancelIf_cancels, redis_Set_cancels]

theorem Put_cleanup (L : Libs) (i : Instance) (s : setter) (val : Value) (w : World)
    (hfn : s.setFn = some i) :
    (s.Put L val w).set = setter.zero ∧
    (s.Put L val w).world.cancels = w.cancels + (if s.cancel.isSome then 1 else 0) := by
  rw [Put_eq L i s val w hfn]
  exact set_cleanup L i _ val w

theorem PutForever_cleanup (L : Libs) (i : Instance) (s : setter) (val : Value) (w : World)
    (hfn : s.setFn = some i) :
    (s.PutForever L val w).set = setter.zero ∧
    (s.PutForever L val w).world.cancels = w.cancels + (if s.cancel.isSome then 1 else 0) := by
  rw [PutForever_eq L i s val w hfn]
  exact set_cleanup L i _ val w

theorem getExec_cleanup (L : Libs) (i : Instance) (g : getter) (out : Value) (w : World) :
    (i.getExec L g out w).get = getter.zero ∧
    (i.getExec L g out w).world.cancels = w.cancels + (if g.cancel.isSome then 1 else 0) := by
  have h := redis_Get_cancels g.ctx (i.cfg.Namespace ++ DefaultKeySeparator ++ g.key) w
  unfold Instance.getExec
  rcases hr : redis.Get g.ctx (i.cfg.Namespace ++ DefaultKeySeparator ++ g.key) w with ⟨r, w1⟩
  rw [hr] at h
  simp only at h
  cases r <;> exact ⟨rfl, by simp [cancelIf_cancels, h]⟩

theorem getRemember_cancels (L : Libs) (i : Instance) (g : getter) (out : Value)
    (rem : RememberFn) (w : World) (ctx : Context) (hctx : g.ctx = some ctx) :
    (i.getRemember L g out rem w).world.cancels = w.cancels := by
  have hhas := Has_cancels L i ctx g.key [] w
  unfold Instance.getRemember
  rw [hctx]
  rcases hH : i.Has L (some ctx) g.key [] w with ⟨ex, w1⟩
  rw [hH] at hhas
  simp only at hhas
  obtain ⟨forever, val, err⟩ := rem
  cases ex
  · cases out <;> try exact hhas
    case ptr elem target =>
      cases err with
      | some e => exact hhas
      | none =>
        cases hty : val.typeOf with
        | none => simp only [hty]; exact hhas
        | some vt =>
          simp only [hty]
          by_cases ha : L.AssignableTo vt elem = true
          · simp only [ha, Bool.not_true, Bool.false_eq_true, if_false]
            have hP := (Put_cleanup L i (i.Set (some ctx) g.key) val
              { w1 with remCalls := w1.remCalls + 1 } rfl).2
            have hF := (PutForever_cleanup L i (i.Set (some ctx) g.key) val
              { w1 with remCalls := w1.remCalls + 1 } rfl).2
            simp only [Instance.Set, defaultCtx, Option.isSome_none, Bool.false_eq_true, if_false,
              Nat.add_zero] at hP hF
            cases forever
            · simp only [Bool.false_eq_true, if_false, Instance.Set, defaultCtx]
              split <;> exact hP.trans hhas
            · simp only [if_true, Instance.Set, defaultCtx]
              split <;> exact hF.trans hhas
          · simp only [ha, Bool.not_false, if_true]
            exact hhas
  · exact hhas

theorem get_cleanup (L : Libs) (i : Instance) (g : getter) (out : Value)
    (rem : List (Option RememberFn)) (w : World) (ctx : Context) (hctx : g.ctx = some ctx) :
    (i.get L g out rem w).get = getter.zero ∧
    (i.get L g out rem w).world.cancels = w.cancels + (if g.cancel.isSome then 1 else 0) := by
  unfold Instance.get
  split
  · exact ⟨rfl, cancelIf_cancels _ _⟩
  · split
    · exact ⟨rfl, cancelIf_cancels _ _⟩
    · split
      · rename_i r rest
        have hgr := getRemember_cancels L i g out r w ctx hctx
        split <;> rename_i heq <;> rw [heq] at hgr <;> simp only at hgr
        · exact ⟨rfl, by rw [cancelIf_cancels, hgr]⟩
        · exact ⟨rfl, by rw [cancelIf_cancels, hgr]⟩
        · exact ⟨rfl, by rw [cancelIf_cancels, hgr]⟩
        · rename_i out1 w1
          have h := getExec_cleanup L i g out1 w1
          rw [hgr] at h
          exact h
      · exact getExec_cleanup L i g out w

theorem del_cleanup (L : Libs) (i : Instance) (d : deleter) (w : World) :
    (i.del L d w).del = deleter.zero ∧
    (i.del L d w).world.cancels = w.cancels + (if d.cancel.isSome then 1 else 0) := by
  unfold Instance.del
  split
  · exact ⟨rfl, cancelIf_cancels _ _⟩
  · split
    · exact ⟨rfl, cancelIf_cancels _ _⟩
    · have h := redis_Del_cancels (some .Background)
        (i.cfg.Namespace ++ DefaultKeySeparator ++ d.key) w
      rcases hr : redis.Del (some .Background)
        (i.cfg.Namespace ++ DefaultKeySeparator ++ d.key) w with ⟨r, w1⟩
      rw [hr] at h
      simp only at h
      cases r <;> exact ⟨rfl, by simp [cancelIf_cancels, h]⟩

/-- What `set` leaves behind when asked to lend the client: on a validation error the
setter is zeroed and cancelled, otherwise nothing is touched but the key. -/
theorem set_borrow_frame (L : Libs) (i : Instance) (s : setter) (w : World) :
    (∃ e, (i.set L s .nil [true] w).err = some e ∧ (i.set L s .nil [true] w).set = setter.zero ∧
        (i.set L s .nil [true] w).world = w.cancelIf s.cancel) ∨
      ((i.set L s .nil [true] w).err = none ∧ (∃ c, (i.set L s .nil [true] w).client = some c) ∧
        (i.set L s .nil [true] w).set.cancel = s.cancel ∧ (i.set L s .nil [true] w).world = w) := by
  cases hc : i.client with
  | none =>
    rw [set_client_nil L i s .nil [true] w hc]
    exact Or.inl ⟨_, rfl, rfl, rfl⟩
  | some c =>
    cases hk : L.ValidationIsEmpty s.key with
    | true =>
      rw [set_empty_key L i s .nil [true] w c hc hk]
      exact Or.inl ⟨_, rfl, rfl, rfl⟩
    | false =>
      rw [set_borrow L i s .nil w c hc hk]
      exact Or.inr ⟨rfl, ⟨c, rfl⟩, rfl, rfl⟩

theorem RateLimitOnce_cleanup (L : Libs) (i : Instance) (s : setter) (d : Duration) (w : World)
    (hfn : s.setFn = some i) :
    (s.RateLimitOnce L d w).set = setter.zero ∧
    (s.RateLimitOnce L d w).world.cancels = w.cancels + (if s.cancel.isSome then 1 else 0) := by
  obtain ⟨⟨sctx, scancel, skey⟩, sttl, sfn⟩ := s
  simp only at hfn
  subst hfn
  have hframe : ∀ (k2 : String) (t2 : Duration),
      (∃ e, (i.set L ⟨⟨sctx, scancel, k2⟩, t2, some i⟩ .nil [true] w).err = some e ∧
          (i.set L ⟨⟨sctx, scancel, k2⟩, t2, some i⟩ .nil [true] w).set = setter.zero ∧
          (i.set L ⟨⟨sctx, scancel, k2⟩, t2, some i⟩ .nil [true] w).world = w.cancelIf scancel) ∨
        ((i.set L ⟨⟨sctx, scancel, k2⟩, t2, some i⟩ .nil [true] w).err = none ∧
          (∃ c, (i.set L ⟨⟨sctx, scancel, k2⟩, t2, some i⟩ .nil [true] w).client = some c) ∧
          (i.set L ⟨⟨sctx, scancel, k2⟩, t2, some i⟩ .nil [true] w).set.cancel = scancel ∧
          (i.set L ⟨⟨sctx, scancel, k2⟩, t2, some i⟩ .nil [true] w).world = w) :=
    fun k2 t2 => set_borrow_frame L i ⟨⟨sctx, scancel, k2⟩, t2, some i⟩ w
  have htail : ∀ (k2 : String) (t2 : Duration),
      ((match (i.set L ⟨⟨sctx, scancel, k2⟩, t2, some i⟩ .nil [true] w).err with
        | some e =>
          (⟨.ret (false, some e),
            ((i.set L ⟨⟨sctx, scancel, k2⟩, t2, some i⟩ .nil [true] w).set.cleanup
              (i.set L ⟨⟨sctx, scancel, k2⟩, t2, some i⟩ .nil [true] w).world).1,
            ((i.set L ⟨⟨sctx, scancel, k2⟩, t2, some i⟩ .nil [true] w).set.cleanup
              (i.set L ⟨⟨sctx, scancel, k2⟩, t2, some i⟩ .nil [true] w).world).2⟩ : LimitOut)
        | none =>
          match (i.set L ⟨⟨sctx, scancel, k2⟩, t2, some i⟩ .nil [true] w).client with
          | none =>
            ⟨.panic "invalid memory address or nil pointer dereference",
              ((i.set L ⟨⟨sctx, scancel, k2⟩, t2, some i⟩ .nil [true] w).set.cleanup
                (i.set L ⟨⟨sctx, scancel, k2⟩, t2, some i⟩ .nil [true] w).world).1,
              ((i.set L ⟨⟨sctx, scancel, k2⟩, t2, some i⟩ .nil [true] w).set.cleanup
                (i.set L ⟨⟨sctx, scancel, k2⟩, t2, some i⟩ .nil [true] w).world).2⟩
          | some _ =>
            match redis.SetNX (i.set L ⟨⟨sctx, scancel, k2⟩, t2, some i⟩ .nil [true] w).set.ctx
                (i.set L ⟨⟨sctx, scancel, k2⟩, t2, some i⟩ .nil [true] w).set.key 1
                (i.set L ⟨⟨sctx, scancel, k2⟩, t2, some i⟩ .nil [true] w).set.ttl
                (i.set L ⟨⟨sctx, scancel, k2⟩, t2, some i⟩ .nil [true] w).world with
            | (.error e, w1) =>
              ⟨.ret (false, some e),
                ((i.set L ⟨⟨sctx, scancel, k2⟩, t2, some i⟩ .nil [true] w).set.cleanup w1).1,
                ((i.set L ⟨⟨sctx, scancel, k2⟩, t2, some i⟩ .nil [true] w).set.cleanup w1).2⟩
            | (.ok allowed, w1) =>
              ⟨.ret (allowed, none),
                ((i.set L ⟨⟨sctx, scancel, k2⟩, t2, some i⟩ .nil [true] w).set.cleanup w1).1,
                ((i.set L ⟨⟨sctx, scancel, k2⟩, t2, some i⟩ .nil [true] w).set.cleanup w1).2⟩).set
          = setter.zero) ∧
      ((match (i.set L ⟨⟨sctx, scancel, k2⟩, t2, some i⟩ .nil [true] w).err with
        | some e =>
          (⟨.ret (false, some e),
            ((i.set L ⟨⟨sctx, scancel, k2⟩, t2, some i⟩ .nil [true] w).set.cleanup
              (i.set L ⟨⟨sctx, scancel, k2⟩, t2, some i⟩ .nil [true] w).world).1,
            ((i.set L ⟨⟨sctx, scancel, k2⟩, t2, some i⟩ .nil [true] w).set.cleanup
              (i.set L ⟨⟨sctx, scancel, k2⟩, t2, some i⟩ .nil [true] w).world).2⟩ : LimitOut)
        | none =>
          match (i.set L ⟨⟨sctx, scancel, k2⟩, t2, some i⟩ .nil [true] w).client with
          | none =>
            ⟨.panic "invalid memory address or nil pointer dereference",
              ((i.set L ⟨⟨sctx, scancel, k2⟩, t2, some i⟩ .nil [true] w).set.cleanup
                (i.set L ⟨⟨sctx, scancel, k2⟩, t2, some i⟩ .nil [true] w).world).1,
              ((i.set L ⟨⟨sctx, scancel, k2⟩, t2, some i⟩ .nil [true] w).set.cleanup
                (i.set L ⟨⟨sctx, scancel, k2⟩, t2, some i⟩ .nil [true] w).world).2⟩
          | some _ =>
            match redis.SetNX (i.set L ⟨⟨sctx, scancel, k2⟩, t2, some i⟩ .nil [true] w).set.ctx
                (i.set L ⟨⟨sctx, scancel, k2⟩, t2, some i⟩ .nil [true] w).set.key 1
                (i.set L ⟨⟨sctx, scancel, k2⟩, t2, some i⟩ .nil [true] w).set.ttl
                (i.set L ⟨⟨sctx, scancel, k2⟩, t2, some i⟩ .nil [true] w).world with
            | (.error e, w1) =>
              ⟨.ret (false, some e),
                ((i.set L ⟨⟨sctx, scancel, k2⟩, t2, some i⟩ .nil [true] w).set.cleanup w1).1,
                ((i.set L ⟨⟨sctx, scancel, k2⟩, t2, some i⟩ .nil [true] w).set.cleanup w1).2⟩
            | (.ok allowed, w1) =>
              ⟨.ret (allowed, none),
                ((i.set L ⟨⟨sctx, scancel, k2⟩, t2, some i⟩ .nil [true] w).set.cleanup w1).1,
                ((i.set L ⟨⟨sctx, scancel, k2⟩, t2, some i⟩ .nil [true] w).set.cleanup
                  w1).2⟩).world.cancels
          = w.cancels + (if scancel.isSome then 1 else 0)) := by
    intro k2 t2
    have hf := hframe k2 t2
    generalize i.set L ⟨⟨sctx, scancel, k2⟩, t2, some i⟩ .nil [true] w = r at hf ⊢
    rcases hf with ⟨e, he, hz, hw⟩ | ⟨he, ⟨c, hc⟩, hcan, hw⟩
    · simp [he, hz, hw, setter.cleanup, setter.zero, World.cancelIf, cancelIf_cancels]
      split <;> rfl
    · have hnx := redis_SetNX_cancels r.set.ctx r.set.key 1 r.set.ttl r.world
      rcases hr : redis.SetNX r.set.ctx r.set.key 1 r.set.ttl r.world with ⟨res, w1⟩
      rw [hr] at hnx
      simp only at hnx
      rw [hw] at hnx
      cases res <;> simp [he, hc, hr, setter.cleanup, cancelIf_cancels, hcan, hnx]
  unfold setter.RateLimitOnce
  simp only [SetPrefix_eq, setter.SetTTL, setter.callSetFn]
  by_cases h1 : L.ValidationIsEmpty skey = true <;> by_cases h2 : d > 0 <;>
    simp only [h1, h2, Bool.not_true, Bool.false_eq_true, if_false, if_true, Bool.not_false,
      Bool.not_eq_true, not_false_eq_true]
  all_goals exact htail _ _

/-- C19: after any terminal method (`Pull`, `Remember`, `Put`, `PutForever`,
`RateLimitOnce`, `Perform`) of a builder made by `Get`, `Set` (with any `SetPrefix`
and `SetTTL` calls chained, here any setter bound to the instance) or `Delete`,
whatever the instance, the store and the outcome (success, validation error,
encode or decode error, store error, or even a panic inside `get`), the builder
equals its zero value, and the number of cancel calls has grown by exactly one when
the builder held a cancel function (nil context passed to the constructor) and by
none otherwise. -/
theorem terminal_methods_cleanup (L : Libs) (i : Instance) (w : World) :
    (∀ (ctx : Option Context) (k : String) (pre : List String) (out : Value)
        (rem : Option RememberFn),
      ((i.Get L ctx k pre).Pull L out w).get = getter.zero ∧
      ((i.Get L ctx k pre).Pull L out w).world.cancels
        = w.cancels + (if ctx = none then 1 else 0) ∧
      ((i.Get L ctx k pre).Remember L out rem w).get = getter.zero ∧
      ((i.Get L ctx k pre).Remember L out rem w).world.cancels
        = w.cancels + (if ctx = none then 1 else 0)) ∧
    (∀ (s : setter) (v : Value) (d : Duration), s.setFn = some i →
      ((s.Put L v w).set = setter.zero ∧
        (s.Put L v w).world.cancels = w.cancels + (if s.cancel.isSome then 1 else 0)) ∧
      ((s.PutForever L v w).set = setter.zero ∧
        (s.PutForever L v w).world.cancels = w.cancels + (if s.cancel.isSome then 1 else 0)) ∧
      ((s.RateLimitOnce L d w).set = setter.zero ∧
        (s.RateLimitOnce L d w).world.cancels
          = w.cancels + (if s.cancel.isSome then 1 else 0))) ∧
    (∀ (ctx : Option Context) (k : String),
      (i.Set ctx k).setFn = some i ∧ ((i.Set ctx k).cancel.isSome = true ↔ ctx = none) ∧
      (∀ q dd, ((i.Set ctx k).SetPrefix L q).setFn = some i ∧
        ((i.Set ctx k).SetPrefix L q).cancel = (i.Set ctx k).cancel ∧
        ((i.Set ctx k).SetTTL dd).setFn = some i ∧
        ((i.Set ctx k).SetTTL dd).cancel = (i.Set ctx k).cancel)) ∧
    (∀ (ctx : Option Context) (k : String) (pre : List String),
      ((i.Delete L ctx k pre).Perform L w).del = deleter.zero ∧
      ((i.Delete L ctx k pre).Perform L w).world.cancels
        = w.cancels + (if ctx = none then 1 else 0)) ∧
    getter.zero = ⟨⟨none, none, ""⟩, none⟩ ∧ setter.zero = ⟨⟨none, none, ""⟩, 0, none⟩ ∧
    deleter.zero = ⟨⟨none, none, ""⟩, none⟩ := by
  have hcan : ∀ ctx : Option Context,
      (if (defaultCtx ctx).2.isSome = true then 1 else 0) = (if ctx = none then 1 else 0) := by
    intro ctx
    cases ctx <;> simp [defaultCtx]
  refine ⟨?_, ?_, ?_, ?_, rfl, rfl, rfl⟩
  · intro ctx k pre out rem
    have h1 := get_cleanup L i (i.Get L ctx k pre) out [] w (defaultCtx ctx).1 rfl
    have h2 := get_cleanup L i (i.Get L ctx k pre) out [rem] w (defaultCtx ctx).1 rfl
    have hc : (i.Get L ctx k pre).cancel = (defaultCtx ctx).2 := rfl
    rw [hc, hcan] at h1 h2
    exact ⟨h1.1, h1.2, h2.1, h2.2⟩
  · intro s v d hfn
    exact ⟨Put_cleanup L i s v w hfn, PutForever_cleanup L i s v w hfn,
      RateLimitOnce_cleanup L i s d w hfn⟩
  · intro ctx k
    refine ⟨rfl, ?_, ?_⟩
    · cases ctx <;> simp [Instance.Set, defaultCtx]
    · intro q dd
      exact ⟨by rw [SetPrefix_eq]; rfl, by rw [SetPrefix_eq], rfl, rfl⟩
  · intro ctx k pre
    have h := del_cleanup L i (i.Delete L ctx k pre) w
    have hc : (i.Delete L ctx k pre).cancel = (defaultCtx ctx).2 := rfl
    rw [hc, hcan] at h
    exact h

/-! ## Reversal and splitting -/

theorem swapAt_cons_succ (a : String) (s : List String) (i j : Nat) :
    swapAt (a :: s) (i + 1) (j + 1) = a :: swapAt s i j := by
  simp [swapAt, List.set, List.getD]

theorem getD_append_length (mid post : List String) (y d : String) :
    (mid ++ y :: post).getD mid.length d = y := by
  induction mid with
  | nil => rfl
  | cons a mid ih => simpa [List.getD] using ih

theorem set_append_length (mid post : List String) (y x : String) :
    (mid ++ y :: post).set mid.length x = mid ++ x :: post := by
  induction mid with
  | nil => rfl
  | cons a mid ih => simp [List.set, ih]

theorem swapAt_ends (pre mid post : List String) (x y : String) :
    swapAt (pre ++ x :: (mid ++ y :: post)) pre.length (pre.length + mid.length + 1)
      = pre ++ y :: (mid ++ x :: post) := by
  induction pre with
  | nil =>
    have h1 := getD_append_length mid post y ""
    have h2 := set_append_length mid post y x
    simp [swapAt, List.set, List.getD, h2]
    simpa [List.getD] using h1
  | cons a pre ih =>
    have : (a :: pre).length + mid.length + 1 = (pre.length + mid.length + 1) + 1 := by
      simp only [List.length_cons]; omega
    rw [List.cons_append, this, List.length_cons, swapAt_cons_succ, ih]
    rfl

theorem reverseStringsLoop_spec :
    ∀ (fuel : Nat) (mid pre post : List String), mid.length ≤ fuel →
      reverseStringsLoop fuel (pre ++ mid ++ post) pre.length (pre.length + mid.length - 1)
        = pre ++ mid.reverse ++ post := by
  intro fuel
  induction fuel with
  | zero =>
    intro mid pre post h
    have hm : mid = [] := List.length_eq_zero.mp (Nat.le_zero.mp h)
    subst hm
    rfl
  | succ f ih =>
    intro mid pre post h
    cases mid with
    | nil =>
      simp [reverseStringsLoop]
    | cons x rest =>
      rcases List.eq_nil_or_concat rest with hnil | ⟨mid1, y, hrest⟩
      · subst hnil
        simp [reverseStringsLoop]
      · rw [List.concat_eq_append] at hrest
        subst hrest
        have hlt : pre.length < pre.length + (x :: (mid1 ++ [y])).length - 1 := by
          simp only [List.length_cons, List.length_append, List.length_nil]; omega
        have hj : pre.length + (x :: (mid1 ++ [y])).length - 1 = pre.length + mid1.length + 1 := by
          simp only [List.length_cons, List.length_append, List.length_nil]; omega
        have hlist : pre ++ x :: (mid1 ++ [y]) ++ post = pre ++ x :: (mid1 ++ y :: post) := by
          simp
        have hlen : mid1.length ≤ f := by
          simp only [List.length_cons, List.length_append, List.length_nil] at h; omega
        have hih := ih mid1 (pre ++ [y]) (x :: post) hlen
        have hidx : (pre ++ [y]).length + mid1.length - 1 = pre.length + mid1.length + 1 - 1 := by
          simp only [List.length_cons, List.length_append, List.length_nil]; omega
        have hlist2 : pre ++ [y] ++ mid1 ++ x :: post = pre ++ y :: (mid1 ++ x :: post) := by
          simp
        rw [hidx, hlist2] at hih
        unfold reverseStringsLoop
        rw [if_pos hlt, hj, hlist, swapAt_ends]
        have hpl : (pre ++ [y]).length = pre.length + 1 := by simp
        rw [hpl] at hih
        rw [hih]
        simp

theorem reverseStrings_eq_reverse (s : List String) : reverseStrings s = s.reverse := by
  have h := reverseStringsLoop_spec s.length s [] [] (le_refl _)
  simpa [reverseStrings] using h

theorem fillKeyer_namespace :
    ∀ (vals : List String) (i : Nat) (keyer : Keyer) (x : String), 2 ≤ i →
      fillKeyer i (vals ++ [x]) keyer = ⟨x, keyer.Prefix, keyer.Key⟩ := by
  intro vals
  induction vals with
  | nil =>
    intro i keyer x hi
    obtain ⟨n, rfl⟩ : ∃ n, i = n + 2 := ⟨i - 2, by omega⟩
    rfl
  | cons v vals ih =>
    intro i keyer x hi
    obtain ⟨n, rfl⟩ : ∃ n, i = n + 2 := ⟨i - 2, by omega⟩
    simp only [List.cons_append, fillKeyer]
    exact ih (n + 2 + 1) _ x (by omega)

theorem splitChar_no_sep (sep : Char) (l : List Char) (h : sep ∉ l) : splitChar sep l = [l] := by
  induction l with
  | nil => rfl
  | cons c l ih =>
    have hc : c ≠ sep := fun hcs => h (by simp [hcs])
    have hl : sep ∉ l := fun hm => h (List.mem_cons_of_mem _ hm)
    simp [splitChar, hc, ih hl]

theorem splitChar_append (sep : Char) (a rest : List Char) (h : sep ∉ a) :
    splitChar sep (a ++ sep :: rest) = a :: splitChar sep rest := by
  induction a with
  | nil => simp [splitChar]
  | cons c a ih =>
    have hc : c ≠ sep := fun hcs => h (by simp [hcs])
    have hl : sep ∉ a := fun hm => h (List.mem_cons_of_mem _ hm)
    simp [splitChar, hc, ih hl]

theorem stringsSplit_three (ns p k : String) (hns : ':' ∉ ns.data) (hp : ':' ∉ p.data)
    (hk : ':' ∉ k.data) :
    stringsSplit (ns ++ ":" ++ p ++ ":" ++ k) DefaultKeySeparator = [ns, p, k] := by
  have hdata : (ns ++ ":" ++ p ++ ":" ++ k).data = ns.data ++ ':' :: (p.data ++ ':' :: k.data) := by
    simp [String.data_append]
  have hsep : DefaultKeySeparator.data = [':'] := rfl
  unfold stringsSplit
  rw [hsep, hdata]
  simp only
  rw [splitChar_append _ _ _ hns, splitChar_append _ _ _ hp, splitChar_no_sep _ _ hk]
  rfl

/-! ## Keyer reconstruction -/

theorem scanKeyer_of_split (v a : String) (m : List String) (b c : String)
    (h : stringsSplit v DefaultKeySeparator = a :: (m ++ [b, c])) : scanKeyer v = ⟨a, b, c⟩ := by
  unfold scanKeyer
  rw [h, reverseStrings_eq_reverse]
  have hrev : (a :: (m ++ [b, c])).reverse = c :: b :: (m.reverse ++ [a]) := by simp
  rw [hrev]
  simp only [fillKeyer]
  exact fillKeyer_namespace m.reverse 2 _ a (le_refl _)

theorem scanKeyer_three (ns p k : String) (hns : ':' ∉ ns.data) (hp : ':' ∉ p.data)
    (hk : ':' ∉ k.data) : scanKeyer (ns ++ ":" ++ p ++ ":" ++ k) = ⟨ns, p, k⟩ :=
  scanKeyer_of_split _ ns [] p k (stringsSplit_three ns p k hns hp hk)

/-- C17 (as amended): for every fully-qualified key whose split on the delimiter
gives `n ≥ 3` segments `s1, ..., sn` (here `s1`, then `mid`, then `p`, `k`), `scan`
produces a Keyer with `Key = sn`, `Prefix = s(n-1)` and `Namespace = s1`, the first
segment; for exactly three segments `ns:p:k` with no separator inside `ns`, `p` or
`k` the result is `Keyer{Namespace: ns, Prefix: p, Key: k}`; and `scan` appends
this Keyer for every key the iterator yields. -/
theorem scanKeyer_segments (val s1 : String) (mid : List String) (p k : String)
    (hsplit : stringsSplit val DefaultKeySeparator = s1 :: (mid ++ [p, k])) :
    scanKeyer val = ⟨s1, p, k⟩ ∧
    (∀ ns p1 k1 : String, ':' ∉ ns.data → ':' ∉ p1.data → ':' ∉ k1.data →
      scanKeyer (ns ++ ":" ++ p1 ++ ":" ++ k1) = ⟨ns, p1, k1⟩) ∧
    (∀ (cl : Cluster) (rdb : Client) (node : Option Nat) (ctx : Option Context)
        (pattern : String) (founds : List Keyer) (w w1 : World) (vals : List String),
      redis.Scan cl rdb node ctx 0 pattern 0 w = (.ok vals, w1) →
      scan cl rdb node ctx pattern founds w = (none, founds ++ vals.map scanKeyer, w1)) := by
  refine ⟨scanKeyer_of_split val s1 mid p k hsplit, ?_, ?_⟩
  · intro ns p1 k1 hns hp hk
    exact scanKeyer_three ns p1 k1 hns hp hk
  · intro cl rdb node ctx pattern founds w w1 vals h
    simp [scan, h]

theorem scanKeyer_segments_witness :
    stringsSplit "cache-app:rate-limit:test:TestSet" DefaultKeySeparator
      = "cache-app" :: (["rate-limit"] ++ ["test", "TestSet"]) ∧
    scanKeyer "cache-app:rate-limit:test:TestSet" = ⟨"cache-app", "test", "TestSet"⟩ ∧
    scanKeyer "cache-app:test:TestSet" = ⟨"cache-app", "test", "TestSet"⟩ :=
  ⟨rfl,
    (scanKeyer_segments "cache-app:rate-limit:test:TestSet" "cache-app" ["rate-limit"] "test"
      "TestSet" rfl).1,
    (scanKeyer_segments "cache-app:rate-limit:test:TestSet" "cache-app" ["rate-limit"] "test"
      "TestSet" rfl).2.1 "cache-app" "test" "TestSet" (by decide) (by decide) (by decide)⟩

/-- C17, the claim as stated fails: the key `a:b:c:d` has four segments, and the Keyer
that `scan` builds has `Namespace = "a"`; the segment `b` is not kept, so `Namespace`
does not hold everything that remains before the prefix, `a:b`. -/
theorem scanKeyer_drops_middle_segments :
    stringsSplit "a:b:c:d" DefaultKeySeparator = ["a", "b", "c", "d"] ∧
    scanKeyer "a:b:c:d" = ⟨"a", "c", "d"⟩ ∧
    (scanKeyer "a:b:c:d").Namespace ≠ "a:b" :=
  ⟨rfl, rfl, by decide⟩

/-! ## GetAllKeys -/

theorem globMatchFuel_star : ∀ (k : List Char) (fuel : Nat), k.length + 2 ≤ fuel →
    globMatchFuel fuel ['*'] k = true := by
  intro k
  induction k with
  | nil =>
    intro fuel h
    obtain ⟨f, rfl⟩ : ∃ f, fuel = f + 2 := ⟨fuel - 2, by simp at h; omega⟩
    simp [globMatchFuel]
  | cons c k ih =>
    intro fuel h
    obtain ⟨f, rfl⟩ : ∃ f, fuel = f + 1 := ⟨fuel - 1, by simp at h; omega⟩
    have := ih f (by simp at h; omega)
    simp [globMatchFuel, this]

theorem globMatchFuel_literal : ∀ (l k : List Char) (fuel : Nat),
    (∀ c ∈ l, isGlobMeta c = false) → l.length + l.length + k.length + 2 ≤ fuel →
    globMatchFuel fuel (l ++ ['*']) (l ++ k) = true := by
  intro l
  induction l with
  | nil =>
    intro k fuel _ h
    exact globMatchFuel_star k fuel (by simpa using h)
  | cons c l ih =>
    intro k fuel hl h
    obtain ⟨f, rfl⟩ : ∃ f, fuel = f + 1 := ⟨fuel - 1, by simp at h; omega⟩
    have hc := hl c (by simp)
    simp only [isGlobMeta, Bool.or_eq_false_iff, decide_eq_false_iff_not] at hc
    obtain ⟨⟨⟨h1, h2⟩, h3⟩, h4⟩ := hc
    have hrec := ih k f (fun x hx => hl x (List.mem_cons_of_mem _ hx))
      (by simp only [List.length_cons] at h; omega)
    simp [globMatchFuel, h1, h2, h3, h4, hrec]

theorem TrimSuffix_no_star (s : String) (h : '*' ∉ s.data) : TrimSuffix s "*" = s := by
  unfold TrimSuffix
  have hsuf : ¬ ("*".data.isSuffixOf s.data = true) := by
    rw [List.isSuffixOf_iff_suffix]
    intro hs
    exact h (hs.subset (by decide))
  simp [hsuf]

theorem mem_keys_of_find (w : World) (key : String) (e : Entry) (h : w.find key = some e) :
    key ∈ w.data.map (·.1) := by
  unfold World.find at h
  generalize w.data = l at h ⊢
  induction l with
  | nil => simp [List.lookup] at h
  | cons kv rest ih =>
    obtain ⟨k1, e1⟩ := kv
    by_cases hk : key = k1
    · subst hk
      simp
    · have hne : (key == k1) = false := by simpa using hk
      simp only [List.lookup, hne] at h
      exact List.mem_cons_of_mem _ (ih h)

/-- C18 (as amended): on an open instance that is not clustered, whose client is not a
cluster client and whose namespace holds neither the separator nor a glob
metacharacter, for every prefix `P` (not judged empty, without separator or glob
metacharacter) and key `K` (without separator), once an entry is stored under key `K`
with prefix `P`, `GetAllKeys(ctx, P)` on a store on which no command fails returns no
error and its result contains the Keyer with the configured namespace, `Prefix == P`
and `Key == K`. -/
theorem GetAllKeys_finds_stored (L : Libs) (cl : Cluster) (i : Instance) (c : Client) (w : World)
    (ctx : Option Context) (P K : String) (e : Entry)
    (hc : i.client = some c) (hnc : i.clustering = false) (hcc : c.isClusterClient = false)
    (hP : L.ValidationIsEmpty P = false) (hmap : ∀ call, w.fault call = none)
    (hns : ∀ ch ∈ i.cfg.Namespace.data, ch ≠ ':' ∧ isGlobMeta ch = false)
    (hPc : ∀ ch ∈ P.data, ch ≠ ':' ∧ isGlobMeta ch = false)
    (hK : ':' ∉ K.data)
    (hd : w.find (i.cfg.Namespace ++ ":" ++ P ++ ":" ++ K) = some e) :
    (i.GetAllKeys L cl ctx P w).err = none ∧
    (⟨i.cfg.Namespace, P, K⟩ : Keyer) ∈ (i.GetAllKeys L cl ctx P w).keys := by
  have hstar : '*' ∉ P.data := by
    intro hm
    have := (hPc '*' hm).2
    simp [isGlobMeta] at this
  have hkeyer : scanKeyer (i.cfg.Namespace ++ ":" ++ P ++ ":" ++ K) = ⟨i.cfg.Namespace, P, K⟩ :=
    scanKeyer_three i.cfg.Namespace P K
      (fun hm => (hns ':' hm).1 rfl) (fun hm => (hPc ':' hm).1 rfl) hK
  have hpat : (i.cfg.Namespace ++ DefaultKeySeparator ++ TrimSuffix P "*" ++ DefaultKeySeparator
      ++ "*").data = (i.cfg.Namespace.data ++ ':' :: (P.data ++ [':'])) ++ ['*'] := by
    rw [TrimSuffix_no_star P hstar]
    simp [DefaultKeySeparator, String.data_append]
  have hkd : (i.cfg.Namespace ++ ":" ++ P ++ ":" ++ K).data
      = (i.cfg.Namespace.data ++ ':' :: (P.data ++ [':'])) ++ K.data := by
    simp [String.data_append]
  have hlit : ∀ ch ∈ i.cfg.Namespace.data ++ ':' :: (P.data ++ [':']), isGlobMeta ch = false := by
    intro ch hm
    simp only [List.mem_append, List.mem_cons, List.mem_singleton, List.not_mem_nil,
      or_false] at hm
    rcases hm with h | h | h | h
    · exact (hns ch h).2
    · subst h; rfl
    · exact (hPc ch h).2
    · subst h; rfl
  have hmatch : globMatch (i.cfg.Namespace ++ DefaultKeySeparator ++ TrimSuffix P "*" ++
      DefaultKeySeparator ++ "*") (i.cfg.Namespace ++ ":" ++ P ++ ":" ++ K) = true := by
    unfold globMatch
    rw [hpat, hkd]
    apply globMatchFuel_literal _ _ _ hlit
    simp only [List.length_append, List.length_cons, List.length_nil]
    omega
  have hmem := mem_keys_of_find w _ e hd
  have hout : i.GetAllKeys L cl ctx P w =
      ⟨((w.data.map (·.1)).filter (globMatch (i.cfg.Namespace ++ DefaultKeySeparator ++
          TrimSuffix P "*" ++ DefaultKeySeparator ++ "*"))).map scanKeyer, none,
        (w.issue (.Scan none (some (defaultCtx ctx).1) 0 (i.cfg.Namespace ++ DefaultKeySeparator ++
          TrimSuffix P "*" ++ DefaultKeySeparator ++ "*") 0)).cancelIf (defaultCtx ctx).2⟩ := by
    unfold Instance.GetAllKeys
    simp only [hc, hP, hnc, Bool.false_eq_true, if_false, scan, redis.Scan, hmap, visibleKeys, hcc,
      List.nil_append]
  rw [hout]
  refine ⟨rfl, ?_⟩
  rw [← hkeyer]
  exact List.mem_map_of_mem _ (List.mem_filter.mpr ⟨hmem, hmatch⟩)

theorem GetAllKeys_finds_stored_witness :
    sampleInstance.client = some .standalone ∧ sampleInstance.clustering = false ∧
    Client.standalone.isClusterClient = false ∧ sampleLibs.ValidationIsEmpty "test" = false ∧
    storedWorld.find (sampleInstance.cfg.Namespace ++ ":" ++ "test" ++ ":" ++ "TestSet")
      = some ⟨"test_value".data, 0⟩ ∧
    (sampleInstance.GetAllKeys sampleLibs noCluster none "test" storedWorld).keys
      = [⟨"cache-app", "test", "TestSet"⟩] ∧
    (sampleInstance.GetAllKeys sampleLibs noCluster none "test" storedWorld).err = none ∧
    (⟨"cache-app", "test", "TestSet"⟩ : Keyer) ∈
      (sampleInstance.GetAllKeys sampleLibs noCluster none "test" storedWorld).keys :=
  ⟨rfl, rfl, rfl, rfl, rfl, rfl,
    GetAllKeys_finds_stored sampleLibs noCluster sampleInstance .standalone storedWorld none
      "test" "TestSet" ⟨"test_value".data, 0⟩ rfl rfl rfl rfl (fun _ => rfl)
      (by decide) (by decide) (by decide) rfl⟩

/-- C18, the claim as stated fails: with the namespace `a[b]`, the value stored under
key `TestSet` with prefix `test` lies at `a[b]:test:TestSet`, and `GetAllKeys(nil,
"test")` scans with the pattern `a[b]:test:*`, in which `[b]` is a class; the scan
matches nothing and the result is empty, without error. -/
theorem GetAllKeys_misses_with_glob_namespace :
    bracketWorld.find (bracketInstance.cfg.Namespace ++ ":" ++ "test" ++ ":" ++ "TestSet")
      = some ⟨"test_value".data, 0⟩ ∧
    (bracketInstance.Has sampleLibs none "TestSet" ["test"] bracketWorld).1 = true ∧
    (bracketInstance.GetAllKeys sampleLibs noCluster none "test" bracketWorld).world.log
      = [.Scan none (some (.WithTimeout .Background Second)) 0 "a[b]:test:*" 0] ∧
    (bracketInstance.GetAllKeys sampleLibs noCluster none "test" bracketWorld).err = none ∧
    (bracketInstance.GetAllKeys sampleLibs noCluster none "test" bracketWorld).keys = [] :=
  ⟨rfl, rfl, rfl, rfl, rfl⟩

theorem terminal_methods_cleanup_witness :
    ((sampleInstance.Set none "TestSet").SetPrefix sampleLibs "test").setFn = some sampleInstance ∧
    (((sampleInstance.Set none "TestSet").SetPrefix sampleLibs "test").Put sampleLibs
      (.string "test_value") emptyWorld).set = setter.zero ∧
    (((sampleInstance.Set none "TestSet").SetPrefix sampleLibs "test").Put sampleLibs
      (.string "test_value") emptyWorld).world.cancels = 1 ∧
    (((sampleInstance.Set (some (.caller 7)) "").SetPrefix sampleLibs "").RateLimitOnce sampleLibs
      Minute emptyWorld).set = setter.zero ∧
    (((sampleInstance.Set (some (.caller 7)) "").SetPrefix sampleLibs "").RateLimitOnce sampleLibs
      Minute emptyWorld).world.cancels = 0 :=
  ⟨rfl,
    ((terminal_methods_cleanup sampleLibs sampleInstance emptyWorld).2.1
      ((sampleInstance.Set none "TestSet").SetPrefix sampleLibs "test") (.string "test_value")
      Minute rfl).1.1,
    ((terminal_methods_cleanup sampleLibs sampleInstance emptyWorld).2.1
      ((sampleInstance.Set none "TestSet").SetPrefix sampleLibs "test") (.string "test_value")
      Minute rfl).1.2,
    ((terminal_methods_cleanup sampleLibs sampleInstance emptyWorld).2.1
      ((sampleInstance.Set (some (.caller 7)) "").SetPrefix sampleLibs "") (.string "test_value")
      Minute rfl).2.2.1,
    ((terminal_methods_cleanup sampleLibs sampleInstance emptyWorld).2.1
      ((sampleInstance.Set (some (.caller 7)) "").SetPrefix sampleLibs "") (.string "test_value")
      Minute rfl).2.2.2⟩

/-! ## Expiration of the rate-limit entry -/

theorem redis_SetNX_log (ctx : Option Context) (key : String) (val : Int) (ttl : Duration)
    (w : World) : (redis.SetNX ctx key val ttl w).2.log = w.log ++ [.SetNX ctx key val ttl] := by
  unfold redis.SetNX
  split
  · rfl
  · split <;> rfl

/-- The one command `RateLimitOnce` sends on an open instance for a key that is not
judged empty. -/
theorem RateLimitOnce_log (L : Libs) (i : Instance) (s : setter) (d : Duration) (w : World)
    (c : Client) (hfn : s.setFn = some i) (hc : i.client = some c)
    (hk : L.ValidationIsEmpty s.key = false)
    (hq : L.ValidationIsEmpty (withPrefix L s.key [KeyRateLimit]) = false) :
    (s.RateLimitOnce L d w).world.log =
      w.log ++ [.SetNX s.ctx
        (i.cfg.Namespace ++ DefaultKeySeparator ++ withPrefix L s.key [KeyRateLimit]) 1
        (if d > 0 then d else s.ttl)] := by
  obtain ⟨⟨sctx, scancel, skey⟩, sttl, sfn⟩ := s
  simp only at hfn hk hq
  subst hfn
  have h := redis_SetNX_log sctx
    (i.cfg.Namespace ++ DefaultKeySeparator ++ withPrefix L skey [KeyRateLimit]) 1
    (if d > 0 then d else sttl) w
  rcases hr : redis.SetNX sctx
    (i.cfg.Namespace ++ DefaultKeySeparator ++ withPrefix L skey [KeyRateLimit]) 1
    (if d > 0 then d else sttl) w with ⟨r, w1⟩
  rw [hr] at h
  simp only at h
  unfold setter.RateLimitOnce
  simp only [hk, SetPrefix_eq, setter.SetTTL, setter.callSetFn]
  by_cases hd : d > 0
  · simp only [hd, if_true] at hr h ⊢
    have hb := set_borrow L i
      { ctx := sctx, cancel := scancel, key := withPrefix L skey [KeyRateLimit], ttl := d,
        setFn := some i } .nil w c hc hq
    cases r <;> simp [hb, hr, setter.cleanup, cancelIf_log, h]
  · simp only [hd, if_false] at hr h ⊢
    have hb := set_borrow L i
      { ctx := sctx, cancel := scancel, key := withPrefix L skey [KeyRateLimit], ttl := sttl,
        setFn := some i } .nil w c hc hq
    cases r <;> simp [hb, hr, setter.cleanup, cancelIf_log, h]

/-- C21: on an open instance, for a setter with a key `k` not judged empty (nor is
the `rate-limit` prefix or the prefixed key), `RateLimitOnce(period)` sends exactly one
conditional create, on the key `namespace:rate-limit:k`; its expiration is `period`
whenever `period > 0`, also after an earlier `SetTTL(t)`, and is the TTL configured on
the builder when `period ≤ 0`: `t` after `SetTTL(t)`, and 0 for a setter fresh from
`Set`, which is not `DefaultTTL`; on a store without faults that holds no such entry,
the entry is then created with TTL 0. -/
theorem rate_limit_once_ttl_policy (L : Libs) (i : Instance) (c : Client) (s : setter)
    (w : World) (hfn : s.setFn = some i) (hc : i.client = some c)
    (hp : L.ValidationIsEmpty KeyRateLimit = false)
    (hk : L.ValidationIsEmpty s.key = false)
    (hq : L.ValidationIsEmpty ("rate-limit" ++ ":" ++ s.key) = false) :
    (∀ d t : Duration, d > 0 →
      (s.RateLimitOnce L d w).world.log =
        w.log ++ [.SetNX s.ctx (i.cfg.Namespace ++ ":" ++ ("rate-limit" ++ ":" ++ s.key)) 1 d] ∧
      ((s.SetTTL t).RateLimitOnce L d w).world.log =
        w.log ++ [.SetNX s.ctx (i.cfg.Namespace ++ ":" ++ ("rate-limit" ++ ":" ++ s.key)) 1 d]) ∧
    (∀ d t : Duration, d ≤ 0 →
      (s.RateLimitOnce L d w).world.log =
        w.log ++ [.SetNX s.ctx (i.cfg.Namespace ++ ":" ++ ("rate-limit" ++ ":" ++ s.key)) 1
          s.ttl] ∧
      ((s.SetTTL t).RateLimitOnce L d w).world.log =
        w.log ++ [.SetNX s.ctx (i.cfg.Namespace ++ ":" ++ ("rate-limit" ++ ":" ++ s.key)) 1 t]) ∧
    (∀ (ctx : Option Context) (d : Duration), s = i.Set ctx s.key → d ≤ 0 →
      (s.RateLimitOnce L d w).world.log =
        w.log ++ [.SetNX s.ctx (i.cfg.Namespace ++ ":" ++ ("rate-limit" ++ ":" ++ s.key)) 1 0] ∧
      ((∀ call, w.fault call = none) →
        w.find (i.cfg.Namespace ++ ":" ++ ("rate-limit" ++ ":" ++ s.key)) = none →
        (s.RateLimitOnce L d w).world.find
            (i.cfg.Namespace ++ ":" ++ ("rate-limit" ++ ":" ++ s.key)) = some ⟨"1".data, 0⟩)) ∧
    DefaultTTL ≠ 0 := by
  have hwp : withPrefix L s.key [KeyRateLimit] = "rate-limit" ++ ":" ++ s.key := by
    show (if !L.ValidationIsEmpty KeyRateLimit then KeyRateLimit ++ DefaultKeySeparator ++ s.key
      else s.key) = _
    rw [hp]
    rfl
  have hq1 : L.ValidationIsEmpty (withPrefix L s.key [KeyRateLimit]) = false := by rw [hwp]; exact hq
  have hlog : ∀ d, (s.RateLimitOnce L d w).world.log =
      w.log ++ [.SetNX s.ctx (i.cfg.Namespace ++ ":" ++ ("rate-limit" ++ ":" ++ s.key)) 1
        (if d > 0 then d else s.ttl)] := by
    intro d
    have h := RateLimitOnce_log L i s d w c hfn hc hk hq1
    rw [hwp] at h
    exact h
  have hlogT : ∀ d t, ((s.SetTTL t).RateLimitOnce L d w).world.log =
      w.log ++ [.SetNX s.ctx (i.cfg.Namespace ++ ":" ++ ("rate-limit" ++ ":" ++ s.key)) 1
        (if d > 0 then d else t)] := by
    intro d t
    have h := RateLimitOnce_log L i (s.SetTTL t) d w c hfn hc hk hq1
    simp only [setter.SetTTL] at h
    rw [hwp] at h
    exact h
  refine ⟨?_, ?_, ?_, by decide⟩
  · intro d t hd
    rw [hlog d, hlogT d t]
    simp [hd]
  · intro d t hd
    have hnd : ¬ d > 0 := not_lt.mpr hd
    rw [hlog d, hlogT d t]
    simp [hnd]
  · intro ctx d hs hd
    have hnd : ¬ d > 0 := not_lt.mpr hd
    have httl : s.ttl = 0 := by rw [hs]; rfl
    constructor
    · rw [hlog d]
      simp [hnd, httl]
    · intro hmap hnone
      have hnx := redis_SetNX_fresh s.ctx
        (i.cfg.Namespace ++ DefaultKeySeparator ++ withPrefix L s.key [KeyRateLimit]) 1
        (if d > 0 then d else s.ttl) w (hmap _) (by rw [hwp]; exact hnone)
      have h1 := RateLimitOnce_ok L i s d w _ c true hfn hc hk hq1 hnx
      rw [h1]
      simp only [cancelIf_find]
      simp [World.find, World.issue, List.lookup, hwp, DefaultKeySeparator, hnd, httl]
      rfl

theorem rate_limit_once_ttl_policy_witness :
    (sampleInstance.Set none "LimitKey").setFn = some sampleInstance ∧
    sampleInstance.client = some .standalone ∧
    sampleLibs.ValidationIsEmpty KeyRateLimit = false ∧
    sampleLibs.ValidationIsEmpty (sampleInstance.Set none "LimitKey").key = false ∧
    sampleLibs.ValidationIsEmpty ("rate-limit" ++ ":" ++ (sampleInstance.Set none "LimitKey").key)
      = false ∧
    Minute > 0 ∧
    (((sampleInstance.Set none "LimitKey").SetTTL Second).RateLimitOnce sampleLibs Minute
        emptyWorld).world.log =
      [.SetNX (some (.WithTimeout .Background Second)) "cache-app:rate-limit:LimitKey" 1 Minute] ∧
    ((sampleInstance.Set none "LimitKey").RateLimitOnce sampleLibs 0 emptyWorld).world.log =
      [.SetNX (some (.WithTimeout .Background Second)) "cache-app:rate-limit:LimitKey" 1 0] :=
  ⟨rfl, rfl, rfl, rfl, rfl, by decide,
    (((rate_limit_once_ttl_policy sampleLibs sampleInstance .standalone
      (sampleInstance.Set none "LimitKey") emptyWorld rfl rfl rfl rfl rfl).1 Minute Second
        (by decide)).2),
    (((rate_limit_once_ttl_policy sampleLibs sampleInstance .standalone
      (sampleInstance.Set none "LimitKey") emptyWorld rfl rfl rfl rfl rfl).2.2.1 none 0 rfl
        (le_refl _)).1)⟩

/-! ## Has -/

theorem lookup_erase_of_none (w : World) (key other : String) (hd : w.find other = none) :
    List.lookup other (w.erase key) = none := by
  simp only [World.find, List.lookup_eq_none_iff] at hd
  simp only [World.erase, List.lookup_eq_none_iff, List.mem_filter]
  intro kv hmem
  exact hd kv hmem.1

/-- On an open instance and a store without faults, `Has` answers whether the store
holds an entry under the qualified key. -/
theorem Has_iff_find (L : Libs) (i : Instance) (ctx : Option Context) (key : String)
    (pre : List String) (w : World) (c : Client) (hc : i.client = some c)
    (hmap : ∀ call, w.fault call = none) :
    (i.Has L ctx key pre w).1 = true ↔
      (w.find (i.cfg.Namespace ++ DefaultKeySeparator ++ withPrefix L key pre)).isSome = true := by
  cases hd : w.find (i.cfg.Namespace ++ DefaultKeySeparator ++ withPrefix L key pre) with
  | none => rw [Has_missing L i ctx key pre w c hc hd]; simp
  | some e => rw [Has_found L i ctx key pre w c e hc (hmap _) hd]; simp

/-- C22 as stated fails: the pairs (prefix `a`, key `b:c`) and (prefix `a:b`, key `c`)
are distinct, yet after storing a value only under the first, `Has` on the second
returns true, because both address the entry `cache-app:a:b:c`. -/
theorem has_confuses_distinct_pairs :
    (("a", "b:c") : String × String) ≠ ("a:b", "c") ∧
    (((sampleInstance.Set none "b:c").SetPrefix sampleLibs "a").PutForever sampleLibs
      (.string "v") emptyWorld).result = .ret (0, none) ∧
    (((sampleInstance.Set none "b:c").SetPrefix sampleLibs "a").PutForever sampleLibs
      (.string "v") emptyWorld).world.data = [("cache-app:a:b:c", ⟨"v".data, 0⟩)] ∧
    (sampleInstance.Has sampleLibs none "b:c" ["a"]
      (((sampleInstance.Set none "b:c").SetPrefix sampleLibs "a").PutForever sampleLibs
        (.string "v") emptyWorld).world).1 = true ∧
    (sampleInstance.Has sampleLibs none "c" ["a:b"]
      (((sampleInstance.Set none "b:c").SetPrefix sampleLibs "a").PutForever sampleLibs
        (.string "v") emptyWorld).world).1 = true := by
  refine ⟨by decide, rfl, rfl, rfl, rfl⟩

/-- C22, amended: on an open instance and a store that behaves as a map,
`Has(ctx,k,p)` returns true if and only if an entry is stored under the qualified key
`namespace:[p:]k`; and for every two (prefix, key) pairs whose qualified keys differ,
after a successful `Put` or `PutForever` under the first, on a store that held nothing
under the second, `Has` on the first is true and `Has` on the second is false. -/
theorem has_reports_addressed_entry (L : Libs) (i : Instance) (c : Client) (w : World)
    (hc : i.client = some c) (hmap : ∀ call, w.fault call = none) :
    (∀ ctx k pre, (i.Has L ctx k pre w).1 = true ↔
      (w.find (i.cfg.Namespace ++ ":" ++ withPrefix L k pre)).isSome = true) ∧
    (∀ (s : setter) (v : Value) (forever : Bool) (ttl : Duration) (ctx1 ctx2 : Option Context)
        (k1 k2 : String) (p1 p2 : List String),
      s.setFn = some i → s.key = withPrefix L k1 p1 →
      (if forever then s.PutForever L v w else s.Put L v w).result = .ret (ttl, none) →
      w.find (i.cfg.Namespace ++ ":" ++ withPrefix L k2 p2) = none →
      withPrefix L k1 p1 ≠ withPrefix L k2 p2 →
      (i.Has L ctx1 k1 p1 (if forever then s.PutForever L v w else s.Put L v w).world).1 = true ∧
      (i.Has L ctx2 k2 p2 (if forever then s.PutForever L v w else s.Put L v w).world).1
        = false) := by
  constructor
  · intro ctx k pre
    exact Has_iff_find L i ctx k pre w c hc hmap
  · intro s v forever ttl ctx1 ctx2 k1 k2 p1 p2 hfn hkey hput hnone hne
    obtain ⟨_, b, _, _, _, _, _, hw⟩ := store_success L i s v w forever ttl hfn hput
    rw [hw, hkey]
    constructor
    · rw [Has_found L i ctx1 k1 p1 _ c ⟨b, ttl⟩ hc (by rw [cancelIf_fault]; exact hmap _)
        (by rw [cancelIf_find]; simp [World.find, World.issue, List.lookup])]
    · have hk : (i.cfg.Namespace ++ DefaultKeySeparator ++ withPrefix L k2 p2 ==
          i.cfg.Namespace ++ DefaultKeySeparator ++ withPrefix L k1 p1) = false := by
        simp only [beq_eq_false_iff_ne, ne_eq]
        intro h
        have h1 := congrArg String.data h
        simp only [String.data_append, List.append_cancel_left_eq] at h1
        exact hne (String.ext h1).symm
      rw [Has_missing L i ctx2 k2 p2 _ c hc
        (by
          rw [cancelIf_find]
          simp only [World.find, World.issue, List.lookup, hk]
          exact lookup_erase_of_none w _ _ hnone)]

theorem has_reports_addressed_entry_witness :
    sampleInstance.client = some .standalone ∧ (∀ call, emptyWorld.fault call = none) ∧
    ((sampleInstance.Set none "TestSet").SetPrefix sampleLibs "test").setFn
      = some sampleInstance ∧
    ((sampleInstance.Set none "TestSet").SetPrefix sampleLibs "test").key
      = withPrefix sampleLibs "TestSet" ["test"] ∧
    (if true then ((sampleInstance.Set none "TestSet").SetPrefix sampleLibs "test").PutForever
        sampleLibs (.string "test_value") emptyWorld
      else ((sampleInstance.Set none "TestSet").SetPrefix sampleLibs "test").Put
        sampleLibs (.string "test_value") emptyWorld).result = .ret (0, none) ∧
    emptyWorld.find (sampleInstance.cfg.Namespace ++ ":" ++ withPrefix sampleLibs "TestSet" [])
      = none ∧
    withPrefix sampleLibs "TestSet" ["test"] ≠ withPrefix sampleLibs "TestSet" [] ∧
    (sampleInstance.Has sampleLibs none "TestSet" ["test"]
      (if true then ((sampleInstance.Set none "TestSet").SetPrefix sampleLibs "test").PutForever
          sampleLibs (.string "test_value") emptyWorld
        else ((sampleInstance.Set none "TestSet").SetPrefix sampleLibs "test").Put
          sampleLibs (.string "test_value") emptyWorld).world).1 = true ∧
    (sampleInstance.Has sampleLibs none "TestSet" []
      (if true then ((sampleInstance.Set none "TestSet").SetPrefix sampleLibs "test").PutForever
          sampleLibs (.string "test_value") emptyWorld
        else ((sampleInstance.Set none "TestSet").SetPrefix sampleLibs "test").Put
          sampleLibs (.string "test_value") emptyWorld).world).1 = false :=
  ⟨rfl, fun _ => rfl, rfl, rfl, rfl, rfl, by decide,
    (has_reports_addressed_entry sampleLibs sampleInstance .standalone emptyWorld rfl
      (fun _ => rfl)).2 ((sampleInstance.Set none "TestSet").SetPrefix sampleLibs "test")
      (.string "test_value") true 0 none none "TestSet" "TestSet" ["test"] [] rfl rfl rfl rfl
      (by decide)⟩

/-! ## No open connection -/

theorem RateLimitOnce_client_nil (L : Libs) (i : Instance) (s : setter) (d : Duration)
    (w : World) (hfn : s.setFn = some i) (hc : i.client = none) :
    s.RateLimitOnce L d w = ⟨.ret (false, some .ErrClientNil), setter.zero, w.cancelIf s.cancel⟩ := by
  obtain ⟨⟨sctx, scancel, skey⟩, sttl, sfn⟩ := s
  simp only at hfn
  subst hfn
  unfold setter.RateLimitOnce
  simp only [SetPrefix_eq, setter.SetTTL, setter.callSetFn]
  by_cases hk : L.ValidationIsEmpty skey = true <;> by_cases hd : d > 0 <;>
    simp [hk, hd, set_client_nil L i _ .nil [true] w hc, setter.cleanup, World.cancelIf, setter.zero]

/-- C23: on an instance whose client is nil, every terminal method of a builder bound
to it returns `ErrClientNil` without a panic and without a command to the store:
`Pull`, `Remember` and `Perform` for every key not judged empty, `Put`, `PutForever`
and `RateLimitOnce` for every key; the compute function of `Remember` is not invoked;
`Client()` and `GetAllKeys` return `ErrClientNil`, `Has` returns false and `Close`
returns nil whatever the client would answer. -/
theorem nil_client_reports_ErrClientNil (L : Libs) (cl : Cluster) (i : Instance) (w : World)
    (hc : i.client = none) :
    (∀ (g : getter) (out : Value) (rem : Option RememberFn),
      g.getFn = some i → L.ValidationIsEmpty g.key = false →
      (g.Pull L out w).result = .ret (some .ErrClientNil) ∧
      (g.Pull L out w).world.log = w.log ∧
      (g.Remember L out rem w).result = .ret (some .ErrClientNil) ∧
      (g.Remember L out rem w).world.log = w.log ∧
      (g.Remember L out rem w).world.remCalls = w.remCalls) ∧
    (∀ (s : setter) (v : Value) (d : Duration), s.setFn = some i →
      (∃ ttl, (s.Put L v w).result = .ret (ttl, some .ErrClientNil)) ∧
      (s.Put L v w).world.log = w.log ∧
      (s.PutForever L v w).result = .ret (0, some .ErrClientNil) ∧
      (s.PutForever L v w).world.log = w.log ∧
      (s.RateLimitOnce L d w).result = .ret (false, some .ErrClientNil) ∧
      (s.RateLimitOnce L d w).world.log = w.log) ∧
    (∀ (del : deleter), del.delFn = some i → L.ValidationIsEmpty del.key = false →
      (del.Perform L w).result = .ret (0, some .ErrClientNil) ∧
      (del.Perform L w).world.log = w.log) ∧
    i.Client = (none, some .ErrClientNil) ∧
    (∀ ctx pre, (i.GetAllKeys L cl ctx pre w).err = some .ErrClientNil ∧
      (i.GetAllKeys L cl ctx pre w).world.log = w.log) ∧
    (∀ ctx k pre, (i.Has L ctx k pre w).1 = false ∧ (i.Has L ctx k pre w).2.log = w.log) ∧
    (∀ clientClose, i.Close clientClose = none) := by
  refine ⟨?_, ?_, ?_, ?_, ?_, ?_, ?_⟩
  · intro g out rem hfn hk
    have hp : g.Pull L out w = i.get L g out [] w := by simp [getter.Pull, hfn]
    have hr : g.Remember L out rem w = i.get L g out [rem] w := by simp [getter.Remember, hfn]
    rw [hp, hr, get_client_nil L i g out [] w hk hc, get_client_nil L i g out [rem] w hk hc]
    simp [cancelIf_log, cancelIf_remCalls]
  · intro s v d hfn
    rw [Put_eq L i s v w hfn, PutForever_eq L i s v w hfn, set_client_nil L i _ v [] w hc,
      set_client_nil L i _ v [] w hc, RateLimitOnce_client_nil L i s d w hfn hc]
    simp [cancelIf_log]
  · intro del hfn hk
    have hp : del.Perform L w = i.del L del w := by simp [deleter.Perform, hfn]
    rw [hp]
    simp [Instance.del, hk, Instance.validateClient, hc, cancelIf_log]
  · simp [Instance.Client, Instance.validateClient, hc]
  · intro ctx pre
    simp [Instance.GetAllKeys, hc]
  · intro ctx k pre
    rw [Has_client_nil L i ctx k pre w hc]
    exact ⟨rfl, rfl⟩
  · intro clientClose
    simp [Instance.Close, hc]

theorem nil_client_reports_ErrClientNil_witness :
    closedInstance.client = none ∧
    (closedInstance.Get sampleLibs none "TestSet" ["test"]).getFn = some closedInstance ∧
    sampleLibs.ValidationIsEmpty (closedInstance.Get sampleLibs none "TestSet" ["test"]).key
      = false ∧
    ((closedInstance.Get sampleLibs none "TestSet" ["test"]).Remember sampleLibs
      (.ptr .string (.string "")) (some (false, .string "v", none)) emptyWorld).result
      = .ret (some .ErrClientNil) ∧
    (closedInstance.Set none "TestSet").setFn = some closedInstance ∧
    ((closedInstance.Set none "TestSet").RateLimitOnce sampleLibs Minute emptyWorld).result
      = .ret (false, some .ErrClientNil) :=
  ⟨rfl, rfl, rfl,
    ((nil_client_reports_ErrClientNil sampleLibs noCluster closedInstance emptyWorld rfl).1
      (closedInstance.Get sampleLibs none "TestSet" ["test"]) (.ptr .string (.string ""))
      (some (false, .string "v", none)) rfl rfl).2.2.1,
    rfl,
    ((nil_client_reports_ErrClientNil sampleLibs noCluster closedInstance emptyWorld rfl).2.1
      (closedInstance.Set none "TestSet") .nil Minute rfl).2.2.2.2.1⟩

/-! ## Errors of the store that do not reach the caller -/

/-- C24 fails on the code: the store holds `test_value` under `cache-app:test:TestSet`
and the existence probe fails with a timeout; `Has` answers false, so
`Get(nil, "TestSet", "test").Remember(&s, rem)` invokes `rem`, overwrites the entry
with the computed text `fresh` and returns nil: the error of the probe is lost. -/
theorem remember_swallows_probe_error :
    probeFaultWorld.find "cache-app:test:TestSet" = some ⟨"test_value".data, 0⟩ ∧
    probeFaultWorld.fault
      (.Exists (some (.WithTimeout .Background Second)) "cache-app:test:TestSet")
      = some (.External "i/o timeout") ∧
    (sampleInstance.Has sampleLibs none "TestSet" ["test"] probeFaultWorld).1 = false ∧
    ((sampleInstance.Get sampleLibs none "TestSet" ["test"]).Remember sampleLibs
      (.ptr .string (.string "")) (some (false, .string "fresh", none)) probeFaultWorld).result
      = .ret none ∧
    ((sampleInstance.Get sampleLibs none "TestSet" ["test"]).Remember sampleLibs
      (.ptr .string (.string "")) (some (false, .string "fresh", none)) probeFaultWorld).world.remCalls
      = 1 ∧
    ((sampleInstance.Get sampleLibs none "TestSet" ["test"]).Remember sampleLibs
      (.ptr .string (.string "")) (some (false, .string "fresh", none)) probeFaultWorld).world.data
      = [("cache-app:test:TestSet", ⟨"fresh".data, DefaultTTL⟩)] ∧
    ((sampleInstance.Get sampleLibs none "TestSet" ["test"]).Remember sampleLibs
      (.ptr .string (.string "")) (some (false, .string "fresh", none)) probeFaultWorld).out
      = .ptr .string (.string "fresh") :=
  ⟨rfl, rfl, rfl, rfl, rfl, rfl, rfl⟩

/-- C25 fails on the code: on a clustered instance with two masters, the scan of
master 1 fails with a timeout during the fan-out, `ForEachMaster` returns that error,
and `GetAllKeys(nil, "test")` returns a nil error all the same, with the keys of the
other scans. -/
theorem GetAllKeys_drops_master_scan_error :
    masterFaultWorld.fault
      (.Scan (some 1) (some (.WithTimeout .Background Second)) 0 "cache-app:test:*" 0)
      = some (.External "i/o timeout") ∧
    (forEachMasterScan twoMasters .cluster (some (.WithTimeout .Background Second))
      "cache-app:test:*" 2 0 [] masterFaultWorld).1 = some (.External "i/o timeout") ∧
    (clusterInstance.GetAllKeys sampleLibs twoMasters none "test" masterFaultWorld).world.log
      = [.Scan (some 0) (some (.WithTimeout .Background Second)) 0 "cache-app:test:*" 0,
         .Scan (some 1) (some (.WithTimeout .Background Second)) 0 "cache-app:test:*" 0,
         .Scan none (some (.WithTimeout .Background Second)) 0 "cache-app:test:*" 0] ∧
    (clusterInstance.GetAllKeys sampleLibs twoMasters none "test" masterFaultWorld).err = none ∧
    (clusterInstance.GetAllKeys sampleLibs twoMasters none "test" masterFaultWorld).keys
      = [⟨"cache-app", "test", "TestSet"⟩, ⟨"cache-app", "test", "TestSet"⟩] :=
  ⟨rfl, rfl, rfl, rfl, rfl⟩

/-! ## Form of the encoded bytes -/

theorem digitsValue_digit (n d : Nat) (cs : List Char) (hd : d < 10) :
    digitsValue (digitChar d :: cs) n = digitsValue cs (n * 10 + d) := by
  have h1 := digitChar_isDigit d hd
  have h2 := digitChar_toNat d hd
  simp only [digitsValue, h1, h2, and_self, if_true]

theorem digitsValue_natDigits :
    ∀ (fuel m : Nat) (rest : List Char), m ≤ fuel →
      digitsValue (natDigitsFuel fuel m ++ rest) 0 = digitsValue rest m := by
  intro fuel
  induction fuel with
  | zero =>
    intro m rest hf
    have hm0 : m = 0 := by omega
    subst hm0
    have := digitsValue_digit 0 0 rest (by decide)
    simpa [natDigitsFuel] using this
  | succ f ih =>
    intro m rest hf
    by_cases h10 : m < 10
    · have := digitsValue_digit 0 m rest h10
      simpa [natDigitsFuel, h10] using this
    · have hdiv : m / 10 ≤ f := by omega
      have hmod : m % 10 < 10 := Nat.mod_lt _ (by decide)
      have hsum : m / 10 * 10 + m % 10 = m := by omega
      have step := digitsValue_digit (m / 10) (m % 10) rest hmod
      simp only [natDigitsFuel, h10, if_false, List.append_assoc, List.singleton_append]
      rw [ih (m / 10) _ hdiv, step, hsum]

theorem digitChar_ne_zero : ∀ d, d < 10 → 0 < d → digitChar d ≠ '0' := by decide

theorem natDigitsFuel_head_pos :
    ∀ (fuel m : Nat), m ≤ fuel → 0 < m →
      ∃ d tl, 0 < d ∧ d < 10 ∧ natDigitsFuel fuel m = digitChar d :: tl := by
  intro fuel
  induction fuel with
  | zero =>
    intro m hf hpos
    omega
  | succ f ih =>
    intro m hf hpos
    by_cases h10 : m < 10
    · exact ⟨m, [], hpos, h10, by simp [natDigitsFuel, h10]⟩
    · obtain ⟨d, tl, hd0, hd, he⟩ := ih (m / 10) (by omega) (by omega)
      exact ⟨d, tl ++ [digitChar (m % 10)], hd0, hd, by simp [natDigitsFuel, h10, he]⟩

theorem canonicalDigits_natDigits (n : Nat) : canonicalDigits (natDigitsFuel n n) n = true := by
  have hval : digitsValue (natDigitsFuel n n) 0 = some n := by
    have := digitsValue_natDigits n n [] (le_refl _)
    simpa [digitsValue] using this
  obtain ⟨d, tl, hd, he⟩ := natDigitsFuel_head n n
  have hne : natDigitsFuel n n ≠ [] := by rw [he]; simp
  have hhead : (natDigitsFuel n n).head? ≠ some '0' ∨ natDigitsFuel n n = ['0'] := by
    rcases Nat.eq_zero_or_pos n with h0 | hpos
    · right
      subst h0
      rfl
    · left
      obtain ⟨d1, tl1, hd0, hd1, he1⟩ := natDigitsFuel_head_pos n n (le_refl _) hpos
      rw [he1]
      simp only [List.head?_cons, ne_eq, Option.some.injEq]
      exact digitChar_ne_zero d1 hd1 hd0
  simp only [canonicalDigits, Bool.and_eq_true, Bool.or_eq_true, decide_eq_true_eq]
  exact ⟨⟨hne, hval⟩, hhead⟩

theorem FormatUint_canonical (n : Nat) : isCanonicalDecimal (FormatUint n).data (n : Int) = true := by
  obtain ⟨d, tl, hd, he⟩ := natDigitsFuel_head n n
  have hc := canonicalDigits_natDigits n
  have hsign := (digitChar_ne_sign d hd).2
  simp only [FormatUint]
  rw [he] at hc ⊢
  unfold isCanonicalDecimal
  split
  · rename_i ds heq
    simp only [List.cons.injEq] at heq
    exact absurd heq.1 hsign
  · simp [hc]

theorem FormatInt_canonical (n : Int) : isCanonicalDecimal (FormatInt n).data n = true := by
  by_cases hneg : n < 0
  · have hs : FormatInt n = String.mk ('-' :: natDigitsFuel n.natAbs n.natAbs) := by
      simp [FormatInt, hneg]
    rw [hs]
    simp [isCanonicalDecimal, hneg, canonicalDigits_natDigits]
  · have hs : FormatInt n = FormatUint n.toNat := by simp [FormatInt, hneg]
    have h := FormatUint_canonical n.toNat
    rw [hs]
    rw [Int.toNat_of_nonneg (not_lt.mp hneg)] at h
    exact h

/-- C26: `encoder` returns the bytes of a string unchanged and a `[]byte` unchanged;
for every value of one of the ten integer types it returns, without error, the
canonical base-10 text of the value (a leading `-` exactly for a negative value, no
sign otherwise, no leading zeros); for a bool it returns exactly `true` or `false`. -/
theorem encoder_output_form (L : Libs) :
    (∀ s : String, encoder L (.string s) = .ok s.data) ∧
    (∀ b : Bytes, encoder L (.bytes b) = .ok b) ∧
    (∀ (v : Value) (n : Int), v.intValue? = some n →
      ∃ b, encoder L v = .ok b ∧ isCanonicalDecimal b n = true) ∧
    encoder L (.bool true) = .ok "true".data ∧
    encoder L (.bool false) = .ok "false".data := by
  refine ⟨fun _ => rfl, fun _ => rfl, ?_, rfl, rfl⟩
  intro v n hv
  cases v <;> simp only [Value.intValue?, Option.some.injEq, reduceCtorEq] at hv <;> subst hv
  case int m => exact ⟨_, rfl, FormatInt_canonical m⟩
  case int8 m => exact ⟨_, rfl, FormatInt_canonical m⟩
  case int16 m => exact ⟨_, rfl, FormatInt_canonical m⟩
  case int32 m => exact ⟨_, rfl, FormatInt_canonical m⟩
  case int64 m => exact ⟨_, rfl, FormatInt_canonical m⟩
  case uint m => exact ⟨_, rfl, FormatUint_canonical m⟩
  case uint8 m => exact ⟨_, rfl, FormatUint_canonical m⟩
  case uint16 m => exact ⟨_, rfl, FormatUint_canonical m⟩
  case uint32 m => exact ⟨_, rfl, FormatUint_canonical m⟩
  case uint64 m => exact ⟨_, rfl, FormatUint_canonical m⟩

theorem encoder_output_form_witness :
    (Value.int16 (-1200)).intValue? = some (-1200) ∧
    encoder sampleLibs (.int16 (-1200)) = .ok "-1200".data ∧
    isCanonicalDecimal "-1200".data (-1200) = true ∧
    isCanonicalDecimal "-01200".data (-1200) = false ∧
    isCanonicalDecimal "+7".data 7 = false ∧
    ∃ b, encoder sampleLibs (.int16 (-1200)) = .ok b ∧ isCanonicalDecimal b (-1200) = true :=
  ⟨rfl, rfl, by decide, by decide, by decide,
    (encoder_output_form sampleLibs).2.2.1 (.int16 (-1200)) (-1200) rfl⟩

/-! ## Opening the connection -/

/-- C27 as stated fails in both directions.  With both `Addresses` and
`SentinelAddresses` resolving to a non-empty list, `open` returns nil and binds the
standalone client of `Addresses`; with `Addresses` holding blank entries only and
`SentinelAddresses` naming a sentinel, so that exactly one resolves to a non-empty
list, `open` fails. -/
theorem open_not_exactly_one_source :
    resolveAddrs bothSourcesInstance.cfg.Addresses = ["localhost:6379"] ∧
    resolveAddrs bothSourcesInstance.cfg.SentinelAddresses = ["sentinel-a:26379"] ∧
    (bothSourcesInstance.open sampleLibs).1 = none ∧
    (bothSourcesInstance.open sampleLibs).2.client = some .standalone ∧
    resolveAddrs blankAddressesInstance.cfg.Addresses = [] ∧
    resolveAddrs blankAddressesInstance.cfg.SentinelAddresses = ["sentinel-a:26379"] ∧
    (blankAddressesInstance.open sampleLibs).1 =
      some (.New "[cache] failed to open connection: redis.Addresses is empty") ∧
    (blankAddressesInstance.open sampleLibs).2.client = none := by
  refine ⟨by decide, by decide, by decide, by decide, by decide, by decide, by decide, by decide⟩

/-- C27, amended: `open` reads `Addresses` first.  It succeeds if and only if
`Addresses` is set (not judged empty) and resolves, after splitting on commas and
dropping the entries that `strings.TrimSpace` leaves empty, to a non-empty list, or
`Addresses` is not set and `SentinelAddresses` is set and resolves to a non-empty list.
When `Addresses` is set and resolves, whatever `SentinelAddresses` holds, the client
bound is the one built from `Addresses`: a cluster client when `Addresses` contains a
comma, a standalone client otherwise; when `Addresses` is set and holds blank entries
only, `open` fails whatever `SentinelAddresses` holds.  When `Addresses` is not set and
`SentinelAddresses` resolves, the client is a failover client, a failover cluster
client when `SentinelCluster` is set.  When `open` fails the client is left as it was,
so none is bound on an instance that had none. -/
theorem open_address_sources (L : Libs) (i : Instance) :
    ((i.open L).1 = none ↔
      (L.ValidationIsEmpty i.cfg.Addresses = false ∧ resolveAddrs i.cfg.Addresses ≠ []) ∨
      (L.ValidationIsEmpty i.cfg.Addresses = true ∧
        L.ValidationIsEmpty i.cfg.SentinelAddresses = false ∧
        resolveAddrs i.cfg.SentinelAddresses ≠ [])) ∧
    (L.ValidationIsEmpty i.cfg.Addresses = false → resolveAddrs i.cfg.Addresses ≠ [] →
      (i.open L).1 = none ∧
      (i.open L).2.client =
        some (if stringsContains i.cfg.Addresses "," then .cluster else .standalone)) ∧
    (L.ValidationIsEmpty i.cfg.Addresses = false → resolveAddrs i.cfg.Addresses = [] →
      (i.open L).1 = some (.New "[cache] failed to open connection: redis.Addresses is empty") ∧
      (i.open L).2.client = i.client) ∧
    (L.ValidationIsEmpty i.cfg.Addresses = true →
      L.ValidationIsEmpty i.cfg.SentinelAddresses = false →
      resolveAddrs i.cfg.SentinelAddresses ≠ [] →
      (i.open L).1 = none ∧
      (i.open L).2.client =
        some (if i.cfg.SentinelCluster then .failoverCluster else .failover)) ∧
    ((i.open L).1 ≠ none → (i.open L).2.client = i.client) := by
  unfold Instance.open
  cases ha : L.ValidationIsEmpty i.cfg.Addresses <;>
    cases hs : L.ValidationIsEmpty i.cfg.SentinelAddresses <;>
    cases hra : resolveAddrs i.cfg.Addresses <;>
    cases hrs : resolveAddrs i.cfg.SentinelAddresses <;>
    cases hcl : stringsContains i.cfg.Addresses "," <;>
    cases hsc : i.cfg.SentinelCluster <;>
    simp

theorem open_address_sources_witness :
    sampleLibs.ValidationIsEmpty bothSourcesInstance.cfg.Addresses = false ∧
    resolveAddrs bothSourcesInstance.cfg.Addresses ≠ [] ∧
    ((bothSourcesInstance.open sampleLibs).1 = none ∧
      (bothSourcesInstance.open sampleLibs).2.client =
        some (if stringsContains bothSourcesInstance.cfg.Addresses "," then .cluster
          else .standalone)) ∧
    TrimSpace " \tnode-a:6379\r\n" = "node-a:6379" ∧
    TrimSpace (String.mk [Char.ofNat 0xA0]) = String.mk [Char.ofNat 0xA0] ∧
    TrimSpace (String.mk [Char.ofNat 0xC2, Char.ofNat 0xA0]) = "" ∧
    TrimSpace (String.mk [Char.ofNat 0xE3, Char.ofNat 0x80, Char.ofNat 0x80, 'a', ' ',
      Char.ofNat 0xE2, Char.ofNat 0x80, Char.ofNat 0x83]) = "a" ∧
    (({ closedInstance with cfg := { sampleConfig with
        Addresses := String.mk [Char.ofNat 0xA0] } } : Instance).open sampleLibs).2.client
      = some .standalone ∧
    ({ closedInstance with cfg := { sampleConfig with Addresses := "" } } : Instance).open
      sampleLibs = (some (.New
        "at least one of redis addresses and sentinel addresses must be defines"),
        { closedInstance with cfg := { sampleConfig with Addresses := "" } }) :=
  ⟨by decide, by decide,
    (open_address_sources sampleLibs bothSourcesInstance).2.1 (by decide) (by decide),
    by decide, by decide, by decide, by decide, by decide, by decide⟩

/-! ## The pattern of the scan -/

theorem redis_Scan_log (cl : Cluster) (client : Client) (node : Option Nat)
    (ctx : Option Context) (cursor : Nat) (pattern : String) (count : Int) (w : World) :
    (redis.Scan cl client node ctx cursor pattern count w).2.log =
      w.log ++ [.Scan node ctx cursor pattern count] := by
  unfold redis.Scan
  split <;> rfl

theorem scan_log (cl : Cluster) (rdb : Client) (node : Option Nat) (ctx : Option Context)
    (pattern : String) (founds : List Keyer) (w : World) :
    (scan cl rdb node ctx pattern founds w).2.2.log = w.log ++ [.Scan node ctx 0 pattern 0] := by
  have h := redis_Scan_log cl rdb node ctx 0 pattern 0 w
  unfold scan
  rcases hr : redis.Scan cl rdb node ctx 0 pattern 0 w with ⟨r, w1⟩
  rw [hr] at h
  cases r <;> simpa using h

theorem forEachMasterScan_log (cl : Cluster) (rdb : Client) (ctx : Option Context)
    (pattern : String) :
    ∀ (n m : Nat) (founds : List Keyer) (w : World),
      (forEachMasterScan cl rdb ctx pattern n m founds w).2.2.log =
        w.log ++ (List.range' m n).map (fun k => Call.Scan (some k) ctx 0 pattern 0) := by
  intro n
  induction n with
  | zero =>
    intro m founds w
    simp [forEachMasterScan]
  | succ n ih =>
    intro m founds w
    have hs := scan_log cl rdb (some m) ctx pattern founds w
    simp only [forEachMasterScan]
    rw [ih, hs]
    simp [List.range'_succ]

theorem TrimSuffix_append_star (q : String) : TrimSuffix (q ++ "*") "*" = q := by
  unfold TrimSuffix
  have hsuf : "*".data.isSuffixOf (q ++ "*").data = true := by
    rw [List.isSuffixOf_iff_suffix]
    exact ⟨q.data, rfl⟩
  rw [if_pos hsuf]
  show String.mk (List.take ((q.data ++ ['*']).length - 1) (q.data ++ ['*'])) = q
  simp

theorem TrimSuffix_not_suffix (p : String) (h : p.data.getLast? ≠ some '*') :
    TrimSuffix p "*" = p := by
  unfold TrimSuffix
  have hsuf : ¬ ("*".data.isSuffixOf p.data = true) := by
    rw [List.isSuffixOf_iff_suffix]
    rintro ⟨t, ht⟩
    apply h
    rw [← ht]
    show (t ++ ['*']).getLast? = some '*'
    simp
  simp [hsuf]

/-- The commands `GetAllKeys` sends for a prefix not judged empty, on an open instance
that, when clustered, holds a cluster client: one scan for every master of the fan-out
and one through the client of the instance, all with the same pattern. -/
theorem GetAllKeys_log (L : Libs) (cl : Cluster) (i : Instance) (c : Client) (w : World)
    (ctx : Option Context) (p : String) (hc : i.client = some c)
    (hcl : i.clustering = true → c.isClusterClient = true)
    (hp : L.ValidationIsEmpty p = false) :
    (i.GetAllKeys L cl ctx p w).world.log =
      w.log ++
        (if i.clustering then
          (List.range' 0 cl.owns.length).map (fun k => Call.Scan (some k)
            (some (defaultCtx ctx).1) 0
            (i.cfg.Namespace ++ DefaultKeySeparator ++ TrimSuffix p "*" ++ DefaultKeySeparator ++ "*")
            0)
        else []) ++
        [.Scan none (some (defaultCtx ctx).1) 0
          (i.cfg.Namespace ++ DefaultKeySeparator ++ TrimSuffix p "*" ++ DefaultKeySeparator ++ "*")
          0] := by
  unfold Instance.GetAllKeys
  simp only [hc, hp]
  cases hclu : i.clustering with
  | false =>
    simp only [Bool.false_eq_true, if_false, cancelIf_log, List.append_nil]
    exact scan_log cl c none _ _ [] w
  | true =>
    have hcc := hcl hclu
    simp only [hcc, Bool.not_true, Bool.false_eq_true, if_false, if_true, cancelIf_log]
    rw [scan_log, forEachMasterScan_log]

/-- C28: on an open instance (holding a cluster client when clustered), for every
prefix `p` not judged empty, every scan that `GetAllKeys(ctx, p)` sends, one for each
master of the fan-out and one through the client of the instance, carries the pattern
`namespace:p1:*`, where `p1` is `q` when `p` is `q` followed by `*` and is `p` when `p`
does not end in `*`; hence for `p` not ending in `*`, `GetAllKeys(ctx, p)` and
`GetAllKeys(ctx, p + "*")` send the same scans, with the pattern `namespace:p:*`, and
return the same. -/
theorem GetAllKeys_scan_pattern (L : Libs) (cl : Cluster) (i : Instance) (c : Client)
    (w : World) (ctx : Option Context) (hc : i.client = some c)
    (hcl : i.clustering = true → c.isClusterClient = true) :
    (∀ p p1 : String, L.ValidationIsEmpty p = false →
      (p = p1 ++ "*" ∨ (p.data.getLast? ≠ some '*' ∧ p1 = p)) →
      (i.GetAllKeys L cl ctx p w).world.log =
        w.log ++
          (if i.clustering then
            (List.range' 0 cl.owns.length).map (fun k => Call.Scan (some k)
              (some (defaultCtx ctx).1) 0 (i.cfg.Namespace ++ ":" ++ p1 ++ ":" ++ "*") 0)
          else []) ++
          [.Scan none (some (defaultCtx ctx).1) 0 (i.cfg.Namespace ++ ":" ++ p1 ++ ":" ++ "*") 0]) ∧
    (∀ p : String, p.data.getLast? ≠ some '*' → L.ValidationIsEmpty p = false →
      L.ValidationIsEmpty (p ++ "*") = false →
      i.GetAllKeys L cl ctx (p ++ "*") w = i.GetAllKeys L cl ctx p w) := by
  constructor
  · intro p p1 hp hcase
    have htrim : TrimSuffix p "*" = p1 := by
      rcases hcase with h | ⟨h, h1⟩
      · rw [h]; exact TrimSuffix_append_star p1
      · rw [h1]; exact TrimSuffix_not_suffix p h
    have h := GetAllKeys_log L cl i c w ctx p hc hcl hp
    rw [htrim] at h
    exact h
  · intro p hlast hp hps
    unfold Instance.GetAllKeys
    simp only [hc, hp, hps, TrimSuffix_append_star, TrimSuffix_not_suffix p hlast]

theorem GetAllKeys_scan_pattern_witness :
    sampleInstance.client = some .standalone ∧
    sampleLibs.ValidationIsEmpty "test*" = false ∧
    (sampleInstance.GetAllKeys sampleLibs noCluster none "test*" storedWorld).world.log =
      [.Scan none (some (.WithTimeout .Background Second)) 0 "cache-app:test:*" 0] ∧
    (sampleInstance.GetAllKeys sampleLibs noCluster none "test" storedWorld).world.log =
      [.Scan none (some (.WithTimeout .Background Second)) 0 "cache-app:test:*" 0] ∧
    (sampleInstance.GetAllKeys sampleLibs noCluster none "test*" storedWorld).keys =
      [⟨"cache-app", "test", "TestSet"⟩] :=
  ⟨rfl, rfl,
    (GetAllKeys_scan_pattern sampleLibs noCluster sampleInstance .standalone storedWorld none rfl
      (fun h => absurd h (by decide))).1 "test*" "test" rfl (Or.inl rfl),
    rfl, rfl⟩

/-! ## Remember, called twice -/

/-- `Remember` on a stored key, on a store without faults: the outcome is that of
decoding the stored bytes, and the world gains two commands and nothing else. -/
theorem Remember_found_eq (L : Libs) (i : Instance) (c : Client) (w : World)
    (ctx : Option Context) (k : String) (pre : List String) (out : Value) (rem : RememberFn)
    (e : Entry) (hc : i.client = some c) (hmap : ∀ call, w.fault call = none)
    (hk : L.ValidationIsEmpty (withPrefix L k pre) = false)
    (hd : w.find (i.cfg.Namespace ++ DefaultKeySeparator ++ withPrefix L k pre) = some e) :
    (i.Get L ctx k pre).Remember L out (some rem) w =
      ⟨wrapDecode (decoder L e.val out).1, getter.zero, (decoder L e.val out).2,
        ((w.issue (.Exists (some (defaultCtx ctx).1)
            (i.cfg.Namespace ++ DefaultKeySeparator ++ withPrefix L k pre))).issue
          (.Get (some (defaultCtx ctx).1)
            (i.cfg.Namespace ++ DefaultKeySeparator ++ withPrefix L k pre))).cancelIf
          (defaultCtx ctx).2⟩ := by
  have hrem : (i.Get L ctx k pre).Remember L out (some rem) w
      = i.get L (i.Get L ctx k pre) out [some rem] w := rfl
  have hgr := getRemember_found L i (i.Get L ctx k pre) out rem w c (defaultCtx ctx).1 e hc rfl
    (hmap _) hd
  have hget : i.get L (i.Get L ctx k pre) out [some rem] w
      = i.getExec L (i.Get L ctx k pre) out
          (w.issue (.Exists (some (defaultCtx ctx).1)
            (i.cfg.Namespace ++ DefaultKeySeparator ++ (i.Get L ctx k pre).key))) := by
    have hk1 : L.ValidationIsEmpty (i.Get L ctx k pre).key = false := hk
    simp [Instance.get, hk1, Instance.validateClient, hc, hgr]
  have hfound := getExec_found L i (i.Get L ctx k pre) out
    (w.issue (.Exists (some (defaultCtx ctx).1)
      (i.cfg.Namespace ++ DefaultKeySeparator ++ (i.Get L ctx k pre).key))) e (hmap _) hd
  rw [hrem, hget, hfound]
  rfl

/-- `Remember` on a missing key, on a store without faults, with a compute function
that returns an encodable value assignable to the target of `out`: it returns nil,
sets the target, and leaves the encoded value in the store, whose faults are as
before. -/
theorem Remember_compute_facts (L : Libs) (i : Instance) (c : Client) (w : World)
    (ctx : Option Context) (k : String) (pre : List String) (elem : GoType) (old v : Value)
    (forever : Bool) (vt : GoType) (b : Bytes)
    (hc : i.client = some c) (hmap : ∀ call, w.fault call = none)
    (hk : L.ValidationIsEmpty (withPrefix L k pre) = false)
    (hd : w.find (i.cfg.Namespace ++ DefaultKeySeparator ++ withPrefix L k pre) = none)
    (hty : v.typeOf = some vt) (hassign : L.AssignableTo vt elem = true)
    (henc : encoder L v = .ok b) :
    ((i.Get L ctx k pre).Remember L (.ptr elem old) (some (forever, v, none)) w).result
      = .ret none ∧
    ((i.Get L ctx k pre).Remember L (.ptr elem old) (some (forever, v, none)) w).out
      = .ptr elem v ∧
    ((i.Get L ctx k pre).Remember L (.ptr elem old) (some (forever, v, none)) w).world.find
        (i.cfg.Namespace ++ DefaultKeySeparator ++ withPrefix L k pre)
      = some ⟨b, if forever then 0 else DefaultTTL⟩ ∧
    ((i.Get L ctx k pre).Remember L (.ptr elem old) (some (forever, v, none)) w).world.fault
      = w.fault ∧
    ((i.Get L ctx k pre).Remember L (.ptr elem old) (some (forever, v, none)) w).world.remCalls
      = w.remCalls + 1 := by
  have hrem : (i.Get L ctx k pre).Remember L (.ptr elem old) (some (forever, v, none)) w
      = i.get L (i.Get L ctx k pre) (.ptr elem old) [some (forever, v, none)] w := rfl
  have hk1 : L.ValidationIsEmpty (i.Get L ctx k pre).key = false := hk
  have hgr := getRemember_compute L i (i.Get L ctx k pre) elem old v forever vt b w c
    (defaultCtx ctx).1 hc rfl hk1 hd hty hassign henc
  have hset := redis_Set_ok (some (defaultCtx ctx).1)
    (i.cfg.Namespace ++ DefaultKeySeparator ++ (i.Get L ctx k pre).key) b
    (if forever then 0 else DefaultTTL)
    { w.issue (.Exists (some (defaultCtx ctx).1)
        (i.cfg.Namespace ++ DefaultKeySeparator ++ (i.Get L ctx k pre).key)) with
      remCalls := w.remCalls + 1 } (hmap _)
  rw [hset] at hgr
  rw [hrem]
  simp only [Instance.get, hk1, Instance.validateClient, hc, hgr]
  simp [cancelIf_data, cancelIf_remCalls, cancelIf_fault, World.find, World.issue, List.lookup,
    Instance.Get]

/-- C29: on an open instance and a store that behaves as a map, for a key (with its
prefix) not judged empty under which nothing is stored, and a value `v` of type
string, `[]byte`, bool or an integer type (in the range of its type): the first
`Get(ctx,k,p).Remember(&a, rem)`, with `a` of the type of `v` and `rem` returning `v`,
returns nil and leaves `a == v`; an immediately following
`Get(ctx,k,p).Remember(&b, rem2)` with `b` of the same type does not invoke `rem2`,
returns nil and leaves `b == v`, whatever `rem2` would return. -/
theorem remember_stable (L : Libs) (i : Instance) (c : Client) (w : World)
    (ctx ctx' : Option Context) (k : String) (pre : List String) (t : GoType) (a b v : Value)
    (forever : Bool) (rem2 : RememberFn)
    (hc : i.client = some c) (hmap : ∀ call, w.fault call = none)
    (hk : L.ValidationIsEmpty (withPrefix L k pre) = false)
    (hd : w.find (i.cfg.Namespace ++ ":" ++ withPrefix L k pre) = none)
    (hnative : v.isNative = true) (hrange : v.inRange = true) (hty : v.typeOf = some t)
    (hassign : L.AssignableTo t t = true) :
    ((i.Get L ctx k pre).Remember L (.ptr t a) (some (forever, v, none)) w).result = .ret none ∧
    ((i.Get L ctx k pre).Remember L (.ptr t a) (some (forever, v, none)) w).out = .ptr t v ∧
    ((i.Get L ctx' k pre).Remember L (.ptr t b) (some rem2)
      ((i.Get L ctx k pre).Remember L (.ptr t a) (some (forever, v, none)) w).world).result
      = .ret none ∧
    ((i.Get L ctx' k pre).Remember L (.ptr t b) (some rem2)
      ((i.Get L ctx k pre).Remember L (.ptr t a) (some (forever, v, none)) w).world).out
      = .ptr t v ∧
    ((i.Get L ctx' k pre).Remember L (.ptr t b) (some rem2)
      ((i.Get L ctx k pre).Remember L (.ptr t a) (some (forever, v, none)) w).world).world.remCalls
      = ((i.Get L ctx k pre).Remember L (.ptr t a) (some (forever, v, none)) w).world.remCalls := by
  obtain ⟨bytes, henc, hdec⟩ := decoder_encoder_native L v b t hnative hrange hty
  obtain ⟨hres, hout, hfind, hfault, _⟩ := Remember_compute_facts L i c w ctx k pre t a v forever
    t bytes hc hmap hk hd hty hassign henc
  have hmap1 : ∀ call,
      ((i.Get L ctx k pre).Remember L (.ptr t a) (some (forever, v, none)) w).world.fault call
        = none := by
    intro call
    rw [hfault]
    exact hmap call
  have h2 := Remember_found_eq L i c _ ctx' k pre (.ptr t b) rem2
    ⟨bytes, if forever then 0 else DefaultTTL⟩ hc hmap1 hk hfind
  refine ⟨hres, hout, ?_, ?_, ?_⟩
  · rw [h2]
    simp [hdec, wrapDecode]
  · rw [h2]
    simp [hdec]
  · rw [h2]
    simp [cancelIf_remCalls, issue_remCalls]

theorem remember_stable_witness :
    sampleInstance.client = some .standalone ∧ (∀ call, emptyWorld.fault call = none) ∧
    sampleLibs.ValidationIsEmpty (withPrefix sampleLibs "TestRemember" ["test"]) = false ∧
    emptyWorld.find (sampleInstance.cfg.Namespace ++ ":" ++
      withPrefix sampleLibs "TestRemember" ["test"]) = none ∧
    (Value.int (-15)).isNative = true ∧ (Value.int (-15)).inRange = true ∧
    (Value.int (-15)).typeOf = some .int ∧ sampleLibs.AssignableTo .int .int = true ∧
    ((sampleInstance.Get sampleLibs none "TestRemember" ["test"]).Remember sampleLibs
      (.ptr .int (.int 0)) (some (true, .int 7, none))
      ((sampleInstance.Get sampleLibs none "TestRemember" ["test"]).Remember sampleLibs
        (.ptr .int (.int 0)) (some (false, .int (-15), none)) emptyWorld).world).out
      = .ptr .int (.int (-15)) :=
  ⟨rfl, fun _ => rfl, rfl, rfl, rfl, by decide, rfl, rfl,
    (remember_stable sampleLibs sampleInstance .standalone emptyWorld none none "TestRemember"
      ["test"] .int (.int 0) (.int 0) (.int (-15)) false (true, .int 7, none) rfl (fun _ => rfl)
      rfl rfl rfl (by decide) rfl rfl).2.2.2.1⟩

/-! ## The error of the scan through the client of the instance -/

theorem scan_fault (cl : Cluster) (rdb : Client) (node : Option Nat) (ctx : Option Context)
    (pattern : String) (founds : List Keyer) (w : World) :
    (scan cl rdb node ctx pattern founds w).2.2.fault = w.fault := by
  unfold scan redis.Scan
  split <;> rename_i heq <;> split at heq <;> simp only [Prod.mk.injEq] at heq <;>
    obtain ⟨_, hw⟩ := heq <;> rw [← hw] <;> rfl

theorem forEachMasterScan_fault (cl : Cluster) (rdb : Client) (ctx : Option Context)
    (pattern : String) :
    ∀ (n m : Nat) (founds : List Keyer) (w : World),
      (forEachMasterScan cl rdb ctx pattern n m founds w).2.2.fault = w.fault := by
  intro n
  induction n with
  | zero =>
    intro m founds w
    rfl
  | succ n ih =>
    intro m founds w
    simp only [forEachMasterScan]
    rw [ih, scan_fault]

theorem scan_error (cl : Cluster) (rdb : Client) (node : Option Nat) (ctx : Option Context)
    (pattern : String) (founds : List Keyer) (w : World) (e : Error)
    (hf : w.fault (.Scan node ctx 0 pattern 0) = some e) :
    (scan cl rdb node ctx pattern founds w).1 = some e := by
  simp [scan, redis.Scan, hf]

/-- The half of the propagation that the code has: when the scan through the client of
the instance fails, `GetAllKeys` returns its error. -/
theorem GetAllKeys_default_scan_error (L : Libs) (cl : Cluster) (i : Instance) (c : Client)
    (w : World) (ctx : Option Context) (p : String) (e : Error) (hc : i.client = some c)
    (hcl : i.clustering = true → c.isClusterClient = true)
    (hp : L.ValidationIsEmpty p = false)
    (hf : w.fault (.Scan none (some (defaultCtx ctx).1) 0
      (i.cfg.Namespace ++ DefaultKeySeparator ++ TrimSuffix p "*" ++ DefaultKeySeparator ++ "*") 0)
      = some e) :
    (i.GetAllKeys L cl ctx p w).err = some e := by
  unfold Instance.GetAllKeys
  simp only [hc, hp]
  cases hclu : i.clustering with
  | false =>
    simp only [Bool.false_eq_true, if_false]
    exact scan_error cl c none _ _ [] w e hf
  | true =>
    have hcc := hcl hclu
    simp only [hcc, Bool.not_true, Bool.false_eq_true, if_false, if_true]
    apply scan_error
    rw [forEachMasterScan_fault]
    exact hf

/-! ## Remember when the probe or the write fails, or the value cannot be encoded -/

/-- C4 fails on the code: the store holds `test_value` under `cache-app:test:TestSet`
and the existence probe fails with a timeout.  `Get(nil, "TestSet", "test").Remember(&s,
rem)` then invokes `rem`: with `rem` returning an error it returns that error and
leaves `s` as it was, not decoded from the stored value; with `rem` returning
`(true, "fresh", nil)` it writes `fresh` over the stored value. -/
theorem remember_existing_probe_failure :
    probeFaultWorld.find "cache-app:test:TestSet" = some ⟨"test_value".data, 0⟩ ∧
    ((sampleInstance.Get sampleLibs none "TestSet" ["test"]).Remember sampleLibs
      (.ptr .string (.string "")) (some (false, .nil, some (.New "closure error")))
      probeFaultWorld).result = .ret (some (.New "closure error")) ∧
    ((sampleInstance.Get sampleLibs none "TestSet" ["test"]).Remember sampleLibs
      (.ptr .string (.string "")) (some (false, .nil, some (.New "closure error")))
      probeFaultWorld).world.remCalls = 1 ∧
    ((sampleInstance.Get sampleLibs none "TestSet" ["test"]).Remember sampleLibs
      (.ptr .string (.string "")) (some (false, .nil, some (.New "closure error")))
      probeFaultWorld).out = .ptr .string (.string "") ∧
    ((sampleInstance.Get sampleLibs none "TestSet" ["test"]).Remember sampleLibs
      (.ptr .string (.string "")) (some (true, .string "fresh", none))
      probeFaultWorld).world.log =
      [.Exists (some (.WithTimeout .Background Second)) "cache-app:test:TestSet",
       .Set (some (.WithTimeout .Background Second)) "cache-app:test:TestSet" "fresh".data 0] ∧
    ((sampleInstance.Get sampleLibs none "TestSet" ["test"]).Remember sampleLibs
      (.ptr .string (.string "")) (some (true, .string "fresh", none))
      probeFaultWorld).world.find "cache-app:test:TestSet" = some ⟨"fresh".data, 0⟩ :=
  ⟨rfl, rfl, rfl, rfl, rfl, rfl⟩

/-- C5 as stated fails: on an empty store, with `out` a pointer to a channel and the
compute function returning `(false, ch, nil)` for a channel `ch` of the same type,
which is assignable but which `encoder` cannot encode, `Remember` returns the wrapped
encoding error, leaves `*out` as it was and stores nothing; and with a string value on
a store whose write fails, `Remember` returns the error of the write and leaves `*out`
as it was. -/
theorem remember_missing_unencodable :
    emptyWorld.find "cache-app:test:TestRemember" = none ∧
    (Value.other "chan int" 1).typeOf = some (.other "chan int") ∧
    sampleLibs.AssignableTo (.other "chan int") (.other "chan int") = true ∧
    encoder sampleLibs (.other "chan int" 1) = .error (.External "msgpack: unsupported") ∧
    ((sampleInstance.Get sampleLibs none "TestRemember" ["test"]).Remember sampleLibs
      (.ptr (.other "chan int") (.other "chan int" 0)) (some (false, .other "chan int" 1, none))
      emptyWorld).result
      = .ret (some (.Wrap "failed to encode value %T" (.External "msgpack: unsupported"))) ∧
    ((sampleInstance.Get sampleLibs none "TestRemember" ["test"]).Remember sampleLibs
      (.ptr (.other "chan int") (.other "chan int" 0)) (some (false, .other "chan int" 1, none))
      emptyWorld).out = .ptr (.other "chan int") (.other "chan int" 0) ∧
    ((sampleInstance.Get sampleLibs none "TestRemember" ["test"]).Remember sampleLibs
      (.ptr (.other "chan int") (.other "chan int" 0)) (some (false, .other "chan int" 1, none))
      emptyWorld).world.data = [] ∧
    ((sampleInstance.Get sampleLibs none "TestRemember" ["test"]).Remember sampleLibs
      (.ptr .string (.string "")) (some (false, .string "fresh", none))
      writeFaultWorld).result = .ret (some (.External "i/o timeout")) ∧
    ((sampleInstance.Get sampleLibs none "TestRemember" ["test"]).Remember sampleLibs
      (.ptr .string (.string "")) (some (false, .string "fresh", none))
      writeFaultWorld).out = .ptr .string (.string "") ∧
    ((sampleInstance.Get sampleLibs none "TestRemember" ["test"]).Remember sampleLibs
      (.ptr .string (.string "")) (some (false, .string "fresh", none))
      writeFaultWorld).world.data = [] :=
  ⟨rfl, rfl, rfl, rfl, rfl, rfl, rfl, rfl, rfl, rfl⟩

end Cache
